import Mathlib

/-!
Channel upgrade handshake and ICS20 denomination traces.

A verification development for the channel layer (`modules/core/04-channel`) and
the transfer denomination traces (`modules/apps/transfer/types/trace.go`).

The upgrade keeper (`keeper/upgrade.go`) is not among the sources; only its test
file `keeper/upgrade_test.go` is.  The keeper operations below are therefore
modelled from the specification (§3, §4.3, §6, §7), with the signatures and the
observable outcomes fixed by `upgrade_test.go`.
-/

namespace Upgrade

/-! ## Data model (spec §3) -/

/-- Channel end states. -/
inductive State where
  | UNINITIALIZED | INIT | TRYOPEN | OPEN | CLOSED | INITUPGRADE | TRYUPGRADE
  deriving DecidableEq, Repr

/-- Channel ordering. -/
inductive Order where
  | ORDERED | UNORDERED
  deriving DecidableEq, Repr

/-- Counterparty of a channel end. -/
structure Counterparty where
  portID : String
  channelID : String
  deriving DecidableEq, Repr

/-- Channel End, one per (portID, channelID). -/
structure Channel where
  state : State
  ordering : Order
  counterparty : Counterparty
  connectionHops : List String
  version : String
  deriving DecidableEq, Repr

/-- Block height (`clienttypes.Height`): revision number and height in the revision. -/
structure Height where
  revisionNumber : Nat
  revisionHeight : Nat
  deriving DecidableEq, Repr

/-- `clienttypes.ZeroHeight()`. -/
def ZeroHeight : Height := ⟨0, 0⟩

/-- `Height.IsZero`. -/
def Height.IsZero (h : Height) : Bool :=
  h.revisionNumber == 0 && h.revisionHeight == 0

/-- `Height.GTE`: lexicographic comparison on (revision number, revision height). -/
def Height.GTE (h other : Height) : Bool :=
  decide (other.revisionNumber < h.revisionNumber) ||
    (h.revisionNumber == other.revisionNumber && decide (other.revisionHeight ≤ h.revisionHeight))

/-- `types.UpgradeTimeout`: absolute thresholds, a zero value meaning "not set". -/
structure UpgradeTimeout where
  timeoutHeight : Height
  timeoutTimestamp : Nat
  deriving DecidableEq, Repr

/-- Upgrade Proposal: transient record held while a channel is upgrading. -/
structure UpgradeProposal where
  proposedChannel : Channel
  timeoutHeight : Height
  timeoutTimestamp : Nat
  deriving DecidableEq, Repr

/-- Upgrade Error Receipt (spec §3: `{sequence: u64, errorMessage: string}`).  The
sequence is a 64-bit unsigned integer (`uint64` in `upgrade_test.go`); it is kept as a
natural number and every increment of a sequence is taken modulo `2 ^ 64`. -/
structure ErrorReceipt where
  sequence : Nat
  errorMessage : String
  deriving DecidableEq, Repr

/-- Error kinds returned by the upgrade operations.  `ErrInvalidUpgradeSequence`,
`ErrUpgradeAborted`, `ErrUpgradeTimeout` and `ErrInvalidChannel` are named in
`upgrade_test.go`; the others name the rejections listed in spec §7. -/
inductive Error where
  | ErrChannelNotFound
  | ErrInvalidChannelState
  | ErrChannelCapabilityNotFound
  | ErrChannelExists
  | ErrConnectionNotFound
  | ErrInvalidConnectionState
  | ErrInvalidConnection
  | ErrInvalidCounterparty
  | ErrInvalidChannelOrdering
  | ErrInvalidChannelVersion
  | ErrInvalidUpgradeTimeout
  | ErrUpgradeSequenceNotFound
  | ErrInvalidUpgradeSequence
  | ErrUpgradeAborted
  | ErrUpgradeTimeout
  | ErrInvalidChannel
  | ErrInvalidProof
  | ErrRestoreChannelNotFound
  deriving DecidableEq, Repr

/-- The message recorded in an error receipt for an error. -/
def Error.message : Error → String
  | .ErrChannelNotFound => "channel not found"
  | .ErrInvalidChannelState => "invalid channel state"
  | .ErrChannelCapabilityNotFound => "channel capability not found"
  | .ErrChannelExists => "channel already exists"
  | .ErrConnectionNotFound => "connection not found"
  | .ErrInvalidConnectionState => "invalid connection state"
  | .ErrInvalidConnection => "invalid connection"
  | .ErrInvalidCounterparty => "invalid counterparty channel"
  | .ErrInvalidChannelOrdering => "invalid channel ordering"
  | .ErrInvalidChannelVersion => "invalid channel version"
  | .ErrInvalidUpgradeTimeout => "invalid upgrade timeout"
  | .ErrUpgradeSequenceNotFound => "upgrade sequence not found"
  | .ErrInvalidUpgradeSequence => "invalid upgrade sequence"
  | .ErrUpgradeAborted => "upgrade aborted"
  | .ErrUpgradeTimeout => "upgrade timed-out"
  | .ErrInvalidChannel => "invalid channel"
  | .ErrInvalidProof => "invalid proof"
  | .ErrRestoreChannelNotFound => "restore channel not found"

/-- Persisted state under one (portID, channelID) key (spec §6, persisted state
layout): the channel end, the upgrade sequence, the upgrade proposal, the restore
snapshot and the upgrade error receipt.  An absent record is `none`.  The upgrade
sequence is a `uint64` (`upgrade_test.go`: `upgradeSequence uint64`,
`SetUpgradeSequence(..., uint64(100))`); it is kept as a natural number, and the
operations below increment it modulo `2 ^ 64`, as Go does. -/
structure Store where
  channelEnd : Option Channel
  upgradeSequence : Option Nat
  upgradeProposal : Option UpgradeProposal
  upgradeRestore : Option Channel
  upgradeErrorReceipt : Option ErrorReceipt
  deriving DecidableEq, Repr

/-- Connection end states (`connectiontypes.State`). -/
inductive ConnectionState where
  | UNINITIALIZED | INIT | TRYOPEN | OPEN
  deriving DecidableEq, Repr

/-- Connection end: its state and the connection identifier on the counterparty. -/
structure ConnectionEnd where
  state : ConnectionState
  counterpartyConnectionID : String
  deriving DecidableEq, Repr

/-- Kinds of counterparty records a proof can be about (spec §6, path encoding). -/
inductive PathKind where
  | channelEnd | upgradeSequence | upgradeTimeout | upgradeError
  deriving DecidableEq, Repr

/-- Key of a stored item: derived from (portID, channelID). -/
structure Path where
  kind : PathKind
  portID : String
  channelID : String
  deriving DecidableEq, Repr

/-- Values whose membership the proof oracle checks. -/
inductive StoredValue where
  | channel (c : Channel)
  | sequence (n : Nat)
  | timeout (t : UpgradeTimeout)
  | errorReceipt (r : ErrorReceipt)
  deriving DecidableEq, Repr

/-- External collaborators of the keeper (spec §6, §9: an explicit state handle):
the local clock, the connection store, the capability adapter, the proof oracle
and the application's version negotiation.  None of them is written by the
upgrade operations. -/
structure Env where
  selfHeight : Height
  blockTime : Nat
  connections : List (String × ConnectionEnd)
  Authenticate : Nat → String → String → Bool
  VerifyMembership : List Nat → Height → Path → StoredValue → Bool
  versionIntersection : String → String → Option String

/-- `GetConnection`: look a connection end up by identifier. -/
def Env.GetConnection (env : Env) (connectionID : String) : Option ConnectionEnd :=
  (env.connections.find? (fun p => p.1 == connectionID)).map (fun p => p.2)

/-- `GetUpgradeSequence` with the "not found" case read as zero: the value the
next upgrade attempt increments. -/
def Store.currentSequence (st : Store) : Nat :=
  st.upgradeSequence.getD 0

/-- `Order.SubsetOf`: a proposed ordering is admissible when it keeps the current
ordering or relaxes ORDERED to UNORDERED (`upgrade_test.go`, "invalid proposed
channel upgrade ordering": an UNORDERED channel may not propose ORDERED). -/
def Order.SubsetOf (o order : Order) : Bool :=
  o == order || (order == .ORDERED && o == .UNORDERED)

/-- The first connection hop of a channel end, validated against the connection
store: it must exist and be OPEN (spec §4.2). -/
def checkConnection (env : Env) (connectionHops : List String) : Except Error ConnectionEnd :=
  match connectionHops with
  | [] => .error .ErrConnectionNotFound
  | hop :: _ =>
    match env.GetConnection hop with
    | none => .error .ErrConnectionNotFound
    | some connectionEnd =>
      if connectionEnd.state = .OPEN then .ok connectionEnd
      else .error .ErrInvalidConnectionState

/-! ## Restore (spec §4.3) -/

/-- Modelled from the spec: `Keeper.RestoreChannel` of `keeper/upgrade.go`, which is
not among the sources.  Spec §4.3 *Restore*: writes back the Restore snapshot as the
current ChannelEnd, forces state to OPEN, deletes the Upgrade Proposal, and writes an
Upgrade Error Receipt with the triggering error's message; with no Restore snapshot
it is a hard failure.  The receipt carries the `upgradeSequence` argument of the call
(`TestRestoreChannel`: `RestoreChannel(ctx, portID, channelID, upgradeSequence, err)`,
then `errReceipt.Sequence == upgradeSequence`); the callers below pass the current
Upgrade Sequence.  The receipt is written before the snapshot is looked up:
`TestRestoreChannel` finds it also after the failing call. -/
def RestoreChannel (st : Store) (upgradeSequence : Nat) (err : Error) :
    Except Error Unit × Store :=
  let st1 := { st with upgradeErrorReceipt := some ⟨upgradeSequence, err.message⟩ }
  match st1.upgradeRestore with
  | none => (.error .ErrRestoreChannelNotFound, st1)
  | some restore =>
    (.ok (), { st1 with
      channelEnd := some { restore with state := .OPEN }
      upgradeProposal := none })

/-- Spec §4.3 *Restore* as the protocol invokes it: the receipt is stamped with the
current Upgrade Sequence. -/
def Restore (st : Store) (err : Error) : Except Error Unit × Store :=
  RestoreChannel st st.currentSequence err

/-! ## Init (spec §4.3) -/

/-- Validation part of Init: every check precedes every write. -/
def upgradeInitChecks (env : Env) (st : Store) (portID channelID : String) (chanCap : Nat)
    (proposedUpgradeChannel : Channel) (timeoutHeight : Height) (timeoutTimestamp : Nat) :
    Except Error Channel :=
  match st.channelEnd with
  | none => .error .ErrChannelNotFound
  | some channel =>
    if channel.state ≠ .OPEN then .error .ErrInvalidChannelState
    else if env.Authenticate chanCap portID channelID = false then
      .error .ErrChannelCapabilityNotFound
    else if timeoutHeight.IsZero = true ∧ timeoutTimestamp = 0 then
      .error .ErrInvalidUpgradeTimeout
    else if { channel with state := .INITUPGRADE }
        = { proposedUpgradeChannel with state := .INITUPGRADE } then
      .error .ErrChannelExists
    else
      match checkConnection env proposedUpgradeChannel.connectionHops with
      | .error e => .error e
      | .ok _ =>
        if proposedUpgradeChannel.counterparty ≠ channel.counterparty then
          .error .ErrInvalidCounterparty
        else if proposedUpgradeChannel.ordering.SubsetOf channel.ordering = false then
          .error .ErrInvalidChannelOrdering
        else .ok channel

/-- Modelled from the spec: `Keeper.ChanUpgradeInit` of `keeper/upgrade.go`, which is
not among the sources.  Spec §4.3 *Init*: require current state OPEN; snapshot the
current ChannelEnd into Restore storage; increment the Upgrade Sequence; store the
Upgrade Proposal with the caller-supplied timeout (at least one of height and
timestamp non-zero); set state INITUPGRADE; return the new sequence and the
pre-upgrade version.  The increment is that of a `uint64`: it wraps around at
`2 ^ 64`.  The rejections are those of `TestChanUpgradeInit` (capability,
identical channel end, channel not found, state, connection, counterparty,
ordering); the stored channel end carries the proposed fields in state INITUPGRADE
(`TestRestoreChannel`, failing branch). -/
def ChanUpgradeInit (env : Env) (st : Store) (portID channelID : String) (chanCap : Nat)
    (proposedUpgradeChannel : Channel) (timeoutHeight : Height) (timeoutTimestamp : Nat) :
    Except Error (Nat × String) × Store :=
  match upgradeInitChecks env st portID channelID chanCap proposedUpgradeChannel
      timeoutHeight timeoutTimestamp with
  | .error e => (.error e, st)
  | .ok channel =>
    let upgradeSequence := (st.currentSequence + 1) % 2 ^ 64
    let upgradeChannel := { proposedUpgradeChannel with state := .INITUPGRADE }
    (.ok (upgradeSequence, channel.version),
      { st with
        upgradeRestore := some channel
        upgradeSequence := some upgradeSequence
        upgradeProposal := some ⟨upgradeChannel, timeoutHeight, timeoutTimestamp⟩
        channelEnd := some upgradeChannel })

/-! ## Try (spec §4.3) -/

/-- The counterparty's declared timeout has elapsed against the local height or
time: either threshold, when set (non-zero), has been reached (spec §9, open
question: "either one elapsed ⇒ expired"; §8: rejected at height ≥ H). -/
def hasElapsed (env : Env) (timeoutHeight : Height) (timeoutTimestamp : Nat) : Bool :=
  (!timeoutHeight.IsZero && env.selfHeight.GTE timeoutHeight) ||
    (timeoutTimestamp != 0 && decide (timeoutTimestamp ≤ env.blockTime))

/-- Abort of an in-flight upgrade (spec §4.3, design rationale): the failure is routed
through Restore with the current Upgrade Sequence and `err` is returned; when Restore
itself fails the call reports `ErrUpgradeAborted`. -/
def abortUpgrade {α : Type} (st : Store) (err : Error) : Except Error α × Store :=
  match Restore st err with
  | (.error _, st1) => (.error .ErrUpgradeAborted, st1)
  | (.ok _, st1) => (.error err, st1)

/-- Abort on an upgrade sequence mismatch: Restore with the current Upgrade Sequence,
after which the local sequence is advanced past the receipt's
(`TestChanUpgradeCancel`: after the Try that wrote the receipt, the sequence of that
end equals `errorReceipt.Sequence + 1`). -/
def abortInvalidSequence {α : Type} (st : Store) : Except Error α × Store :=
  let errorSequence := st.currentSequence
  match @abortUpgrade α st .ErrInvalidUpgradeSequence with
  | (r, st1) => (r, { st1 with upgradeSequence := some ((errorSequence + 1) % 2 ^ 64) })

/-- The upgrade sequence the counterparty must claim: the next one when this end is
OPEN (`TestChanUpgradeTry`, "success with later upgrade sequence": the local sequence
is the counterparty's minus one), ours when an upgrade of our own is in flight
(crossing hellos). -/
def expectedSequence (st : Store) (channel : Channel) : Nat :=
  if channel.state = .OPEN then (st.currentSequence + 1) % 2 ^ 64 else st.currentSequence

/-- Validation part of Try: the plain rejections, none of which writes.  On success
it yields the local channel end and the pre-upgrade channel end. -/
def upgradeTryChecks (env : Env) (st : Store) (portID channelID : String) (chanCap : Nat)
    (counterpartyChannel : Channel) (counterpartyUpgradeSequence : Nat)
    (proposedUpgradeChannel : Channel) (timeoutHeight : Height) (timeoutTimestamp : Nat)
    (proofChannel proofUpgradeTimeout proofUpgradeSequence : List Nat) (proofHeight : Height) :
    Except Error (Channel × Channel) :=
  if env.Authenticate chanCap portID channelID = false then
    .error .ErrChannelCapabilityNotFound
  else
  match st.channelEnd with
  | none => .error .ErrChannelNotFound
  | some channel =>
    if channel.state ≠ .OPEN ∧ channel.state ≠ .INITUPGRADE ∧ channel.state ≠ .TRYUPGRADE then
      .error .ErrInvalidChannelState
    else if proposedUpgradeChannel.counterparty ≠ channel.counterparty then
      .error .ErrInvalidCounterparty
    else if proposedUpgradeChannel.ordering.SubsetOf channel.ordering = false then
      .error .ErrInvalidChannelOrdering
    else if counterpartyChannel.ordering ≠ proposedUpgradeChannel.ordering then
      .error .ErrInvalidChannelOrdering
    else
      match checkConnection env proposedUpgradeChannel.connectionHops with
      | .error e => .error e
      | .ok connectionEnd =>
        if counterpartyChannel.connectionHops.head? ≠ some connectionEnd.counterpartyConnectionID then
          .error .ErrInvalidConnection
        else if counterpartyChannel.state ≠ .INITUPGRADE then
          .error .ErrInvalidChannelState
        else if env.VerifyMembership proofChannel proofHeight
            ⟨.channelEnd, channel.counterparty.portID, channel.counterparty.channelID⟩
            (.channel counterpartyChannel) = false then
          .error .ErrInvalidProof
        else if env.VerifyMembership proofUpgradeSequence proofHeight
            ⟨.upgradeSequence, channel.counterparty.portID, channel.counterparty.channelID⟩
            (.sequence counterpartyUpgradeSequence) = false then
          .error .ErrInvalidProof
        else if env.VerifyMembership proofUpgradeTimeout proofHeight
            ⟨.upgradeTimeout, channel.counterparty.portID, channel.counterparty.channelID⟩
            (.timeout ⟨timeoutHeight, timeoutTimestamp⟩) = false then
          .error .ErrInvalidProof
        else if channel.state = .OPEN then .ok (channel, channel)
        else
          -- crossing hellos: an upgrade of our own is in flight
          match st.upgradeSequence with
          | none => .error .ErrUpgradeSequenceNotFound
          | some _ =>
            if { proposedUpgradeChannel with state := channel.state } ≠ channel then
              .error .ErrInvalidChannel
            else
              match st.upgradeRestore with
              | none => .error .ErrRestoreChannelNotFound
              | some restore => .ok (channel, restore)

/-- Modelled from the spec: `Keeper.ChanUpgradeTry` of `keeper/upgrade.go`, which is
not among the sources.  Spec §4.3 *Try*: the counterparty channel end is proved to be
INITUPGRADE, its upgrade sequence and timeout are proved; an elapsed timeout or a
sequence mismatch routes through Restore and records an Upgrade Error Receipt; on
success the Restore snapshot is taken (counterparty-initiated path), the local state
becomes TRYUPGRADE and the local Upgrade Proposal is stored.  Returns the upgrade
sequence and the pre-upgrade version (`TestChanUpgradeTry`).  The spec requires the
current state to be OPEN or TRYUPGRADE and calls TRYUPGRADE the state "from our own
Init", while Init leaves the end in INITUPGRADE and `TestChanUpgradeTry` ("crossing
hellos: success", "channel state is not in OPEN or INITUPGRADE state") runs Try on an
end in INITUPGRADE: every state with an upgrade in flight (INITUPGRADE, TRYUPGRADE)
takes the crossing-hellos path.  The rejections are those of `TestChanUpgradeTry`. -/
def ChanUpgradeTry (env : Env) (st : Store) (portID channelID : String) (chanCap : Nat)
    (counterpartyChannel : Channel) (counterpartyUpgradeSequence : Nat)
    (proposedUpgradeChannel : Channel) (timeoutHeight : Height) (timeoutTimestamp : Nat)
    (proofChannel proofUpgradeTimeout proofUpgradeSequence : List Nat) (proofHeight : Height) :
    Except Error (Nat × String) × Store :=
  match upgradeTryChecks env st portID channelID chanCap counterpartyChannel
      counterpartyUpgradeSequence proposedUpgradeChannel timeoutHeight timeoutTimestamp
      proofChannel proofUpgradeTimeout proofUpgradeSequence proofHeight with
  | .error e => (.error e, st)
  | .ok (channel, previous) =>
    if hasElapsed env timeoutHeight timeoutTimestamp = true then
      abortUpgrade st .ErrUpgradeTimeout
    else if counterpartyUpgradeSequence ≠ expectedSequence st channel then
      abortInvalidSequence st
    else
      let upgradeChannel := { proposedUpgradeChannel with state := .TRYUPGRADE }
      (.ok (counterpartyUpgradeSequence, previous.version),
        { st with
          upgradeRestore := some previous
          upgradeSequence := some counterpartyUpgradeSequence
          upgradeProposal := some ⟨upgradeChannel, timeoutHeight, timeoutTimestamp⟩
          channelEnd := some upgradeChannel })

/-! ## Ack and Confirm (spec §4.3) -/

/-- Validation part of Ack and Confirm: the local end is in state `expected`, the
caller holds the capability, the connection is OPEN, and the counterparty channel end
is proved to be in state `counterpartyState`. -/
def upgradeProgressChecks (env : Env) (st : Store) (portID channelID : String) (chanCap : Nat)
    (expected counterpartyState : State) (counterpartyChannel : Channel)
    (proofChannel : List Nat) (proofHeight : Height) : Except Error Channel :=
  match st.channelEnd with
  | none => .error .ErrChannelNotFound
  | some channel =>
    if channel.state ≠ expected then .error .ErrInvalidChannelState
    else if env.Authenticate chanCap portID channelID = false then
      .error .ErrChannelCapabilityNotFound
    else
      match checkConnection env channel.connectionHops with
      | .error e => .error e
      | .ok _ =>
        if counterpartyChannel.state ≠ counterpartyState then .error .ErrInvalidChannelState
        else if env.VerifyMembership proofChannel proofHeight
            ⟨.channelEnd, channel.counterparty.portID, channel.counterparty.channelID⟩
            (.channel counterpartyChannel) = false then
          .error .ErrInvalidProof
        else .ok channel

/-- Modelled from the spec: `Keeper.ChanUpgradeAck`, which is not among the sources.
Spec §4.3 *Ack*: require local state INITUPGRADE; the counterparty is proved to be
TRYUPGRADE; the ordering must match exactly and the version intersection must be
non-empty, otherwise Restore is called with an error receipt; on success the local
ChannelEnd becomes the agreed-upon upgraded end in state OPEN and the Upgrade
Proposal and the Restore snapshot are cleared. -/
def ChanUpgradeAck (env : Env) (st : Store) (portID channelID : String) (chanCap : Nat)
    (counterpartyChannel : Channel) (proofChannel : List Nat) (proofHeight : Height) :
    Except Error Unit × Store :=
  match upgradeProgressChecks env st portID channelID chanCap .INITUPGRADE .TRYUPGRADE
      counterpartyChannel proofChannel proofHeight with
  | .error e => (.error e, st)
  | .ok channel =>
    if counterpartyChannel.ordering ≠ channel.ordering then
      abortUpgrade st .ErrInvalidChannelOrdering
    else
      match env.versionIntersection channel.version counterpartyChannel.version with
      | none => abortUpgrade st .ErrInvalidChannelVersion
      | some version =>
        (.ok (), { st with
          channelEnd := some { channel with state := .OPEN, version := version }
          upgradeProposal := none
          upgradeRestore := none })

/-- Modelled from the spec: `Keeper.ChanUpgradeConfirm`, which is not among the
sources.  Spec §4.3 *Confirm*: require local state TRYUPGRADE; the counterparty is
proved to have moved to OPEN with the agreed fields (spec §7: otherwise Restore and
an error receipt); finalize locally to OPEN, which ends the life of the transient
Upgrade Proposal and Restore snapshot (spec §3). -/
def ChanUpgradeConfirm (env : Env) (st : Store) (portID channelID : String) (chanCap : Nat)
    (counterpartyChannel : Channel) (proofChannel : List Nat) (proofHeight : Height) :
    Except Error Unit × Store :=
  match upgradeProgressChecks env st portID channelID chanCap .TRYUPGRADE .OPEN
      counterpartyChannel proofChannel proofHeight with
  | .error e => (.error e, st)
  | .ok channel =>
    if counterpartyChannel.ordering ≠ channel.ordering then
      abortUpgrade st .ErrInvalidChannelOrdering
    else if counterpartyChannel.version ≠ channel.version then
      abortUpgrade st .ErrInvalidChannelVersion
    else
      (.ok (), { st with
        channelEnd := some { channel with state := .OPEN }
        upgradeProposal := none
        upgradeRestore := none })

/-! ## Cancel (spec §4.3) -/

/-- Validation part of Cancel: the plain rejections of `TestChanUpgradeCancel`, none
of which writes. -/
def upgradeCancelChecks (env : Env) (st : Store) (portID channelID : String) (chanCap : Nat)
    (errorReceipt : ErrorReceipt) (proofErrorReceipt : List Nat) (proofHeight : Height) :
    Except Error Channel :=
  match st.channelEnd with
  | none => .error .ErrChannelNotFound
  | some channel =>
    if channel.state ≠ .INITUPGRADE ∧ channel.state ≠ .TRYUPGRADE then
      .error .ErrInvalidChannelState
    else if env.Authenticate chanCap portID channelID = false then
      .error .ErrChannelCapabilityNotFound
    else
      match st.upgradeSequence with
      | none => .error .ErrUpgradeSequenceNotFound
      | some upgradeSequence =>
        if errorReceipt.sequence < upgradeSequence then .error .ErrInvalidUpgradeSequence
        else
          match checkConnection env channel.connectionHops with
          | .error e => .error e
          | .ok _ =>
            if env.VerifyMembership proofErrorReceipt proofHeight
                ⟨.upgradeError, channel.counterparty.portID, channel.counterparty.channelID⟩
                (.errorReceipt errorReceipt) = false then
              .error .ErrInvalidProof
            else .ok channel

/-- Modelled from the spec: `Keeper.ChanUpgradeCancel` of `keeper/upgrade.go`, which
is not among the sources.  Spec §4.3 *Cancel*: require local state INITUPGRADE or
TRYUPGRADE; accept a counterparty Upgrade Error Receipt plus its proof; if the
receipt's sequence is ≥ the local Upgrade Sequence, Restore; advance the local
Upgrade Sequence past the receipt's (`TestChanUpgradeCancel`: to
`errorReceipt.Sequence + 1`, a `uint64` sum that wraps around at `2 ^ 64`).  A Restore
that fails ("restore channel not found") makes the call fail with
`ErrUpgradeAborted`. -/
def ChanUpgradeCancel (env : Env) (st : Store) (portID channelID : String) (chanCap : Nat)
    (errorReceipt : ErrorReceipt) (proofErrorReceipt : List Nat) (proofHeight : Height) :
    Except Error Unit × Store :=
  match upgradeCancelChecks env st portID channelID chanCap errorReceipt proofErrorReceipt
      proofHeight with
  | .error e => (.error e, st)
  | .ok _ =>
    match Restore st .ErrUpgradeAborted with
    | (.error _, st1) => (.error .ErrUpgradeAborted, st1)
    | (.ok _, st1) =>
      (.ok (), { st1 with upgradeSequence := some ((errorReceipt.sequence + 1) % 2 ^ 64) })

/-! ## The upgrade state machine -/

/-- One step of the upgrade state machine on a channel: a call of Init, Try, Ack,
Confirm or Cancel with its arguments, or a Restore triggered by an error. -/
inductive Step where
  | init (portID channelID : String) (chanCap : Nat) (proposedUpgradeChannel : Channel)
      (timeoutHeight : Height) (timeoutTimestamp : Nat)
  | tryUpgrade (portID channelID : String) (chanCap : Nat) (counterpartyChannel : Channel)
      (counterpartyUpgradeSequence : Nat) (proposedUpgradeChannel : Channel)
      (timeoutHeight : Height) (timeoutTimestamp : Nat)
      (proofChannel proofUpgradeTimeout proofUpgradeSequence : List Nat) (proofHeight : Height)
  | ack (portID channelID : String) (chanCap : Nat) (counterpartyChannel : Channel)
      (proofChannel : List Nat) (proofHeight : Height)
  | confirm (portID channelID : String) (chanCap : Nat) (counterpartyChannel : Channel)
      (proofChannel : List Nat) (proofHeight : Height)
  | cancel (portID channelID : String) (chanCap : Nat) (errorReceipt : ErrorReceipt)
      (proofErrorReceipt : List Nat) (proofHeight : Height)
  | restore (err : Error)

/-- The store after a step taken in environment `env`; what a failing call has
written stays written. -/
def Step.apply (env : Env) (st : Store) : Step → Store
  | .init portID channelID chanCap proposedUpgradeChannel timeoutHeight timeoutTimestamp =>
    (ChanUpgradeInit env st portID channelID chanCap proposedUpgradeChannel timeoutHeight
      timeoutTimestamp).2
  | .tryUpgrade portID channelID chanCap counterpartyChannel counterpartyUpgradeSequence
      proposedUpgradeChannel timeoutHeight timeoutTimestamp proofChannel proofUpgradeTimeout
      proofUpgradeSequence proofHeight =>
    (ChanUpgradeTry env st portID channelID chanCap counterpartyChannel
      counterpartyUpgradeSequence proposedUpgradeChannel timeoutHeight timeoutTimestamp
      proofChannel proofUpgradeTimeout proofUpgradeSequence proofHeight).2
  | .ack portID channelID chanCap counterpartyChannel proofChannel proofHeight =>
    (ChanUpgradeAck env st portID channelID chanCap counterpartyChannel proofChannel
      proofHeight).2
  | .confirm portID channelID chanCap counterpartyChannel proofChannel proofHeight =>
    (ChanUpgradeConfirm env st portID channelID chanCap counterpartyChannel proofChannel
      proofHeight).2
  | .cancel portID channelID chanCap errorReceipt proofErrorReceipt proofHeight =>
    (ChanUpgradeCancel env st portID channelID chanCap errorReceipt proofErrorReceipt
      proofHeight).2
  | .restore err => (Restore st err).2

/-- The store after a sequence of steps, each taken in its own environment (the
clock, the connections and the counterparty's provable state change between
steps). -/
def run (st : Store) : List (Env × Step) → Store
  | [] => st
  | (env, step) :: rest => run (step.apply env st) rest

/-- The upgrade sequence a step increments, if it increments one.  An Init that passes
validation increments the stored sequence.  A Try that passes validation with the
timeout not elapsed increments the stored sequence when the local end is OPEN (the
sequence expected of the counterparty is the next one) and when the counterparty's
sequence does not match (the abort advances the sequence).  A Cancel that passes
validation and finds the snapshot to restore increments the receipt's sequence.  Ack,
Confirm and Restore increment nothing. -/
def Step.incremented (env : Env) (st : Store) : Step → Option Nat
  | .init portID channelID chanCap proposedUpgradeChannel timeoutHeight timeoutTimestamp =>
    match upgradeInitChecks env st portID channelID chanCap proposedUpgradeChannel
        timeoutHeight timeoutTimestamp with
    | .error _ => none
    | .ok _ => some st.currentSequence
  | .tryUpgrade portID channelID chanCap counterpartyChannel counterpartyUpgradeSequence
      proposedUpgradeChannel timeoutHeight timeoutTimestamp proofChannel proofUpgradeTimeout
      proofUpgradeSequence proofHeight =>
    match upgradeTryChecks env st portID channelID chanCap counterpartyChannel
        counterpartyUpgradeSequence proposedUpgradeChannel timeoutHeight timeoutTimestamp
        proofChannel proofUpgradeTimeout proofUpgradeSequence proofHeight with
    | .error _ => none
    | .ok (channel, _) =>
      if hasElapsed env timeoutHeight timeoutTimestamp = true then none
      else if channel.state = .OPEN ∨
          counterpartyUpgradeSequence ≠ expectedSequence st channel then
        some st.currentSequence
      else none
  | .cancel portID channelID chanCap errorReceipt proofErrorReceipt proofHeight =>
    match upgradeCancelChecks env st portID channelID chanCap errorReceipt proofErrorReceipt
        proofHeight with
    | .error _ => none
    | .ok _ => if st.upgradeRestore = none then none else some errorReceipt.sequence
  | .ack .. => none
  | .confirm .. => none
  | .restore _ => none

/-- The increment of the step, if it makes one, does not wrap around `2 ^ 64`: the
sequence it increments is below `2 ^ 64 - 1`. -/
def Step.noWrap (env : Env) (st : Store) (step : Step) : Bool :=
  match step.incremented env st with
  | none => true
  | some sequence => decide (sequence < 2 ^ 64 - 1)

/-- No increment of a sequence of steps wraps around `2 ^ 64`, each step being taken
in the store the steps before it leave. -/
def runNoWrap (st : Store) : List (Env × Step) → Bool
  | [] => true
  | (env, step) :: rest => step.noWrap env st && runNoWrap (step.apply env st) rest

/-! ## The scenario of `upgrade_test.go` -/

/-- The channel end of chain A after `coordinator.Setup(path)`: OPEN, UNORDERED, with
the mock version. -/
def channelA : Channel :=
  ⟨.OPEN, .UNORDERED, ⟨"mock", "channel-0"⟩, ["connection-0"], "mock-version"⟩

/-- The proposed upgrade of `TestChanUpgradeInit`: the same end with version
`mock-version-v2`. -/
def channelUpgrade (state : State) : Channel :=
  ⟨state, .UNORDERED, ⟨"mock", "channel-0"⟩, ["connection-0"], "mock-version-v2"⟩

/-- A local environment in which connection-0 is OPEN, capability 1 owns the channel,
every proof verifies and versions intersect when they are equal. -/
def testEnv : Env where
  selfHeight := ⟨1, 10⟩
  blockTime := 1000
  connections := [("connection-0", ⟨.OPEN, "connection-0"⟩)]
  Authenticate := fun chanCap _ _ => chanCap == 1
  VerifyMembership := fun _ _ _ _ => true
  versionIntersection := fun a b => if a = b then some a else none

/-- The store of an OPEN channel with the given upgrade sequence record and no
upgrade in flight. -/
def openStore (upgradeSequence : Option Nat) : Store :=
  ⟨some channelA, upgradeSequence, none, none, none⟩

/-- The store after `ChanUpgradeInit` on `openStore upgradeSequence`, as in the setup
of `TestRestoreChannel` and `TestChanUpgradeCancel`. -/
def initStore (upgradeSequence : Option Nat) : Store :=
  (ChanUpgradeInit testEnv (openStore upgradeSequence) "mock" "channel-0" 1
    (channelUpgrade .INITUPGRADE) ⟨1, 110⟩ 0).2

/-- The Init step of the tests, in `testEnv`. -/
def initStep : Env × Step :=
  (testEnv, .init "mock" "channel-0" 1 (channelUpgrade .INITUPGRADE) ⟨1, 110⟩ 0)

/-- The run of `TestChanUpgradeCancel` on chain A: Init, then Cancel with the
counterparty's error receipt of sequence 10. -/
def cancelRun : List (Env × Step) :=
  [initStep, (testEnv, .cancel "mock" "channel-0" 1 ⟨10, "invalid upgrade sequence"⟩ [] ⟨1, 5⟩)]

/-- The largest upgrade sequence, `math.MaxUint64`. -/
def maxSequence : Nat := 18446744073709551615

/-- The run of `TestChanUpgradeCancel` with a counterparty error receipt of the largest
sequence: Init, then Cancel. -/
def wrapRun : List (Env × Step) :=
  [initStep,
    (testEnv, .cancel "mock" "channel-0" 1 ⟨maxSequence, "invalid upgrade sequence"⟩ [] ⟨1, 5⟩)]

end Upgrade

namespace Transfer

/-! ## Denomination traces (`modules/apps/transfer/types/trace.go`) -/

/-- `DenomTrace`: the trace path and the base denomination of a token. -/
structure DenomTrace where
  Path : String
  BaseDenom : String
  deriving DecidableEq, Repr

/-- `PortID`: the port prefix of a trace hop.  The constant is declared in `keys.go`;
its value is the one the doc comments of `trace.go` spell out
(`'transfer/{channelIDN}/.../transfer/{channelID0}/baseDenom'`). -/
def PortID : String := "transfer"

/-- Segments of a character sequence between occurrences of `sep`; the result is
never empty (an input without `sep` gives the input as only segment). -/
def splitChars (sep : Char) : List Char → List (List Char)
  | [] => [[]]
  | c :: cs =>
    if c = sep then [] :: splitChars sep cs
    else
      match splitChars sep cs with
      | [] => [[c]]
      | seg :: segs => (c :: seg) :: segs

/-- `strings.Split(s, sep)` for a one-character separator (the program only splits at
"/", a single byte that never occurs inside a multi-byte character). -/
def Split (s : String) (sep : Char) : List String :=
  (splitChars sep s.data).map String.mk

/-- `strings.Join(elems, sep)`. -/
def Join : List String → String → String
  | [], _ => ""
  | [a], _ => a
  | a :: b :: rest, sep => a ++ sep ++ Join (b :: rest) sep

/-- The loop of `extractPathAndBaseFromFullDenom`: `i` is the loop index, `path` the
slice built so far; the result is `(path, baseDenom)` at loop exit.  The loop runs at
most once per two items, so `fuel = len(fullDenomItems) + 1` is never used up. -/
def extractLoop (fullDenomItems : List String) : Nat → Nat → List String →
    List String × List String
  | 0, _, path => (path, [])
  | fuel + 1, i, path =>
    let length := fullDenomItems.length
    if i < length then
      if i < length - 1 ∧ length > 2 ∧ fullDenomItems.getD i "" = PortID then
        extractLoop fullDenomItems fuel (i + 2)
          (path ++ [fullDenomItems.getD i "", fullDenomItems.getD (i + 1) ""])
      else (path, fullDenomItems.drop i)
    else (path, [])

/-- `extractPathAndBaseFromFullDenom`: the trace path and the base denom from the
elements that constitute the complete denom. -/
def extractPathAndBaseFromFullDenom (fullDenomItems : List String) : String × String :=
  let r := extractLoop fullDenomItems (fullDenomItems.length + 1) 0 []
  (Join r.1 "/", Join r.2 "/")

/-- `ParseDenomTrace`: parses a string with the ibc prefix (denom trace) and the base
denomination into a `DenomTrace`. -/
def ParseDenomTrace (rawDenom : String) : DenomTrace :=
  let denomSplit := Split rawDenom '/'
  if denomSplit.getD 0 "" = rawDenom then
    { Path := "", BaseDenom := rawDenom }
  else
    let r := extractPathAndBaseFromFullDenom denomSplit
    { Path := r.1, BaseDenom := r.2 }

/-- The items of a trace path with the channel identifiers `cs`:
`transfer`, c_1, ..., `transfer`, c_k. -/
def traceSegments : List String → List String
  | [] => []
  | c :: cs => PortID :: c :: traceSegments cs

end Transfer

namespace Transfer

/-! ## Validation of denominations (`trace.go`) -/

/-- Go `error` values of the transfer types: a formatted message (`fmt.Errorf`), an
error wrapped with a message (`sdkerrors.Wrap`, `sdkerrors.Wrapf`), the registered
error `ErrInvalidDenomForTransfer`, and an error of a library or of `24-host`. -/
inductive Error where
  | errorf (text : String)
  | wrap (cause : Error) (text : String)
  | ErrInvalidDenomForTransfer
  | external (text : String)
  deriving DecidableEq, Repr

/-- The identifier validators of `modules/core/24-host`, which `trace.go` imports:
`nil` (here `none`) means the identifier is valid.  The package is not among the
sources, so the validators are parameters. -/
structure Host where
  PortIdentifierValidator : String → Option Error
  ChannelIdentifierValidator : String → Option Error

/-- `unicode.IsSpace`: the white space characters of Unicode. -/
def isSpace (c : Char) : Bool :=
  (9 ≤ c.toNat && c.toNat ≤ 13) || c.toNat == 32 || c.toNat == 0x85 || c.toNat == 0xA0 ||
    c.toNat == 0x1680 || (0x2000 ≤ c.toNat && c.toNat ≤ 0x200A) || c.toNat == 0x2028 ||
    c.toNat == 0x2029 || c.toNat == 0x202F || c.toNat == 0x205F || c.toNat == 0x3000

/-- `strings.TrimSpace`: the string without its leading and trailing white space. -/
def TrimSpace (s : String) : String :=
  String.mk ((s.data.dropWhile isSpace).reverse.dropWhile isSpace).reverse

/-- The loop of `validateTraceIdentifiers` over the pairs of identifiers, `i` being
the loop index; `fuel = len(identifiers)` is never used up. -/
def validateTraceLoop (host : Host) (identifiers : List String) : Nat → Nat → Option Error
  | 0, _ => none
  | fuel + 1, i =>
    if i < identifiers.length then
      match host.PortIdentifierValidator (identifiers.getD i "") with
      | some err => some (.wrap err ("invalid port ID at position " ++ toString i))
      | none =>
        match host.ChannelIdentifierValidator (identifiers.getD (i + 1) "") with
        | some err => some (.wrap err ("invalid channel ID at position " ++ toString i))
        | none => validateTraceLoop host identifiers fuel (i + 2)
    else none

/-- `validateTraceIdentifiers`: the identifiers must come in pairs of a valid port
identifier and a valid channel identifier. -/
def validateTraceIdentifiers (host : Host) (identifiers : List String) : Option Error :=
  if identifiers.length = 0 ∨ identifiers.length % 2 ≠ 0 then
    some (.errorf "trace info must come in pairs of port and channel identifiers")
  else validateTraceLoop host identifiers identifiers.length 0

/-- `ValidatePrefixedDenom`: checks that the denomination for an IBC fungible token
packet denom is correctly prefixed. -/
def ValidatePrefixedDenom (host : Host) (denom : String) : Option Error :=
  let denomSplit := Split denom '/'
  if denomSplit.getD 0 "" = denom ∧ TrimSpace denom ≠ "" then none
  else if TrimSpace (denomSplit.getD (denomSplit.length - 1) "") = "" then
    some (.wrap .ErrInvalidDenomForTransfer "base denomination cannot be blank")
  else
    let path := (extractPathAndBaseFromFullDenom denomSplit).1
    if path = "" then none
    else validateTraceIdentifiers host (Split path '/')

/-- `DenomTrace.Validate`: a basic validation of the DenomTrace fields. -/
def DenomTrace.Validate (host : Host) (dt : DenomTrace) : Option Error :=
  -- empty trace is accepted when token lives on the original chain
  if dt.Path = "" ∧ dt.BaseDenom ≠ "" then none
  else if TrimSpace dt.BaseDenom = "" then
    some (.errorf "base denomination cannot be blank")
  else
    -- NOTE: no base denomination validation
    validateTraceIdentifiers host (Split dt.Path '/')

/-- A host whose validators accept every identifier. -/
def permissiveHost : Host := ⟨fun _ => none, fun _ => none⟩

/-- A host that accepts identifiers by their length alone: at least two characters
for a port, at least eight for a channel. -/
def lengthHost : Host :=
  ⟨fun id => if 2 ≤ id.length then none else some (.external "invalid identifier"),
   fun id => if 8 ≤ id.length then none else some (.external "invalid identifier")⟩

end Transfer

namespace Transfer

/-! ## IBC denominations and hashes (`trace.go`) -/

/-- `DenomPrefix`: the prefix of the denomination of an ICS20 voucher.  The constant
is declared in `keys.go`; its value is the one the doc comments of `trace.go` spell
out (`'ibc/{hash(tracePath + baseDenom)}'`). -/
def DenomPrefix : String := "ibc"

/-- The characters before and after the first `sep`, if there is one. -/
def cutChars (sep : Char) : List Char → Option (List Char × List Char)
  | [] => none
  | c :: cs =>
    if c = sep then some ([], cs)
    else (cutChars sep cs).map (fun p => (c :: p.1, p.2))

/-- `strings.SplitN(s, sep, 2)` for a one-character separator: the text before the
first separator and the text after it, or `s` alone when it has no separator. -/
def SplitN2 (s : String) (sep : Char) : List String :=
  match cutChars sep s.data with
  | none => [s]
  | some (a, b) => [String.mk a, String.mk b]

/-- The value of a hexadecimal digit (`reverseHexTable` of `encoding/hex`): both
letter cases are digits. -/
def hexValue (c : Char) : Option Nat :=
  if '0'.toNat ≤ c.toNat ∧ c.toNat ≤ '9'.toNat then some (c.toNat - '0'.toNat)
  else if 'a'.toNat ≤ c.toNat ∧ c.toNat ≤ 'f'.toNat then some (c.toNat - 'a'.toNat + 10)
  else if 'A'.toNat ≤ c.toNat ∧ c.toNat ≤ 'F'.toNat then some (c.toNat - 'A'.toNat + 10)
  else none

/-- The bytes a sequence of hexadecimal digits stands for; there is none when a
character is not a digit or the length is odd. -/
def decodeHexChars : List Char → Option (List Nat)
  | [] => some []
  | [_] => none
  | p :: q :: rest =>
    match hexValue p, hexValue q with
    | some a, some b => (decodeHexChars rest).map (fun bz => (a * 16 + b) :: bz)
    | _, _ => none

/-- `hex.DecodeString`: the bytes represented by the hexadecimal string, or an error
when the string has a character that is not a hexadecimal digit or has odd length. -/
def hexDecodeString (s : String) : Except Error (List Nat) :=
  match decodeHexChars s.data with
  | some bz => .ok bz
  | none => .error (.external "encoding/hex: invalid byte or odd length hex string")

/-- `tmhash.Size`: the size of a SHA-256 digest in bytes. -/
def tmhashSize : Nat := 32

/-- `tmtypes.ValidateHash`: an error if the hash is not empty, but its size is not
`tmhash.Size`. -/
def ValidateHash (h : List Nat) : Option Error :=
  if h.length > 0 ∧ h.length ≠ tmhashSize then
    some (.errorf "expected size to be 32 bytes")
  else none

/-- `ParseHexHash`: parses a hex hash in string format to bytes and validates its
correctness. -/
def ParseHexHash (hexHash : String) : Except Error (List Nat) :=
  match hexDecodeString hexHash with
  | .error err => .error err
  | .ok hash =>
    match ValidateHash hash with
    | some err => .error err
    | none => .ok hash

/-- `ValidateIBCDenom`: validates that the given denomination is either a valid base
denomination or a valid fungible token representation (`ibc/{hash}`).
`sdk.ValidateDenom` belongs to the SDK and is a parameter. -/
def ValidateIBCDenom (ValidateDenom : String → Option Error) (denom : String) :
    Option Error :=
  match ValidateDenom denom with
  | some err => some err
  | none =>
    let denomSplit := SplitN2 denom '/'
    if denom = DenomPrefix then
      some (.wrap .ErrInvalidDenomForTransfer
        "denomination should be prefixed with the format 'ibc/(hash)'")
    else if denomSplit.length = 2 ∧ denomSplit.getD 0 "" = DenomPrefix then
      if TrimSpace (denomSplit.getD 1 "") = "" then
        some (.wrap .ErrInvalidDenomForTransfer
          "denomination should be prefixed with the format 'ibc/(hash)'")
      else
        match ParseHexHash (denomSplit.getD 1 "") with
        | .error err => some (.wrap err "invalid denom trace hash")
        | .ok _ => none
    else none

/-- The upper-case hexadecimal digit of a value below sixteen. -/
def upperHexDigit (n : Nat) : Char :=
  if n < 10 then Char.ofNat ('0'.toNat + n) else Char.ofNat ('A'.toNat + (n - 10))

/-- The upper-case hexadecimal digits of a sequence of bytes, two per byte. -/
def upperHexChars : List Nat → List Char
  | [] => []
  | b :: bz => upperHexDigit (b / 16) :: upperHexDigit (b % 16) :: upperHexChars bz

/-- `tmbytes.HexBytes` formatted with `%s`: the upper-case hexadecimal encoding of the
bytes (`strings.ToUpper(hex.EncodeToString(bz))`). -/
def HexBytesString (bz : List Nat) : String :=
  String.mk (upperHexChars bz)

/-- `DenomTrace.GetPrefix`: the receiving denomination prefix composed by the trace
info and a separator. -/
def DenomTrace.GetPrefix (dt : DenomTrace) : String :=
  dt.Path ++ "/"

/-- `DenomTrace.GetFullDenomPath`: the full denomination according to the ICS20
specification, `tracePath + "/" + baseDenom`; with no trace the base denomination is
returned. -/
def DenomTrace.GetFullDenomPath (dt : DenomTrace) : String :=
  if dt.Path = "" then dt.BaseDenom
  else dt.GetPrefix ++ dt.BaseDenom

/-- `DenomTrace.Hash`: the SHA256 hash of the full denomination path.  `Sum256` stands
for `sha256.Sum256` applied to the bytes of a string; it belongs to the standard
library and is a parameter. -/
def DenomTrace.Hash (Sum256 : String → List Nat) (dt : DenomTrace) : List Nat :=
  Sum256 dt.GetFullDenomPath

/-- `DenomTrace.IBCDenom`: a coin denomination for an ICS20 fungible token in the
format `ibc/{hash(tracePath + baseDenom)}`; with an empty trace it is the base
denomination. -/
def DenomTrace.IBCDenom (Sum256 : String → List Nat) (dt : DenomTrace) : String :=
  if dt.Path ≠ "" then DenomPrefix ++ "/" ++ HexBytesString (dt.Hash Sum256)
  else dt.BaseDenom

/-- A validator of denominations in the manner of `sdk.ValidateDenom`: a letter
followed by 2 to 127 letters, digits or characters among `/:._-`. -/
def testValidateDenom (denom : String) : Option Error :=
  match denom.data with
  | [] => some (.external "invalid denom")
  | c :: cs =>
    if c.isAlpha ∧ 2 ≤ cs.length ∧ cs.length ≤ 127 ∧
        cs.all (fun d => d.isAlphanum || d = '/' || d = ':' || d = '.' || d = '_' || d = '-')
    then none
    else some (.external "invalid denom")

/-- A stand-in digest for evaluation: the thirty-two bytes 0, 1, ..., 31 shifted by
the length of the input. -/
def testSum256 (s : String) : List Nat :=
  (List.range 32).map (fun i => (i + s.length) % 256)

end Transfer

namespace IBCFee

/-! ## Fee messages (`modules/apps/29-fee/types/msgs.go`) -/

/-- Go `error` values of the fee module: the registered errors named in the sources,
`sdkerrors.ErrInvalidCoins`, an error wrapped with a message (`sdkerrors.Wrap`,
`sdkerrors.Wrapf`), and an error of a library, of `24-host`, of the keeper or of the
underlying application. -/
inductive Error where
  | ErrRelayersNotNil
  | ErrCounterpartyAddressEmpty
  | ErrInvalidVersion
  | ErrInvalidCoins
  | wrap (cause : Error) (text : String)
  | external (text : String)
  deriving DecidableEq, Repr

/-- `sdk.Coin`: a denomination and an amount. -/
structure Coin where
  Denom : String
  Amount : Int
  deriving DecidableEq, Repr

/-- `sdk.Coins`: a set of coins, kept as the sequence it is stored as. -/
abbrev Coins := List Coin

/-- The order of Go strings on their characters: `a < b`, lexicographically. -/
def ltChars : List Char → List Char → Bool
  | [], [] => false
  | [], _ :: _ => true
  | _ :: _, [] => false
  | a :: as, b :: bs =>
    decide (a.toNat < b.toNat) || (a.toNat == b.toNat && ltChars as bs)

/-- The loop of `sdk.Coins.Validate`: every coin has a valid denomination and a
positive amount, and the denominations are strictly increasing from `low` on (so
they are sorted and unique). -/
def Coins.validFrom (ValidateDenom : String → Option Error) :
    Option String → List Coin → Bool
  | _, [] => true
  | low, coin :: rest =>
    (ValidateDenom coin.Denom).isNone &&
      (match low with
        | none => true
        | some lowDenom => ltChars lowDenom.data coin.Denom.data) &&
      decide (0 < coin.Amount) &&
      Coins.validFrom ValidateDenom (some coin.Denom) rest

/-- `sdk.Coins.IsValid`: the coins are sorted, have positive amount, with a valid and
unique denomination; the empty set is valid.  `sdk.ValidateDenom` is a parameter. -/
def Coins.IsValid (ValidateDenom : String → Option Error) (coins : Coins) : Bool :=
  Coins.validFrom ValidateDenom none coins

/-- `sdk.Coins.IsZero`: there are no coins or all coins are zero. -/
def Coins.IsZero (coins : Coins) : Bool :=
  coins.all (fun coin => coin.Amount == 0)

/-- `Fee`: the fees for receiving, acknowledging and timing out a packet. -/
structure Fee where
  RecvFee : Coins
  AckFee : Coins
  TimeoutFee : Coins
  deriving DecidableEq, Repr

/-- `Fee.Validate`: asserts that each Fee is valid and all three Fees are not empty or
zero. -/
def Fee.Validate (ValidateDenom : String → Option Error) (fee : Fee) : Option Error :=
  -- if any of the fee's are invalid return an error
  if !fee.AckFee.IsValid ValidateDenom || !fee.RecvFee.IsValid ValidateDenom ||
      !fee.TimeoutFee.IsValid ValidateDenom then
    some (.wrap .ErrInvalidCoins "contains one or more invalid fees")
  -- if all three fee's are zero or empty return an error
  else if fee.AckFee.IsZero && fee.RecvFee.IsZero && fee.TimeoutFee.IsZero then
    some (.wrap .ErrInvalidCoins "contains one or more invalid fees")
  else none

/-- What `msgs.go` imports from outside the fee types: the identifier validators of
`24-host` (not among the sources), and from the SDK the parsing of a bech32 account
address and the validation of a denomination.  `nil` is `none`. -/
structure Imports where
  ChannelIdentifierValidator : String → Option Error
  PortIdentifierValidator : String → Option Error
  AccAddressFromBech32 : String → Except Error (List Nat)
  ValidateDenom : String → Option Error

/-- `MsgPayPacketFee`.  `Relayers` is a slice: `none` is the nil slice, `some []` an
empty slice that is not nil. -/
structure MsgPayPacketFee where
  Fee : Fee
  SourcePortId : String
  SourceChannelId : String
  Signer : String
  Relayers : Option (List String)
  deriving DecidableEq, Repr

/-- `MsgPayPacketFee.ValidateBasic`: performs a basic check of the `MsgPayPacketFee`
fields. -/
def MsgPayPacketFee.ValidateBasic (lib : Imports) (msg : MsgPayPacketFee) : Option Error :=
  -- validate channelId
  match lib.ChannelIdentifierValidator msg.SourceChannelId with
  | some err => some err
  | none =>
    -- validate portId
    match lib.PortIdentifierValidator msg.SourcePortId with
    | some err => some err
    | none =>
      -- signer check
      match lib.AccAddressFromBech32 msg.Signer with
      | .error err => some (.wrap err "failed to convert msg.Signer into sdk.AccAddress")
      | .ok _ =>
        -- enforce relayer is nil
        if msg.Relayers ≠ none then some .ErrRelayersNotNil
        else
          -- validate Fee
          match msg.Fee.Validate lib.ValidateDenom with
          | some err => some err
          | none => none

/-- Imports for evaluation: identifiers are accepted by their length (at least eight
characters for a channel, two for a port), addresses by the prefix `cosmos1`, and
denominations when they have at least three characters. -/
def testImports : Imports where
  ChannelIdentifierValidator := fun id =>
    if 8 ≤ id.length then none else some (.external "invalid identifier")
  PortIdentifierValidator := fun id =>
    if 2 ≤ id.length then none else some (.external "invalid identifier")
  AccAddressFromBech32 := fun s =>
    if "cosmos1".data.isPrefixOf s.data then .ok (s.data.map Char.toNat)
    else .error (.external "decoding bech32 failed")
  ValidateDenom := fun denom =>
    if 3 ≤ denom.length then none else some (.external "invalid denom")

/-- A fee of 100 `stake` for receiving and nothing else. -/
def recvOnlyFee : Fee := ⟨[⟨"stake", 100⟩], [], []⟩

end IBCFee

namespace IBCFee

/-! ## The fee middleware (`modules/apps/29-fee/ibc_middleware.go`) -/

/-- `channeltypes.Order`. -/
inductive Order where
  | NONE | UNORDERED | ORDERED
  deriving DecidableEq, Repr

/-- `channeltypes.Counterparty`. -/
structure Counterparty where
  PortId : String
  ChannelId : String
  deriving DecidableEq, Repr

/-- `channeltypes.Packet`. -/
structure Packet where
  Sequence : Nat
  SourcePort : String
  SourceChannel : String
  DestinationPort : String
  DestinationChannel : String
  Data : List Nat
  TimeoutHeight : Nat × Nat
  TimeoutTimestamp : Nat
  deriving DecidableEq, Repr

/-- `channeltypes.PacketId`. -/
structure PacketId where
  PortId : String
  ChannelId : String
  Sequence : Nat
  deriving DecidableEq, Repr

/-- `channeltypes.NewPacketId`. -/
def NewPacketId (portID channelID : String) (seq : Nat) : PacketId :=
  ⟨portID, channelID, seq⟩

/-- `sdk.AccAddress`, identified with its bech32 text: `relayer.String()` reads the
field. -/
structure AccAddress where
  String : String
  deriving DecidableEq, Repr

/-- `types.Metadata`: the version of the fee middleware and the version of the
application below it. -/
structure Metadata where
  FeeVersion : String
  AppVersion : String
  deriving DecidableEq, Repr

/-- A value of the interface `exported.Acknowledgement` as the application returns
it, given by what its two methods `Success()` and `Acknowledgement()` return. -/
structure ApplicationAck where
  Success : Bool
  Acknowledgement : List Nat
  deriving DecidableEq, Repr

/-- Modelled from the spec: `types.IncentivizedAcknowledgement` of `types/ack.go`,
which is not among the sources and which the spec leaves to the fee middleware.  The
fields are the two the middleware reads (`ForwardRelayerAddress`,
`AppAcknowledgement`) and the success flag its constructor is given. -/
structure IncentivizedAcknowledgement where
  ForwardRelayerAddress : String
  AppAcknowledgement : List Nat
  UnderlyingAppSuccess : Bool
  deriving DecidableEq, Repr

/-- Modelled from the spec: `types.NewIncentivizedAcknowledgement` of `types/ack.go`,
which is not among the sources; the arguments are in the order of the call in
`OnRecvPacket`: the forward relayer, the acknowledgement bytes, the success flag. -/
def NewIncentivizedAcknowledgement (relayer : String) (ack : List Nat) (success : Bool) :
    IncentivizedAcknowledgement :=
  ⟨relayer, ack, success⟩

/-- Modelled from the spec: `IncentivizedAcknowledgement.Success` of `types/ack.go`,
which is not among the sources: the success flag the acknowledgement was built
with. -/
def IncentivizedAcknowledgement.Success (ack : IncentivizedAcknowledgement) : Bool :=
  ack.UnderlyingAppSuccess

/-- A value of the interface `exported.Acknowledgement` as the middleware returns it:
the application's own value, or an incentivized acknowledgement. -/
inductive Acknowledgement where
  | underlying (ack : ApplicationAck)
  | incentivized (ack : IncentivizedAcknowledgement)
  deriving DecidableEq, Repr

/-- `Acknowledgement.Success()`. -/
def Acknowledgement.Success : Acknowledgement → Bool
  | .underlying ack => ack.Success
  | .incentivized ack => ack.Success

/-- `types.PacketFee`. -/
structure PacketFee where
  Fee : Fee
  RefundAddress : String
  Relayers : List String
  deriving DecidableEq, Repr

/-- `types.IdentifiedPacketFees`: the fees in escrow for a packet. -/
structure IdentifiedPacketFees where
  PacketFees : List PacketFee
  deriving DecidableEq, Repr

/-- What the middleware uses of the package `types`, which is not among the sources:
the fee version `types.Version`, and `types.ModuleCdc` decoding and encoding a
`Metadata` and decoding an `IncentivizedAcknowledgement`. -/
structure Types where
  Version : String
  UnmarshalMetadata : String → Option Metadata
  MarshalMetadata : Metadata → Except Error String
  UnmarshalIncentivizedAcknowledgement : List Nat → Except Error IncentivizedAcknowledgement

/-- The methods of `keeper.Keeper` the middleware calls, on the state `σ` behind
`sdk.Context`.  The keeper is not among the sources. -/
structure Keeper (σ : Type) where
  IsFeeEnabled : σ → String → String → Bool
  SetFeeEnabled : σ → String → String → σ
  IsLocked : σ → Bool
  GetFeesInEscrow : σ → PacketId → Option IdentifiedPacketFees
  DistributePacketFeesOnAcknowledgement :
    σ → String → AccAddress → List PacketFee → PacketId → σ
  DistributePacketFeesOnTimeout :
    σ → AccAddress → List PacketFee → PacketId → Option Error × σ
  RefundFeesOnChannelClosure : σ → String → String → Option Error × σ
  SetRelayerAddressForAsyncAck : σ → PacketId → String → σ
  GetCounterpartyAddress : σ → String → String → String × Bool

/-- `porttypes.IBCModule`: the callbacks of the underlying application, on the state
`σ` behind `sdk.Context`. -/
structure IBCModule (σ : Type) where
  OnChanOpenInit :
    σ → Order → List String → String → String → Nat → Counterparty → String → Option Error × σ
  OnChanOpenTry :
    σ → Order → List String → String → String → Nat → Counterparty → String →
      (String × Option Error) × σ
  OnChanOpenAck : σ → String → String → String → String → Option Error × σ
  OnChanOpenConfirm : σ → String → String → Option Error × σ
  OnChanCloseInit : σ → String → String → Option Error × σ
  OnChanCloseConfirm : σ → String → String → Option Error × σ
  OnRecvPacket : σ → Packet → AccAddress → Option ApplicationAck × σ
  OnAcknowledgementPacket : σ → Packet → List Nat → AccAddress → Option Error × σ
  OnTimeoutPacket : σ → Packet → AccAddress → Option Error × σ

/-- `IBCMiddleware`: the fee keeper and the underlying application. -/
structure IBCMiddleware (σ : Type) where
  app : IBCModule σ
  keeper : Keeper σ

/-- The callbacks of an application. -/
inductive Callback where
  | OnChanOpenInit | OnChanOpenTry | OnChanOpenAck | OnChanOpenConfirm
  | OnChanCloseInit | OnChanCloseConfirm
  | OnRecvPacket | OnAcknowledgementPacket | OnTimeoutPacket
  deriving DecidableEq, Repr

/-- A call of a callback of the underlying application, with its arguments. -/
inductive AppCall where
  | OnChanOpenInit (order : Order) (connectionHops : List String) (portID channelID : String)
      (chanCap : Nat) (counterparty : Counterparty) (version : String)
  | OnChanOpenTry (order : Order) (connectionHops : List String) (portID channelID : String)
      (chanCap : Nat) (counterparty : Counterparty) (counterpartyVersion : String)
  | OnChanOpenAck (portID channelID counterpartyChannelID counterpartyVersion : String)
  | OnChanOpenConfirm (portID channelID : String)
  | OnChanCloseInit (portID channelID : String)
  | OnChanCloseConfirm (portID channelID : String)
  | OnRecvPacket (packet : Packet) (relayer : AccAddress)
  | OnAcknowledgementPacket (packet : Packet) (acknowledgement : List Nat)
      (relayer : AccAddress)
  | OnTimeoutPacket (packet : Packet) (relayer : AccAddress)
  deriving DecidableEq, Repr

/-- The callback a call is a call of. -/
def AppCall.callback : AppCall → Callback
  | .OnChanOpenInit .. => .OnChanOpenInit
  | .OnChanOpenTry .. => .OnChanOpenTry
  | .OnChanOpenAck .. => .OnChanOpenAck
  | .OnChanOpenConfirm .. => .OnChanOpenConfirm
  | .OnChanCloseInit .. => .OnChanCloseInit
  | .OnChanCloseConfirm .. => .OnChanCloseConfirm
  | .OnRecvPacket .. => .OnRecvPacket
  | .OnAcknowledgementPacket .. => .OnAcknowledgementPacket
  | .OnTimeoutPacket .. => .OnTimeoutPacket

/-- What a callback of the application returned. -/
inductive AppResult where
  | error (err : Option Error)
  | version (version : String) (err : Option Error)
  | ack (ack : Option ApplicationAck)
  deriving DecidableEq, Repr

/-- The error a callback of the application returned, if it returned one. -/
def AppResult.err : AppResult → Option Error
  | .error err => err
  | .version _ err => err
  | .ack _ => none

/-- A call of a method of the fee keeper, with its arguments. -/
inductive KeeperCall where
  | IsFeeEnabled (portID channelID : String)
  | SetFeeEnabled (portID channelID : String)
  | IsLocked
  | GetFeesInEscrow (packetID : PacketId)
  | DistributePacketFeesOnAcknowledgement (forwardRelayer : String)
      (reverseRelayer : AccAddress) (packetFees : List PacketFee) (packetID : PacketId)
  | DistributePacketFeesOnTimeout (timeoutRelayer : AccAddress)
      (packetFees : List PacketFee) (packetID : PacketId)
  | RefundFeesOnChannelClosure (portID channelID : String)
  | SetRelayerAddressForAsyncAck (packetID : PacketId) (address : String)
  | GetCounterpartyAddress (address channelID : String)
  deriving DecidableEq, Repr

/-- The keeper methods that write, among them the two that distribute fees. -/
def KeeperCall.isWrite : KeeperCall → Bool
  | .SetFeeEnabled .. => true
  | .DistributePacketFeesOnAcknowledgement .. => true
  | .DistributePacketFeesOnTimeout .. => true
  | .RefundFeesOnChannelClosure .. => true
  | .SetRelayerAddressForAsyncAck .. => true
  | _ => false

/-- What a callback of the middleware does, in order: calls of keeper methods and
calls of callbacks of the application with what they returned. -/
inductive Event where
  | keeper (call : KeeperCall)
  | app (call : AppCall) (result : AppResult)
  deriving DecidableEq, Repr

/-- Whether an event is a call of the application. -/
def Event.isApp : Event → Bool
  | .app .. => true
  | .keeper _ => false

/-- `sdk.Context` as the middleware uses it: the state the keeper and the application
read and write, and the record of the calls made so far. -/
structure Ctx (σ : Type) where
  state : σ
  events : List Event

/-- The context after a keeper method that only reads. -/
def Ctx.read {σ : Type} (ctx : Ctx σ) (call : KeeperCall) : Ctx σ :=
  ⟨ctx.state, ctx.events ++ [.keeper call]⟩

/-- The context after a keeper method that leaves the state `state`. -/
def Ctx.write {σ : Type} (ctx : Ctx σ) (call : KeeperCall) (state : σ) : Ctx σ :=
  ⟨state, ctx.events ++ [.keeper call]⟩

/-- The context after a callback of the application that returned `result` and left
the state `state`. -/
def Ctx.called {σ : Type} (ctx : Ctx σ) (call : AppCall) (result : AppResult) (state : σ) :
    Ctx σ :=
  ⟨state, ctx.events ++ [.app call result]⟩

end IBCFee
namespace IBCFee

/-! ### Calls through the context -/

/-- `im.keeper.IsFeeEnabled(ctx, portID, channelID)`. -/
def IBCMiddleware.IsFeeEnabled {σ : Type} (im : IBCMiddleware σ) (ctx : Ctx σ)
    (portID channelID : String) : Bool × Ctx σ :=
  (im.keeper.IsFeeEnabled ctx.state portID channelID, ctx.read (.IsFeeEnabled portID channelID))

/-- `im.keeper.IsLocked(ctx)`. -/
def IBCMiddleware.IsLocked {σ : Type} (im : IBCMiddleware σ) (ctx : Ctx σ) : Bool × Ctx σ :=
  (im.keeper.IsLocked ctx.state, ctx.read .IsLocked)

/-- `im.keeper.SetFeeEnabled(ctx, portID, channelID)`. -/
def IBCMiddleware.SetFeeEnabled {σ : Type} (im : IBCMiddleware σ) (ctx : Ctx σ)
    (portID channelID : String) : Ctx σ :=
  ctx.write (.SetFeeEnabled portID channelID) (im.keeper.SetFeeEnabled ctx.state portID channelID)

/-- `im.keeper.GetFeesInEscrow(ctx, packetID)`; `none` is "not found". -/
def IBCMiddleware.GetFeesInEscrow {σ : Type} (im : IBCMiddleware σ) (ctx : Ctx σ)
    (packetID : PacketId) : Option IdentifiedPacketFees × Ctx σ :=
  (im.keeper.GetFeesInEscrow ctx.state packetID, ctx.read (.GetFeesInEscrow packetID))

/-- `im.keeper.DistributePacketFeesOnAcknowledgement(...)`. -/
def IBCMiddleware.DistributePacketFeesOnAcknowledgement {σ : Type} (im : IBCMiddleware σ)
    (ctx : Ctx σ) (forwardRelayer : String) (reverseRelayer : AccAddress)
    (packetFees : List PacketFee) (packetID : PacketId) : Ctx σ :=
  ctx.write (.DistributePacketFeesOnAcknowledgement forwardRelayer reverseRelayer packetFees
      packetID)
    (im.keeper.DistributePacketFeesOnAcknowledgement ctx.state forwardRelayer reverseRelayer
      packetFees packetID)

/-- `im.keeper.DistributePacketFeesOnTimeout(...)`. -/
def IBCMiddleware.DistributePacketFeesOnTimeout {σ : Type} (im : IBCMiddleware σ)
    (ctx : Ctx σ) (timeoutRelayer : AccAddress) (packetFees : List PacketFee)
    (packetID : PacketId) : Option Error × Ctx σ :=
  ((im.keeper.DistributePacketFeesOnTimeout ctx.state timeoutRelayer packetFees packetID).1,
    ctx.write (.DistributePacketFeesOnTimeout timeoutRelayer packetFees packetID)
      (im.keeper.DistributePacketFeesOnTimeout ctx.state timeoutRelayer packetFees packetID).2)

/-- `im.keeper.RefundFeesOnChannelClosure(ctx, portID, channelID)`. -/
def IBCMiddleware.RefundFeesOnChannelClosure {σ : Type} (im : IBCMiddleware σ) (ctx : Ctx σ)
    (portID channelID : String) : Option Error × Ctx σ :=
  ((im.keeper.RefundFeesOnChannelClosure ctx.state portID channelID).1,
    ctx.write (.RefundFeesOnChannelClosure portID channelID)
      (im.keeper.RefundFeesOnChannelClosure ctx.state portID channelID).2)

/-- `im.keeper.SetRelayerAddressForAsyncAck(ctx, packetID, address)`. -/
def IBCMiddleware.SetRelayerAddressForAsyncAck {σ : Type} (im : IBCMiddleware σ)
    (ctx : Ctx σ) (packetID : PacketId) (address : String) : Ctx σ :=
  ctx.write (.SetRelayerAddressForAsyncAck packetID address)
    (im.keeper.SetRelayerAddressForAsyncAck ctx.state packetID address)

/-- `im.keeper.GetCounterpartyAddress(ctx, address, channelID)`. -/
def IBCMiddleware.GetCounterpartyAddress {σ : Type} (im : IBCMiddleware σ) (ctx : Ctx σ)
    (address channelID : String) : (String × Bool) × Ctx σ :=
  (im.keeper.GetCounterpartyAddress ctx.state address channelID,
    ctx.read (.GetCounterpartyAddress address channelID))

/-- `im.app.OnChanOpenInit(...)`. -/
def IBCMiddleware.appOnChanOpenInit {σ : Type} (im : IBCMiddleware σ) (ctx : Ctx σ)
    (order : Order) (connectionHops : List String) (portID channelID : String) (chanCap : Nat)
    (counterparty : Counterparty) (version : String) : Option Error × Ctx σ :=
  ((im.app.OnChanOpenInit ctx.state order connectionHops portID channelID chanCap counterparty
      version).1,
    ctx.called (.OnChanOpenInit order connectionHops portID channelID chanCap counterparty version)
      (.error (im.app.OnChanOpenInit ctx.state order connectionHops portID channelID chanCap
        counterparty version).1)
      (im.app.OnChanOpenInit ctx.state order connectionHops portID channelID chanCap
        counterparty version).2)

/-- `im.app.OnChanOpenTry(...)`. -/
def IBCMiddleware.appOnChanOpenTry {σ : Type} (im : IBCMiddleware σ) (ctx : Ctx σ)
    (order : Order) (connectionHops : List String) (portID channelID : String) (chanCap : Nat)
    (counterparty : Counterparty) (counterpartyVersion : String) :
    (String × Option Error) × Ctx σ :=
  ((im.app.OnChanOpenTry ctx.state order connectionHops portID channelID chanCap counterparty
      counterpartyVersion).1,
    ctx.called
      (.OnChanOpenTry order connectionHops portID channelID chanCap counterparty
        counterpartyVersion)
      (.version
        (im.app.OnChanOpenTry ctx.state order connectionHops portID channelID chanCap
          counterparty counterpartyVersion).1.1
        (im.app.OnChanOpenTry ctx.state order connectionHops portID channelID chanCap
          counterparty counterpartyVersion).1.2)
      (im.app.OnChanOpenTry ctx.state order connectionHops portID channelID chanCap
        counterparty counterpartyVersion).2)

/-- `im.app.OnChanOpenAck(...)`. -/
def IBCMiddleware.appOnChanOpenAck {σ : Type} (im : IBCMiddleware σ) (ctx : Ctx σ)
    (portID channelID counterpartyChannelID counterpartyVersion : String) :
    Option Error × Ctx σ :=
  ((im.app.OnChanOpenAck ctx.state portID channelID counterpartyChannelID
      counterpartyVersion).1,
    ctx.called (.OnChanOpenAck portID channelID counterpartyChannelID counterpartyVersion)
      (.error (im.app.OnChanOpenAck ctx.state portID channelID counterpartyChannelID
        counterpartyVersion).1)
      (im.app.OnChanOpenAck ctx.state portID channelID counterpartyChannelID
        counterpartyVersion).2)

/-- `im.app.OnChanOpenConfirm(...)`. -/
def IBCMiddleware.appOnChanOpenConfirm {σ : Type} (im : IBCMiddleware σ) (ctx : Ctx σ)
    (portID channelID : String) : Option Error × Ctx σ :=
  ((im.app.OnChanOpenConfirm ctx.state portID channelID).1,
    ctx.called (.OnChanOpenConfirm portID channelID)
      (.error (im.app.OnChanOpenConfirm ctx.state portID channelID).1)
      (im.app.OnChanOpenConfirm ctx.state portID channelID).2)

/-- `im.app.OnChanCloseInit(...)`. -/
def IBCMiddleware.appOnChanCloseInit {σ : Type} (im : IBCMiddleware σ) (ctx : Ctx σ)
    (portID channelID : String) : Option Error × Ctx σ :=
  ((im.app.OnChanCloseInit ctx.state portID channelID).1,
    ctx.called (.OnChanCloseInit portID channelID)
      (.error (im.app.OnChanCloseInit ctx.state portID channelID).1)
      (im.app.OnChanCloseInit ctx.state portID channelID).2)

/-- `im.app.OnChanCloseConfirm(...)`. -/
def IBCMiddleware.appOnChanCloseConfirm {σ : Type} (im : IBCMiddleware σ) (ctx : Ctx σ)
    (portID channelID : String) : Option Error × Ctx σ :=
  ((im.app.OnChanCloseConfirm ctx.state portID channelID).1,
    ctx.called (.OnChanCloseConfirm portID channelID)
      (.error (im.app.OnChanCloseConfirm ctx.state portID channelID).1)
      (im.app.OnChanCloseConfirm ctx.state portID channelID).2)

/-- `im.app.OnRecvPacket(...)`. -/
def IBCMiddleware.appOnRecvPacket {σ : Type} (im : IBCMiddleware σ) (ctx : Ctx σ)
    (packet : Packet) (relayer : AccAddress) : Option ApplicationAck × Ctx σ :=
  ((im.app.OnRecvPacket ctx.state packet relayer).1,
    ctx.called (.OnRecvPacket packet relayer)
      (.ack (im.app.OnRecvPacket ctx.state packet relayer).1)
      (im.app.OnRecvPacket ctx.state packet relayer).2)

/-- `im.app.OnAcknowledgementPacket(...)`. -/
def IBCMiddleware.appOnAcknowledgementPacket {σ : Type} (im : IBCMiddleware σ) (ctx : Ctx σ)
    (packet : Packet) (acknowledgement : List Nat) (relayer : AccAddress) :
    Option Error × Ctx σ :=
  ((im.app.OnAcknowledgementPacket ctx.state packet acknowledgement relayer).1,
    ctx.called (.OnAcknowledgementPacket packet acknowledgement relayer)
      (.error (im.app.OnAcknowledgementPacket ctx.state packet acknowledgement relayer).1)
      (im.app.OnAcknowledgementPacket ctx.state packet acknowledgement relayer).2)

/-- `im.app.OnTimeoutPacket(...)`. -/
def IBCMiddleware.appOnTimeoutPacket {σ : Type} (im : IBCMiddleware σ) (ctx : Ctx σ)
    (packet : Packet) (relayer : AccAddress) : Option Error × Ctx σ :=
  ((im.app.OnTimeoutPacket ctx.state packet relayer).1,
    ctx.called (.OnTimeoutPacket packet relayer)
      (.error (im.app.OnTimeoutPacket ctx.state packet relayer).1)
      (im.app.OnTimeoutPacket ctx.state packet relayer).2)

/-! ### The callbacks of the middleware -/

/-- `IBCMiddleware.OnChanOpenInit`. -/
def IBCMiddleware.OnChanOpenInit {σ : Type} (im : IBCMiddleware σ) (types : Types)
    (ctx : Ctx σ) (order : Order) (connectionHops : List String) (portID channelID : String)
    (chanCap : Nat) (counterparty : Counterparty) (version : String) : Option Error × Ctx σ :=
  match types.UnmarshalMetadata version with
  | none =>
    -- not a fee version: pass the entire version string onto the underlying application
    im.appOnChanOpenInit ctx order connectionHops portID channelID chanCap counterparty version
  | some versionMetadata =>
    if versionMetadata.FeeVersion ≠ types.Version then
      (some (.wrap .ErrInvalidVersion "expected fee version"), ctx)
    else
      -- call underlying app's OnChanOpenInit callback with the appVersion
      im.appOnChanOpenInit (im.SetFeeEnabled ctx portID channelID) order connectionHops portID
        channelID chanCap counterparty versionMetadata.AppVersion

/-- `IBCMiddleware.OnChanOpenTry`: if the channel is not fee enabled the underlying
application version is returned; if it is, the underlying application version is
merged with the ics29 version. -/
def IBCMiddleware.OnChanOpenTry {σ : Type} (im : IBCMiddleware σ) (types : Types)
    (ctx : Ctx σ) (order : Order) (connectionHops : List String) (portID channelID : String)
    (chanCap : Nat) (counterparty : Counterparty) (counterpartyVersion : String) :
    (String × Option Error) × Ctx σ :=
  match types.UnmarshalMetadata counterpartyVersion with
  | none =>
    im.appOnChanOpenTry ctx order connectionHops portID channelID chanCap counterparty
      counterpartyVersion
  | some versionMetadata =>
    if versionMetadata.FeeVersion ≠ types.Version then
      (("", some (.wrap .ErrInvalidVersion "expected fee version")), ctx)
    else
      -- call underlying app's OnChanOpenTry callback with the app versions
      let r := im.appOnChanOpenTry (im.SetFeeEnabled ctx portID channelID) order connectionHops
        portID channelID chanCap counterparty versionMetadata.AppVersion
      match r.1.2 with
      | some err => (("", some err), r.2)
      | none =>
        match types.MarshalMetadata { versionMetadata with AppVersion := r.1.1 } with
        | .error err => (("", some err), r.2)
        | .ok versionBytes => ((versionBytes, none), r.2)

/-- `IBCMiddleware.OnChanOpenAck`. -/
def IBCMiddleware.OnChanOpenAck {σ : Type} (im : IBCMiddleware σ) (types : Types)
    (ctx : Ctx σ) (portID channelID counterpartyChannelID counterpartyVersion : String) :
    Option Error × Ctx σ :=
  -- If handshake was initialized with fee enabled it must complete with fee enabled.
  -- If handshake was initialized with fee disabled it must complete with fee disabled.
  if (im.IsFeeEnabled ctx portID channelID).1 = true then
    match types.UnmarshalMetadata counterpartyVersion with
    | none =>
      (some (.wrap .ErrInvalidVersion
        "failed to unmarshal ICS29 counterparty version metadata"),
        (im.IsFeeEnabled ctx portID channelID).2)
    | some versionMetadata =>
      if versionMetadata.FeeVersion ≠ types.Version then
        (some (.wrap .ErrInvalidVersion "expected counterparty fee version"),
          (im.IsFeeEnabled ctx portID channelID).2)
      else
        -- call underlying app's OnChanOpenAck callback with the counterparty app version.
        im.appOnChanOpenAck (im.IsFeeEnabled ctx portID channelID).2 portID channelID
          counterpartyChannelID versionMetadata.AppVersion
  else
    im.appOnChanOpenAck (im.IsFeeEnabled ctx portID channelID).2 portID channelID
      counterpartyChannelID counterpartyVersion

/-- `IBCMiddleware.OnChanOpenConfirm`. -/
def IBCMiddleware.OnChanOpenConfirm {σ : Type} (im : IBCMiddleware σ) (ctx : Ctx σ)
    (portID channelID : String) : Option Error × Ctx σ :=
  -- call underlying app's OnChanOpenConfirm callback.
  im.appOnChanOpenConfirm ctx portID channelID

/-- `IBCMiddleware.OnChanCloseInit`. -/
def IBCMiddleware.OnChanCloseInit {σ : Type} (im : IBCMiddleware σ) (ctx : Ctx σ)
    (portID channelID : String) : Option Error × Ctx σ :=
  match (im.appOnChanCloseInit ctx portID channelID).1 with
  | some err => (some err, (im.appOnChanCloseInit ctx portID channelID).2)
  | none =>
    match (im.RefundFeesOnChannelClosure (im.appOnChanCloseInit ctx portID channelID).2
        portID channelID).1 with
    | some err =>
      (some err, (im.RefundFeesOnChannelClosure (im.appOnChanCloseInit ctx portID channelID).2
        portID channelID).2)
    | none =>
      (none, (im.RefundFeesOnChannelClosure (im.appOnChanCloseInit ctx portID channelID).2
        portID channelID).2)

/-- `IBCMiddleware.OnChanCloseConfirm`. -/
def IBCMiddleware.OnChanCloseConfirm {σ : Type} (im : IBCMiddleware σ) (ctx : Ctx σ)
    (portID channelID : String) : Option Error × Ctx σ :=
  match (im.appOnChanCloseConfirm ctx portID channelID).1 with
  | some err => (some err, (im.appOnChanCloseConfirm ctx portID channelID).2)
  | none =>
    match (im.RefundFeesOnChannelClosure (im.appOnChanCloseConfirm ctx portID channelID).2
        portID channelID).1 with
    | some err =>
      (some err, (im.RefundFeesOnChannelClosure (im.appOnChanCloseConfirm ctx portID channelID).2
        portID channelID).2)
    | none =>
      (none, (im.RefundFeesOnChannelClosure (im.appOnChanCloseConfirm ctx portID channelID).2
        portID channelID).2)

/-- `IBCMiddleware.OnRecvPacket`: if fees are not enabled, this callback defaults to the
ibc-core packet callback. -/
def IBCMiddleware.OnRecvPacket {σ : Type} (im : IBCMiddleware σ) (ctx : Ctx σ)
    (packet : Packet) (relayer : AccAddress) : Option Acknowledgement × Ctx σ :=
  let enabled := im.IsFeeEnabled ctx packet.DestinationPort packet.DestinationChannel
  if enabled.1 = false then
    ((im.appOnRecvPacket enabled.2 packet relayer).1.map .underlying,
      (im.appOnRecvPacket enabled.2 packet relayer).2)
  else
    let r := im.appOnRecvPacket enabled.2 packet relayer
    match r.1 with
    | none =>
      -- async acknowledgement: store the relayer address for use later
      (none, im.SetRelayerAddressForAsyncAck r.2
        (NewPacketId packet.DestinationPort packet.DestinationChannel packet.Sequence)
        relayer.String)
    | some ack =>
      -- if forwardRelayer is not found we refund recv_fee
      let forwardRelayer := im.GetCounterpartyAddress r.2 relayer.String
        packet.DestinationChannel
      (some (.incentivized
          (NewIncentivizedAcknowledgement forwardRelayer.1.1 ack.Acknowledgement ack.Success)),
        forwardRelayer.2)

/-- `IBCMiddleware.OnAcknowledgementPacket`: if fees are not enabled, this callback
defaults to the ibc-core packet callback. -/
def IBCMiddleware.OnAcknowledgementPacket {σ : Type} (im : IBCMiddleware σ) (types : Types)
    (ctx : Ctx σ) (packet : Packet) (acknowledgement : List Nat) (relayer : AccAddress) :
    Option Error × Ctx σ :=
  let enabled := im.IsFeeEnabled ctx packet.SourcePort packet.SourceChannel
  if enabled.1 = false then
    im.appOnAcknowledgementPacket enabled.2 packet acknowledgement relayer
  else
    match types.UnmarshalIncentivizedAcknowledgement acknowledgement with
    | .error err =>
      (some (.wrap err "cannot unmarshal ICS-29 incentivized packet acknowledgement"),
        enabled.2)
    | .ok ack =>
      let locked := im.IsLocked enabled.2
      if locked.1 = true then
        -- if the fee keeper is locked then fee logic should be skipped
        im.appOnAcknowledgementPacket locked.2 packet ack.AppAcknowledgement relayer
      else
        let packetID := NewPacketId packet.SourcePort packet.SourceChannel packet.Sequence
        let feesInEscrow := im.GetFeesInEscrow locked.2 packetID
        match feesInEscrow.1 with
        | some fees =>
          -- call underlying callback
          im.appOnAcknowledgementPacket
            (im.DistributePacketFeesOnAcknowledgement feesInEscrow.2 ack.ForwardRelayerAddress
              relayer fees.PacketFees packetID)
            packet ack.AppAcknowledgement relayer
        | none =>
          im.appOnAcknowledgementPacket feesInEscrow.2 packet ack.AppAcknowledgement relayer

/-- `IBCMiddleware.OnTimeoutPacket`: if fees are not enabled, this callback defaults to
the ibc-core packet callback.  The condition `!IsFeeEnabled || IsLocked` asks the
keeper for the lock only when fees are enabled. -/
def IBCMiddleware.OnTimeoutPacket {σ : Type} (im : IBCMiddleware σ) (ctx : Ctx σ)
    (packet : Packet) (relayer : AccAddress) : Option Error × Ctx σ :=
  let enabled := im.IsFeeEnabled ctx packet.SourcePort packet.SourceChannel
  if enabled.1 = false then
    im.appOnTimeoutPacket enabled.2 packet relayer
  else
    let locked := im.IsLocked enabled.2
    if locked.1 = true then
      -- if the fee keeper is locked then fee logic should be skipped
      im.appOnTimeoutPacket locked.2 packet relayer
    else
      let packetID := NewPacketId packet.SourcePort packet.SourceChannel packet.Sequence
      let feesInEscrow := im.GetFeesInEscrow locked.2 packetID
      match feesInEscrow.1 with
      | some fees =>
        let distributed := im.DistributePacketFeesOnTimeout feesInEscrow.2 relayer
          fees.PacketFees packetID
        match distributed.1 with
        | some err => (some err, distributed.2)
        | none =>
          -- call underlying callback
          im.appOnTimeoutPacket distributed.2 packet relayer
      | none => im.appOnTimeoutPacket feesInEscrow.2 packet relayer

end IBCFee
namespace IBCFee

/-! ### A keeper, an application and a codec for evaluation -/

/-- A state for evaluation: the fee enabled channels, the lock, the fees in escrow,
the packets whose fees were distributed, the relayers stored for asynchronous
acknowledgements, and the number of callbacks the application has run. -/
structure TestState where
  feeEnabled : List (String × String)
  locked : Bool
  escrow : List (PacketId × IdentifiedPacketFees)
  distributed : List PacketId
  asyncRelayers : List (PacketId × String)
  appCalls : Nat
  deriving DecidableEq, Repr

/-- A keeper on `TestState`. -/
def testKeeper : Keeper TestState where
  IsFeeEnabled := fun s portID channelID => s.feeEnabled.contains (portID, channelID)
  SetFeeEnabled := fun s portID channelID =>
    { s with feeEnabled := (portID, channelID) :: s.feeEnabled }
  IsLocked := fun s => s.locked
  GetFeesInEscrow := fun s packetID =>
    (s.escrow.find? (fun e => e.1 == packetID)).map (fun e => e.2)
  DistributePacketFeesOnAcknowledgement := fun s _ _ _ packetID =>
    { s with distributed := packetID :: s.distributed,
             escrow := s.escrow.filter (fun e => e.1 != packetID) }
  DistributePacketFeesOnTimeout := fun s _ _ packetID =>
    (none, { s with distributed := packetID :: s.distributed,
                    escrow := s.escrow.filter (fun e => e.1 != packetID) })
  RefundFeesOnChannelClosure := fun s portID channelID =>
    (none, { s with
      escrow := s.escrow.filter (fun e => !(e.1.PortId == portID && e.1.ChannelId == channelID)) })
  SetRelayerAddressForAsyncAck := fun s packetID address =>
    { s with asyncRelayers := (packetID, address) :: s.asyncRelayers }
  GetCounterpartyAddress := fun _ _ _ => ("", false)

/-- An application on `TestState`: it counts its callbacks, accepts every handshake
step, answers `OnChanOpenTry` with the version it is offered, acknowledges a packet
with its data, and rejects an acknowledgement that is empty. -/
def testApp : IBCModule TestState where
  OnChanOpenInit := fun s _ _ _ _ _ _ _ => (none, { s with appCalls := s.appCalls + 1 })
  OnChanOpenTry := fun s _ _ _ _ _ _ version =>
    ((version, none), { s with appCalls := s.appCalls + 1 })
  OnChanOpenAck := fun s _ _ _ _ => (none, { s with appCalls := s.appCalls + 1 })
  OnChanOpenConfirm := fun s _ _ => (none, { s with appCalls := s.appCalls + 1 })
  OnChanCloseInit := fun s _ _ => (none, { s with appCalls := s.appCalls + 1 })
  OnChanCloseConfirm := fun s _ _ => (none, { s with appCalls := s.appCalls + 1 })
  OnRecvPacket := fun s packet _ =>
    (some ⟨true, packet.Data⟩, { s with appCalls := s.appCalls + 1 })
  OnAcknowledgementPacket := fun s _ acknowledgement _ =>
    (if acknowledgement = [] then some (.external "empty acknowledgement") else none,
      { s with appCalls := s.appCalls + 1 })
  OnTimeoutPacket := fun s _ _ => (none, { s with appCalls := s.appCalls + 1 })

/-- The middleware over `testApp` and `testKeeper`. -/
def testMiddleware : IBCMiddleware TestState := ⟨testApp, testKeeper⟩

/-- A codec for evaluation: a `Metadata` is written `fee_version|app_version`, and an
incentivized acknowledgement is the byte 255, a success byte, and the bytes of the
application's acknowledgement. -/
def testTypes : Types where
  Version := "ics29-1"
  UnmarshalMetadata := fun s =>
    match Transfer.cutChars '|' s.data with
    | none => none
    | some (a, b) => some ⟨String.mk a, String.mk b⟩
  MarshalMetadata := fun md => .ok (md.FeeVersion ++ "|" ++ md.AppVersion)
  UnmarshalIncentivizedAcknowledgement := fun bz =>
    match bz with
    | 255 :: flag :: rest => .ok ⟨"forward", rest, flag != 0⟩
    | _ => .error (.external "invalid character")

/-- A packet from `transfer/channel-0` to `transfer/channel-1` with sequence 1. -/
def testPacket : Packet :=
  ⟨1, "transfer", "channel-0", "transfer", "channel-1", [7], (1, 100), 0⟩

/-- A relayer. -/
def testRelayer : AccAddress := ⟨"cosmos1relayer"⟩

/-- A state with the given fee enabled channels and lock, with fees in escrow for the
packet `transfer/channel-0/1`. -/
def testState (feeEnabled : List (String × String)) (locked : Bool) : TestState :=
  ⟨feeEnabled, locked,
    [(⟨"transfer", "channel-0", 1⟩, ⟨[⟨recvOnlyFee, "cosmos1refund", []⟩]⟩)], [], [], 0⟩

/-- A context on `testState` with no call recorded. -/
def testCtx (feeEnabled : List (String × String)) (locked : Bool) : Ctx TestState :=
  ⟨testState feeEnabled locked, []⟩

end IBCFee
namespace IBCFee

/-- Modelled from the spec: the lock of the fee keeper, whose code (`keeper`) is not
among the sources.  Spec §9: the flag is "set only by a privileged operation, never by
ordinary protocol execution": no keeper method the middleware calls and no callback
of the application changes what `IsLocked` reports.  This is an assumption on the
keeper and the application; `ibc_middleware.go` does not establish it. -/
structure IBCMiddleware.PreservesLocked {σ : Type} (im : IBCMiddleware σ) : Prop where
  setFeeEnabled : ∀ s p c,
    im.keeper.IsLocked (im.keeper.SetFeeEnabled s p c) = im.keeper.IsLocked s
  distributeOnAcknowledgement : ∀ s f r fees id,
    im.keeper.IsLocked (im.keeper.DistributePacketFeesOnAcknowledgement s f r fees id)
      = im.keeper.IsLocked s
  distributeOnTimeout : ∀ s r fees id,
    im.keeper.IsLocked (im.keeper.DistributePacketFeesOnTimeout s r fees id).2
      = im.keeper.IsLocked s
  refund : ∀ s p c,
    im.keeper.IsLocked (im.keeper.RefundFeesOnChannelClosure s p c).2 = im.keeper.IsLocked s
  setRelayerAddress : ∀ s id a,
    im.keeper.IsLocked (im.keeper.SetRelayerAddressForAsyncAck s id a) = im.keeper.IsLocked s
  onChanOpenInit : ∀ s o h p c cap cp v,
    im.keeper.IsLocked (im.app.OnChanOpenInit s o h p c cap cp v).2 = im.keeper.IsLocked s
  onChanOpenTry : ∀ s o h p c cap cp v,
    im.keeper.IsLocked (im.app.OnChanOpenTry s o h p c cap cp v).2 = im.keeper.IsLocked s
  onChanOpenAck : ∀ s p c cc v,
    im.keeper.IsLocked (im.app.OnChanOpenAck s p c cc v).2 = im.keeper.IsLocked s
  onChanOpenConfirm : ∀ s p c,
    im.keeper.IsLocked (im.app.OnChanOpenConfirm s p c).2 = im.keeper.IsLocked s
  onChanCloseInit : ∀ s p c,
    im.keeper.IsLocked (im.app.OnChanCloseInit s p c).2 = im.keeper.IsLocked s
  onChanCloseConfirm : ∀ s p c,
    im.keeper.IsLocked (im.app.OnChanCloseConfirm s p c).2 = im.keeper.IsLocked s
  onRecvPacket : ∀ s pk r,
    im.keeper.IsLocked (im.app.OnRecvPacket s pk r).2 = im.keeper.IsLocked s
  onAcknowledgementPacket : ∀ s pk a r,
    im.keeper.IsLocked (im.app.OnAcknowledgementPacket s pk a r).2 = im.keeper.IsLocked s
  onTimeoutPacket : ∀ s pk r,
    im.keeper.IsLocked (im.app.OnTimeoutPacket s pk r).2 = im.keeper.IsLocked s

end IBCFee
namespace IBCFee

/-- What C19 asks of the events `evs` of one call of a middleware callback that
returned the error `returned` (`none` for nil): at most one of them is a call of the
application, a call of the application is a call of the callback `cb`, and an
error it returned is the error the middleware returns. -/
def CallsOnly (cb : Callback) (evs : List Event) (returned : Option Error) : Prop :=
  (evs.filter Event.isApp).length ≤ 1 ∧
  ∀ call result, Event.app call result ∈ evs →
    call.callback = cb ∧ ∀ e, result.err = some e → returned = some e

/-- The same for `OnRecvPacket`, which returns an acknowledgement: an acknowledgement
of the application is answered by an acknowledgement with the same `Success()`. -/
def RecvCallsOnly (evs : List Event) (returned : Option Acknowledgement) : Prop :=
  (evs.filter Event.isApp).length ≤ 1 ∧
  ∀ call result, Event.app call result ∈ evs →
    call.callback = .OnRecvPacket ∧
    ∀ ack, result = .ack (some ack) → ∃ w, returned = some w ∧ w.Success = ack.Success

/-- The store after a call of a keeper method: the methods that only read leave the
store as it is. -/
def KeeperCall.effect {σ : Type} (keeper : Keeper σ) : KeeperCall → σ → σ
  | .IsFeeEnabled _ _, s => s
  | .SetFeeEnabled portID channelID, s => keeper.SetFeeEnabled s portID channelID
  | .IsLocked, s => s
  | .GetFeesInEscrow _, s => s
  | .DistributePacketFeesOnAcknowledgement forwardRelayer reverseRelayer packetFees packetID, s =>
    keeper.DistributePacketFeesOnAcknowledgement s forwardRelayer reverseRelayer packetFees
      packetID
  | .DistributePacketFeesOnTimeout timeoutRelayer packetFees packetID, s =>
    (keeper.DistributePacketFeesOnTimeout s timeoutRelayer packetFees packetID).2
  | .RefundFeesOnChannelClosure portID channelID, s =>
    (keeper.RefundFeesOnChannelClosure s portID channelID).2
  | .SetRelayerAddressForAsyncAck packetID address, s =>
    keeper.SetRelayerAddressForAsyncAck s packetID address
  | .GetCounterpartyAddress _ _, s => s

/-- The store after a call of a callback of the application. -/
def AppCall.effect {σ : Type} (app : IBCModule σ) : AppCall → σ → σ
  | .OnChanOpenInit order connectionHops portID channelID chanCap counterparty version, s =>
    (app.OnChanOpenInit s order connectionHops portID channelID chanCap counterparty version).2
  | .OnChanOpenTry order connectionHops portID channelID chanCap counterparty version, s =>
    (app.OnChanOpenTry s order connectionHops portID channelID chanCap counterparty version).2
  | .OnChanOpenAck portID channelID counterpartyChannelID counterpartyVersion, s =>
    (app.OnChanOpenAck s portID channelID counterpartyChannelID counterpartyVersion).2
  | .OnChanOpenConfirm portID channelID, s => (app.OnChanOpenConfirm s portID channelID).2
  | .OnChanCloseInit portID channelID, s => (app.OnChanCloseInit s portID channelID).2
  | .OnChanCloseConfirm portID channelID, s => (app.OnChanCloseConfirm s portID channelID).2
  | .OnRecvPacket packet relayer, s => (app.OnRecvPacket s packet relayer).2
  | .OnAcknowledgementPacket packet acknowledgement relayer, s =>
    (app.OnAcknowledgementPacket s packet acknowledgement relayer).2
  | .OnTimeoutPacket packet relayer, s => (app.OnTimeoutPacket s packet relayer).2

/-- The store after a recorded call: that of the keeper method or of the callback of
the application. -/
def Event.effect {σ : Type} (im : IBCMiddleware σ) : Event → σ → σ
  | .keeper call, s => call.effect im.keeper s
  | .app call _, s => call.effect im.app s

/-- The store after the recorded calls, made in order from the store `s`. -/
def replay {σ : Type} (im : IBCMiddleware σ) (evs : List Event) (s : σ) : σ :=
  evs.foldl (fun state event => event.effect im state) s

/-- A keeper on `TestState` whose escrow account is short of funds: a distribution on
timeout pays nothing, locks the keeper and returns an error.  The keeper is not among
the sources; this one does what the comments in `OnAcknowledgementPacket` and
`OnTimeoutPacket` give as the origin of the lock ("this may occur in the presence of a
severe bug which leads to invalid state"). -/
def lockingKeeper : Keeper TestState :=
  { testKeeper with
    DistributePacketFeesOnTimeout := fun s _ _ _ =>
      (some (.external "insufficient funds in escrow"), { s with locked := true }) }

/-- The middleware over `testApp` and `lockingKeeper`. -/
def lockingMiddleware : IBCMiddleware TestState := ⟨testApp, lockingKeeper⟩

end IBCFee

/-! # Theorems -/

namespace Upgrade

/-- Init validation only ever accepts the stored channel end, and only in state OPEN. -/
theorem upgradeInitChecks_ok (env : Env) (st : Store)
    (portID channelID : String) (chanCap : Nat) (proposedUpgradeChannel : Channel)
    (timeoutHeight : Height) (timeoutTimestamp : Nat) (channel : Channel)
    (h : upgradeInitChecks env st portID channelID chanCap proposedUpgradeChannel
      timeoutHeight timeoutTimestamp = .ok channel) :
    st.channelEnd = some channel ∧ channel.state = .OPEN := by
  unfold upgradeInitChecks at h
  repeat (first | contradiction | split at h)
  all_goals simp_all

/-- A successful Init is the write of the snapshot, the next sequence, the proposal
and the channel end carrying the proposed fields. -/
theorem chanUpgradeInit_ok (env : Env) (st : Store)
    (portID channelID : String) (chanCap : Nat) (proposedUpgradeChannel : Channel)
    (timeoutHeight : Height) (timeoutTimestamp : Nat) (r : Nat × String)
    (h : (ChanUpgradeInit env st portID channelID chanCap proposedUpgradeChannel
      timeoutHeight timeoutTimestamp).1 = .ok r) :
    ∃ channel, st.channelEnd = some channel ∧ channel.state = .OPEN ∧
      r = ((st.currentSequence + 1) % 2 ^ 64, channel.version) ∧
      (ChanUpgradeInit env st portID channelID chanCap proposedUpgradeChannel
        timeoutHeight timeoutTimestamp).2 =
        { st with
          upgradeRestore := some channel
          upgradeSequence := some ((st.currentSequence + 1) % 2 ^ 64)
          upgradeProposal := some ⟨{ proposedUpgradeChannel with state := .INITUPGRADE },
            timeoutHeight, timeoutTimestamp⟩
          channelEnd := some { proposedUpgradeChannel with state := .INITUPGRADE } } := by
  unfold ChanUpgradeInit at h ⊢
  cases hchk : upgradeInitChecks env st portID channelID chanCap proposedUpgradeChannel
      timeoutHeight timeoutTimestamp with
  | error e => rw [hchk] at h; simp at h
  | ok channel =>
    rw [hchk] at h
    obtain ⟨h1, h2⟩ := upgradeInitChecks_ok _ _ _ _ _ _ _ _ _ hchk
    refine ⟨channel, h1, h2, ?_, rfl⟩
    simpa using h.symm

/-- C1: for a channel end in state OPEN with version `v`, a successful
`ChanUpgradeInit` returns the incremented upgrade sequence and the pre-upgrade
version: `s + 1` when the stored upgrade sequence is `s` (the sum of 64-bit unsigned
integers, which is the natural number `s + 1` for every `s` below `2 ^ 64 - 1`), `1`
when none is stored; the returned sequence is also the one stored after the call. -/
theorem chanUpgradeInit_returns_next_sequence (env : Env) (st : Store)
    (portID channelID : String) (chanCap : Nat) (proposedUpgradeChannel : Channel)
    (timeoutHeight : Height) (timeoutTimestamp : Nat) (c : Channel)
    (upgradeSequence : Nat) (previousVersion : String)
    (hc : st.channelEnd = some c) (_hopen : c.state = .OPEN)
    (h : (ChanUpgradeInit env st portID channelID chanCap proposedUpgradeChannel
      timeoutHeight timeoutTimestamp).1 = .ok (upgradeSequence, previousVersion)) :
    (∀ s, st.upgradeSequence = some s → upgradeSequence = (s + 1) % 2 ^ 64) ∧
    (∀ s, st.upgradeSequence = some s → s < 2 ^ 64 - 1 → upgradeSequence = s + 1) ∧
    (st.upgradeSequence = none → upgradeSequence = 1) ∧
    previousVersion = c.version ∧
    (ChanUpgradeInit env st portID channelID chanCap proposedUpgradeChannel
      timeoutHeight timeoutTimestamp).2.upgradeSequence = some upgradeSequence := by
  obtain ⟨channel, h1, _, h3, h4⟩ := chanUpgradeInit_ok _ _ _ _ _ _ _ _ _ h
  rw [hc] at h1
  obtain rfl : c = channel := by simpa using h1
  simp only [Prod.mk.injEq] at h3
  obtain ⟨hseq, hver⟩ := h3
  refine ⟨?_, ?_, ?_, hver, ?_⟩
  · intro s hs
    simp [hseq, Store.currentSequence, hs]
  · intro s hs hlt
    rw [hseq]
    simp only [Store.currentSequence, hs, Option.getD_some]
    exact Nat.mod_eq_of_lt (by omega)
  · intro hs
    simp [hseq, Store.currentSequence, hs]
  · rw [h4, hseq]

/-- Witness for C1: stored sequence 4 gives 5 (`TestChanUpgradeInit`, "success with
later upgrade sequence"). -/
theorem chanUpgradeInit_returns_next_sequence_witness :
    (∀ s, (openStore (some 4)).upgradeSequence = some s → 5 = (s + 1) % 2 ^ 64) ∧
    (∀ s, (openStore (some 4)).upgradeSequence = some s → s < 2 ^ 64 - 1 → 5 = s + 1) ∧
    ((openStore (some 4)).upgradeSequence = none → 5 = 1) ∧
    "mock-version" = channelA.version ∧
    (ChanUpgradeInit testEnv (openStore (some 4)) "mock" "channel-0" 1
      (channelUpgrade .INITUPGRADE) ⟨1, 110⟩ 0).2.upgradeSequence = some 5 :=
  chanUpgradeInit_returns_next_sequence testEnv (openStore (some 4)) "mock" "channel-0" 1
    (channelUpgrade .INITUPGRADE) ⟨1, 110⟩ 0 channelA 5 "mock-version" rfl rfl rfl

/-- C2: Restore undoes Init.  For an OPEN channel end `c`, after a successful
`ChanUpgradeInit`, `RestoreChannel` with sequence `seq` and error `err` returns no
error, the stored channel end is exactly `c`, and the stored upgrade error receipt
has sequence `seq` (and the message of `err`). -/
theorem restoreChannel_undoes_init (env : Env) (st : Store)
    (portID channelID : String) (chanCap : Nat) (proposedUpgradeChannel : Channel)
    (timeoutHeight : Height) (timeoutTimestamp : Nat) (c : Channel)
    (r : Nat × String) (seq : Nat) (err : Error)
    (hc : st.channelEnd = some c) (hopen : c.state = .OPEN)
    (h : (ChanUpgradeInit env st portID channelID chanCap proposedUpgradeChannel
      timeoutHeight timeoutTimestamp).1 = .ok r) :
    (RestoreChannel (ChanUpgradeInit env st portID channelID chanCap proposedUpgradeChannel
      timeoutHeight timeoutTimestamp).2 seq err).1 = .ok () ∧
    (RestoreChannel (ChanUpgradeInit env st portID channelID chanCap proposedUpgradeChannel
      timeoutHeight timeoutTimestamp).2 seq err).2.channelEnd = some c ∧
    (RestoreChannel (ChanUpgradeInit env st portID channelID chanCap proposedUpgradeChannel
      timeoutHeight timeoutTimestamp).2 seq err).2.upgradeErrorReceipt
        = some ⟨seq, err.message⟩ := by
  obtain ⟨channel, h1, _, _, h4⟩ := chanUpgradeInit_ok _ _ _ _ _ _ _ _ _ h
  rw [hc] at h1
  obtain rfl : c = channel := by simpa using h1
  rw [h4]
  cases c
  simp_all [RestoreChannel]

/-- Witness for C2: the run of `TestRestoreChannel`, "succeeds when restore channel is
set". -/
theorem restoreChannel_undoes_init_witness :
    (RestoreChannel (ChanUpgradeInit testEnv (openStore none) "mock" "channel-0" 1
      (channelUpgrade .INITUPGRADE) ⟨1, 110⟩ 0).2 1 .ErrInvalidChannel).1 = .ok () ∧
    (RestoreChannel (ChanUpgradeInit testEnv (openStore none) "mock" "channel-0" 1
      (channelUpgrade .INITUPGRADE) ⟨1, 110⟩ 0).2 1 .ErrInvalidChannel).2.channelEnd
        = some channelA ∧
    (RestoreChannel (ChanUpgradeInit testEnv (openStore none) "mock" "channel-0" 1
      (channelUpgrade .INITUPGRADE) ⟨1, 110⟩ 0).2 1 .ErrInvalidChannel).2.upgradeErrorReceipt
        = some ⟨1, Error.ErrInvalidChannel.message⟩ :=
  restoreChannel_undoes_init testEnv (openStore none) "mock" "channel-0" 1
    (channelUpgrade .INITUPGRADE) ⟨1, 110⟩ 0 channelA (1, "mock-version") 1 .ErrInvalidChannel
    rfl rfl rfl

/-- C3: `RestoreChannel` with no restore snapshot stored returns an error, never a
success, and leaves the stored channel end (as well as the upgrade sequence, the
upgrade proposal and the absent snapshot) unchanged. -/
theorem restoreChannel_without_snapshot_fails (st : Store) (seq : Nat) (err : Error)
    (h : st.upgradeRestore = none) :
    (∃ e, (RestoreChannel st seq err).1 = .error e) ∧
    (RestoreChannel st seq err).2.channelEnd = st.channelEnd ∧
    (RestoreChannel st seq err).2.upgradeSequence = st.upgradeSequence ∧
    (RestoreChannel st seq err).2.upgradeProposal = st.upgradeProposal ∧
    (RestoreChannel st seq err).2.upgradeRestore = none := by
  simp [RestoreChannel, h]

/-- Witness for C3: the run of `TestRestoreChannel`, "fails when no restore channel is
present": the channel end is still in INITUPGRADE with the proposed version. -/
theorem restoreChannel_without_snapshot_fails_witness :
    (∃ e, (RestoreChannel { initStore none with upgradeRestore := none } 1
      .ErrInvalidChannel).1 = .error e) ∧
    (RestoreChannel { initStore none with upgradeRestore := none } 1
      .ErrInvalidChannel).2.channelEnd = some (channelUpgrade .INITUPGRADE) ∧
    (RestoreChannel { initStore none with upgradeRestore := none } 1
      .ErrInvalidChannel).2.upgradeSequence = some 1 ∧
    (RestoreChannel { initStore none with upgradeRestore := none } 1
      .ErrInvalidChannel).2.upgradeProposal
        = some ⟨channelUpgrade .INITUPGRADE, ⟨1, 110⟩, 0⟩ ∧
    (RestoreChannel { initStore none with upgradeRestore := none } 1
      .ErrInvalidChannel).2.upgradeRestore = none :=
  restoreChannel_without_snapshot_fails { initStore none with upgradeRestore := none } 1
    .ErrInvalidChannel rfl

/-- A chain of rejections succeeds only past every rejection. -/
theorem ite_error_eq_ok {α : Type} (c : Prop) [Decidable c] (e : Error)
    (rest : Except Error α) (x : α) :
    (if c then Except.error e else rest) = Except.ok x ↔ ¬c ∧ rest = Except.ok x := by
  by_cases hc : c <;> simp [hc]


/-- Try validation only ever accepts the stored channel end; the pre-upgrade end is
the channel end itself when it is OPEN and the restore snapshot otherwise, in which
case an upgrade sequence is stored. -/
theorem upgradeTryChecks_ok (env : Env) (st : Store) (portID channelID : String)
    (chanCap : Nat) (counterpartyChannel : Channel) (counterpartyUpgradeSequence : Nat)
    (proposedUpgradeChannel : Channel) (timeoutHeight : Height) (timeoutTimestamp : Nat)
    (proofChannel proofUpgradeTimeout proofUpgradeSequence : List Nat) (proofHeight : Height)
    (channel previous : Channel)
    (h : upgradeTryChecks env st portID channelID chanCap counterpartyChannel
      counterpartyUpgradeSequence proposedUpgradeChannel timeoutHeight timeoutTimestamp
      proofChannel proofUpgradeTimeout proofUpgradeSequence proofHeight
        = .ok (channel, previous)) :
    st.channelEnd = some channel ∧
    (channel.state = .OPEN → previous = channel) ∧
    (channel.state ≠ .OPEN → st.upgradeRestore = some previous ∧
      ∃ s, st.upgradeSequence = some s) := by
  unfold upgradeTryChecks at h
  rw [ite_error_eq_ok] at h
  obtain ⟨-, h⟩ := h
  cases hc : st.channelEnd with
  | none => rw [hc] at h; contradiction
  | some c =>
    rw [hc] at h
    simp only [ite_error_eq_ok] at h
    obtain ⟨-, -, -, -, h⟩ := h
    cases hconn : checkConnection env proposedUpgradeChannel.connectionHops with
    | error e => rw [hconn] at h; contradiction
    | ok connectionEnd =>
      rw [hconn] at h
      simp only [ite_error_eq_ok] at h
      obtain ⟨-, -, -, -, -, h⟩ := h
      by_cases hopen : c.state = .OPEN
      · rw [if_pos hopen] at h
        simp only [Except.ok.injEq, Prod.mk.injEq] at h
        obtain ⟨rfl, rfl⟩ := h
        simp [hopen]
      · rw [if_neg hopen] at h
        cases hs : st.upgradeSequence with
        | none => rw [hs] at h; contradiction
        | some s =>
          rw [hs] at h
          simp only [ite_error_eq_ok] at h
          obtain ⟨-, h⟩ := h
          cases hr : st.upgradeRestore with
          | none => rw [hr] at h; contradiction
          | some restore =>
            rw [hr] at h
            simp only [Except.ok.injEq, Prod.mk.injEq] at h
            obtain ⟨rfl, rfl⟩ := h
            simp [hopen]

/-- An abort returns `err` or `ErrUpgradeAborted` and leaves the receipt stamped with
the current upgrade sequence and the message of `err`. -/
theorem abortUpgrade_spec {α : Type} (st : Store) (err : Error) :
    ((@abortUpgrade α st err).1 = .error err ∨
      (@abortUpgrade α st err).1 = .error .ErrUpgradeAborted) ∧
    (@abortUpgrade α st err).2.upgradeErrorReceipt = some ⟨st.currentSequence, err.message⟩ ∧
    (@abortUpgrade α st err).2.upgradeSequence = st.upgradeSequence := by
  unfold abortUpgrade Restore RestoreChannel
  cases h : st.upgradeRestore <;> simp [h]

/-- An abort on a sequence mismatch additionally increments the upgrade sequence. -/
theorem abortInvalidSequence_spec {α : Type} (st : Store) :
    ((@abortInvalidSequence α st).1 = .error .ErrInvalidUpgradeSequence ∨
      (@abortInvalidSequence α st).1 = .error .ErrUpgradeAborted) ∧
    (@abortInvalidSequence α st).2.upgradeErrorReceipt
      = some ⟨st.currentSequence, Error.ErrInvalidUpgradeSequence.message⟩ ∧
    (@abortInvalidSequence α st).2.upgradeSequence
      = some ((st.currentSequence + 1) % 2 ^ 64) := by
  obtain ⟨h1, h2, _⟩ := @abortUpgrade_spec α st .ErrInvalidUpgradeSequence
  unfold abortInvalidSequence
  exact ⟨h1, h2, rfl⟩

/-- C4: every successful `ChanUpgradeTry` returns an upgrade sequence equal to the
counterparty upgrade sequence passed in, together with the local pre-upgrade
version: the version of the channel end when it was OPEN (the local sequence then
was one behind the counterparty's), the version of the restore snapshot in the
crossing-hellos case where the local end has already run Init (the local sequence
then equals the counterparty's).  The returned sequence is the one stored.  "One
behind" is meant for 64-bit unsigned integers: the counterparty's sequence is the
local one plus one modulo `2 ^ 64`, hence the natural number plus one for every local
sequence below `2 ^ 64 - 1`. -/
theorem chanUpgradeTry_returns_counterparty_sequence (env : Env) (st : Store)
    (portID channelID : String) (chanCap : Nat) (counterpartyChannel : Channel)
    (counterpartyUpgradeSequence : Nat) (proposedUpgradeChannel : Channel)
    (timeoutHeight : Height) (timeoutTimestamp : Nat)
    (proofChannel proofUpgradeTimeout proofUpgradeSequence : List Nat) (proofHeight : Height)
    (upgradeSequence : Nat) (previousVersion : String)
    (h : (ChanUpgradeTry env st portID channelID chanCap counterpartyChannel
      counterpartyUpgradeSequence proposedUpgradeChannel timeoutHeight timeoutTimestamp
      proofChannel proofUpgradeTimeout proofUpgradeSequence proofHeight).1
        = .ok (upgradeSequence, previousVersion)) :
    upgradeSequence = counterpartyUpgradeSequence ∧
    (ChanUpgradeTry env st portID channelID chanCap counterpartyChannel
      counterpartyUpgradeSequence proposedUpgradeChannel timeoutHeight timeoutTimestamp
      proofChannel proofUpgradeTimeout proofUpgradeSequence proofHeight).2.upgradeSequence
        = some counterpartyUpgradeSequence ∧
    ∃ channel, st.channelEnd = some channel ∧
      (channel.state = .OPEN →
        previousVersion = channel.version ∧
        counterpartyUpgradeSequence = (st.currentSequence + 1) % 2 ^ 64 ∧
        (st.currentSequence < 2 ^ 64 - 1 →
          counterpartyUpgradeSequence = st.currentSequence + 1)) ∧
      (channel.state ≠ .OPEN →
        (∃ restore, st.upgradeRestore = some restore ∧ previousVersion = restore.version) ∧
        st.upgradeSequence = some counterpartyUpgradeSequence) := by
  unfold ChanUpgradeTry at h ⊢
  cases hchk : upgradeTryChecks env st portID channelID chanCap counterpartyChannel
      counterpartyUpgradeSequence proposedUpgradeChannel timeoutHeight timeoutTimestamp
      proofChannel proofUpgradeTimeout proofUpgradeSequence proofHeight with
  | error e => rw [hchk] at h; simp at h
  | ok p =>
    obtain ⟨channel, previous⟩ := p
    obtain ⟨h1, h2, h3⟩ := upgradeTryChecks_ok _ _ _ _ _ _ _ _ _ _ _ _ _ _ _ _ hchk
    rw [hchk] at h
    simp only at h ⊢
    by_cases hel : hasElapsed env timeoutHeight timeoutTimestamp = true
    · rw [if_pos hel] at h
      rcases (@abortUpgrade_spec (Nat × String) st .ErrUpgradeTimeout).1 with h' | h' <;>
        rw [h'] at h <;> simp at h
    · rw [if_neg hel] at h ⊢
      by_cases hseq : counterpartyUpgradeSequence ≠ expectedSequence st channel
      · rw [if_pos hseq] at h
        rcases (@abortInvalidSequence_spec (Nat × String) st).1 with h' | h' <;>
          rw [h'] at h <;> simp at h
      · rw [if_neg hseq] at h ⊢
        simp only [Except.ok.injEq, Prod.mk.injEq] at h
        obtain ⟨hs, hv⟩ := h
        have hseq' : counterpartyUpgradeSequence = expectedSequence st channel := by
          simpa using hseq
        refine ⟨hs.symm, rfl, channel, h1, ?_, ?_⟩
        · intro hopen
          rw [h2 hopen] at hv
          have hexp : counterpartyUpgradeSequence = (st.currentSequence + 1) % 2 ^ 64 := by
            simpa [expectedSequence, hopen] using hseq'
          refine ⟨hv.symm, hexp, ?_⟩
          intro hlt
          rw [hexp]
          exact Nat.mod_eq_of_lt (by omega)
        · intro hnopen
          obtain ⟨hr, s, hs'⟩ := h3 hnopen
          refine ⟨⟨previous, hr, hv.symm⟩, ?_⟩
          rw [hseq']
          simp [expectedSequence, hnopen, Store.currentSequence, hs']

/-- Witness for C4: crossing hellos with both ends at sequence 10 (`TestChanUpgradeTry`,
"crossing hellos: success with later upgrade sequence"). -/
theorem chanUpgradeTry_returns_counterparty_sequence_witness :
    10 = 10 ∧
    (ChanUpgradeTry testEnv (initStore (some 9)) "mock" "channel-0" 1
      (channelUpgrade .INITUPGRADE) 10 (channelUpgrade .TRYUPGRADE) ⟨1, 110⟩ 0
      [] [] [] ⟨1, 5⟩).2.upgradeSequence = some 10 ∧
    ∃ channel, (initStore (some 9)).channelEnd = some channel ∧
      (channel.state = .OPEN →
        "mock-version" = channel.version ∧
        10 = ((initStore (some 9)).currentSequence + 1) % 2 ^ 64 ∧
        ((initStore (some 9)).currentSequence < 2 ^ 64 - 1 →
          10 = (initStore (some 9)).currentSequence + 1)) ∧
      (channel.state ≠ .OPEN →
        (∃ restore, (initStore (some 9)).upgradeRestore = some restore ∧
          "mock-version" = restore.version) ∧
        (initStore (some 9)).upgradeSequence = some 10) :=
  chanUpgradeTry_returns_counterparty_sequence testEnv (initStore (some 9)) "mock"
    "channel-0" 1 (channelUpgrade .INITUPGRADE) 10 (channelUpgrade .TRYUPGRADE) ⟨1, 110⟩ 0
    [] [] [] ⟨1, 5⟩ 10 "mock-version" rfl

/-- The three successful runs of `TestChanUpgradeTry` besides the witness: a first
Try (sequence 1), a local sequence one behind the counterparty's (9 and 10), and
crossing hellos with both ends at 1. -/
theorem chanUpgradeTry_test_runs :
    (ChanUpgradeTry testEnv (openStore none) "mock" "channel-0" 1
      (channelUpgrade .INITUPGRADE) 1 (channelUpgrade .TRYUPGRADE) ⟨1, 110⟩ 0
      [] [] [] ⟨1, 5⟩).1 = .ok (1, "mock-version") ∧
    (ChanUpgradeTry testEnv (openStore (some 9)) "mock" "channel-0" 1
      (channelUpgrade .INITUPGRADE) 10 (channelUpgrade .TRYUPGRADE) ⟨1, 110⟩ 0
      [] [] [] ⟨1, 5⟩).1 = .ok (10, "mock-version") ∧
    (ChanUpgradeTry testEnv (initStore none) "mock" "channel-0" 1
      (channelUpgrade .INITUPGRADE) 1 (channelUpgrade .TRYUPGRADE) ⟨1, 110⟩ 0
      [] [] [] ⟨1, 5⟩).1 = .ok (1, "mock-version") :=
  ⟨rfl, rfl, rfl⟩

/-- The failing runs of `TestChanUpgradeTry` that must leave a receipt: a sequence
mismatch on an OPEN end, a sequence mismatch under crossing hellos (local 1,
counterparty 20), an elapsed timeout height and an elapsed timeout timestamp. -/
theorem chanUpgradeTry_failing_test_runs :
    (ChanUpgradeTry testEnv (openStore (some 10)) "mock" "channel-0" 1
      (channelUpgrade .INITUPGRADE) 1 (channelUpgrade .TRYUPGRADE) ⟨1, 110⟩ 0
      [] [] [] ⟨1, 5⟩) =
      (.error .ErrUpgradeAborted,
        ⟨some channelA, some 11, none, none, some ⟨10, "invalid upgrade sequence"⟩⟩) ∧
    (ChanUpgradeTry testEnv (initStore none) "mock" "channel-0" 1
      (channelUpgrade .INITUPGRADE) 20 (channelUpgrade .TRYUPGRADE) ⟨1, 110⟩ 0
      [] [] [] ⟨1, 5⟩) =
      (.error .ErrInvalidUpgradeSequence,
        ⟨some channelA, some 2, none, some channelA, some ⟨1, "invalid upgrade sequence"⟩⟩) ∧
    (ChanUpgradeTry testEnv (openStore none) "mock" "channel-0" 1
      (channelUpgrade .INITUPGRADE) 1 (channelUpgrade .TRYUPGRADE) ⟨1, 1⟩ 0
      [] [] [] ⟨1, 5⟩).2.upgradeErrorReceipt = some ⟨0, "upgrade timed-out"⟩ ∧
    (ChanUpgradeTry testEnv (openStore none) "mock" "channel-0" 1
      (channelUpgrade .INITUPGRADE) 1 (channelUpgrade .TRYUPGRADE) ZeroHeight 1000
      [] [] [] ⟨1, 5⟩).2.upgradeErrorReceipt = some ⟨0, "upgrade timed-out"⟩ :=
  ⟨rfl, rfl, rfl, rfl⟩

/-- Cancel validation only ever accepts the stored channel end, in state INITUPGRADE
or TRYUPGRADE, with a stored upgrade sequence not above the receipt's. -/
theorem upgradeCancelChecks_ok (env : Env) (st : Store) (portID channelID : String)
    (chanCap : Nat) (errorReceipt : ErrorReceipt) (proofErrorReceipt : List Nat)
    (proofHeight : Height) (channel : Channel)
    (h : upgradeCancelChecks env st portID channelID chanCap errorReceipt proofErrorReceipt
      proofHeight = .ok channel) :
    st.channelEnd = some channel ∧
    (channel.state = .INITUPGRADE ∨ channel.state = .TRYUPGRADE) ∧
    ∃ s, st.upgradeSequence = some s ∧ s ≤ errorReceipt.sequence := by
  unfold upgradeCancelChecks at h
  cases hc : st.channelEnd with
  | none => rw [hc] at h; contradiction
  | some c =>
    rw [hc] at h
    simp only [ite_error_eq_ok] at h
    obtain ⟨hstate, -, h⟩ := h
    cases hs : st.upgradeSequence with
    | none => rw [hs] at h; contradiction
    | some s =>
      rw [hs] at h
      simp only [ite_error_eq_ok] at h
      obtain ⟨hle, h⟩ := h
      cases hconn : checkConnection env c.connectionHops with
      | error e => rw [hconn] at h; contradiction
      | ok connectionEnd =>
        rw [hconn] at h
        simp only [ite_error_eq_ok] at h
        obtain ⟨-, h⟩ := h
        obtain rfl : c = channel := by simpa using h
        refine ⟨rfl, ?_, s, rfl, by omega⟩
        by_cases h1 : c.state = .INITUPGRADE
        · exact Or.inl h1
        · right
          by_contra h2
          exact hstate ⟨h1, h2⟩

/-- A successful Cancel passed validation, restored the snapshot and stored the
receipt's sequence plus one, modulo `2 ^ 64`. -/
theorem chanUpgradeCancel_ok (env : Env) (st : Store) (portID channelID : String)
    (chanCap : Nat) (errorReceipt : ErrorReceipt) (proofErrorReceipt : List Nat)
    (proofHeight : Height)
    (h : (ChanUpgradeCancel env st portID channelID chanCap errorReceipt proofErrorReceipt
      proofHeight).1 = .ok ()) :
    (∃ channel, upgradeCancelChecks env st portID channelID chanCap errorReceipt
      proofErrorReceipt proofHeight = .ok channel) ∧
    (ChanUpgradeCancel env st portID channelID chanCap errorReceipt proofErrorReceipt
      proofHeight).2.upgradeSequence = some ((errorReceipt.sequence + 1) % 2 ^ 64) := by
  unfold ChanUpgradeCancel at h ⊢
  cases hchk : upgradeCancelChecks env st portID channelID chanCap errorReceipt
      proofErrorReceipt proofHeight with
  | error e => rw [hchk] at h; simp at h
  | ok channel =>
    rw [hchk] at h
    simp only at h ⊢
    refine ⟨⟨channel, rfl⟩, ?_⟩
    unfold Restore RestoreChannel at h ⊢
    cases hr : st.upgradeRestore with
    | none => simp [hr] at h
    | some restore => simp [hr]

/-- C7: `ChanUpgradeCancel` succeeds only if the local channel state is INITUPGRADE
or TRYUPGRADE and the error receipt's sequence is greater than or equal to the local
upgrade sequence; a channel in any other state, or a local upgrade sequence larger
than the receipt's, makes it return an error. -/
theorem chanUpgradeCancel_succeeds_only_if (env : Env) (st : Store)
    (portID channelID : String) (chanCap : Nat) (errorReceipt : ErrorReceipt)
    (proofErrorReceipt : List Nat) (proofHeight : Height) :
    ((ChanUpgradeCancel env st portID channelID chanCap errorReceipt proofErrorReceipt
        proofHeight).1 = .ok () →
      ∃ channel s, st.channelEnd = some channel ∧
        (channel.state = .INITUPGRADE ∨ channel.state = .TRYUPGRADE) ∧
        st.upgradeSequence = some s ∧ s ≤ errorReceipt.sequence) ∧
    (∀ channel, st.channelEnd = some channel →
      channel.state ≠ .INITUPGRADE → channel.state ≠ .TRYUPGRADE →
      ∃ e, (ChanUpgradeCancel env st portID channelID chanCap errorReceipt proofErrorReceipt
        proofHeight).1 = .error e) ∧
    (∀ s, st.upgradeSequence = some s → errorReceipt.sequence < s →
      ∃ e, (ChanUpgradeCancel env st portID channelID chanCap errorReceipt proofErrorReceipt
        proofHeight).1 = .error e) := by
  have key : (ChanUpgradeCancel env st portID channelID chanCap errorReceipt
      proofErrorReceipt proofHeight).1 = .ok () →
      ∃ channel s, st.channelEnd = some channel ∧
        (channel.state = .INITUPGRADE ∨ channel.state = .TRYUPGRADE) ∧
        st.upgradeSequence = some s ∧ s ≤ errorReceipt.sequence := by
    intro h
    obtain ⟨⟨channel, hchk⟩, _⟩ := chanUpgradeCancel_ok _ _ _ _ _ _ _ _ h
    obtain ⟨h1, h2, s, hs, hle⟩ := upgradeCancelChecks_ok _ _ _ _ _ _ _ _ _ hchk
    exact ⟨channel, s, h1, h2, hs, hle⟩
  refine ⟨key, ?_, ?_⟩
  · intro channel hc h1 h2
    cases hres : (ChanUpgradeCancel env st portID channelID chanCap errorReceipt
        proofErrorReceipt proofHeight).1 with
    | error e => exact ⟨e, rfl⟩
    | ok u =>
      obtain ⟨c, s, hc', hst, _⟩ := key hres
      rw [hc] at hc'
      obtain rfl : channel = c := by simpa using hc'
      rcases hst with hst | hst
      · exact absurd hst h1
      · exact absurd hst h2
  · intro s hs hlt
    cases hres : (ChanUpgradeCancel env st portID channelID chanCap errorReceipt
        proofErrorReceipt proofHeight).1 with
    | error e => exact ⟨e, rfl⟩
    | ok u =>
      obtain ⟨c, s', _, _, hs', hle⟩ := key hres
      rw [hs] at hs'
      obtain rfl : s = s' := by simpa using hs'
      omega

/-- Witness for C7: the successful run of `TestChanUpgradeCancel` (local end in
INITUPGRADE at sequence 1, receipt 10), and the failing run "error receipt upgrade
sequence expired" (local sequence 100, receipt 10). -/
theorem chanUpgradeCancel_succeeds_only_if_witness :
    (∃ channel s, (initStore none).channelEnd = some channel ∧
      (channel.state = .INITUPGRADE ∨ channel.state = .TRYUPGRADE) ∧
      (initStore none).upgradeSequence = some s ∧ s ≤ 10) ∧
    ∃ e, (ChanUpgradeCancel testEnv (initStore (some 99)) "mock" "channel-0" 1
      ⟨10, "invalid upgrade sequence"⟩ [] ⟨1, 5⟩).1 = .error e :=
  ⟨(chanUpgradeCancel_succeeds_only_if testEnv (initStore none) "mock" "channel-0" 1
      ⟨10, "invalid upgrade sequence"⟩ [] ⟨1, 5⟩).1 rfl,
    (chanUpgradeCancel_succeeds_only_if testEnv (initStore (some 99)) "mock" "channel-0" 1
      ⟨10, "invalid upgrade sequence"⟩ [] ⟨1, 5⟩).2.2 100 rfl (by decide)⟩

/-- The hypothesis of the invariant evaluated: the run with the receipt of the largest
sequence has a wrapping increment, the run of the test has none, and an Init that is
rejected (wrong capability) at the largest sequence increments nothing. -/
theorem runNoWrap_values :
    runNoWrap (openStore (some 5)) wrapRun = false ∧
    runNoWrap (openStore none) (cancelRun ++ [initStep]) = true ∧
    runNoWrap (openStore (some maxSequence))
      [(testEnv, .init "mock" "channel-0" 2 (channelUpgrade .INITUPGRADE) ⟨1, 110⟩ 0)]
      = true :=
  ⟨rfl, rfl, rfl⟩

/-- The run of the witness: the sequence goes 0, 1, 11, 12 and the receipt written by
the Cancel has sequence 1. -/
theorem cancelRun_values :
    (run (openStore none) [initStep]).upgradeSequence = some 1 ∧
    (run (openStore none) cancelRun).upgradeSequence = some 11 ∧
    (run (openStore none) cancelRun).upgradeErrorReceipt = some ⟨1, "upgrade aborted"⟩ ∧
    (run (openStore none) cancelRun).channelEnd = some channelA ∧
    (run (openStore none) (cancelRun ++ [initStep])).upgradeSequence = some 12 :=
  ⟨rfl, rfl, rfl, rfl, rfl⟩

/-- Counterexample for C9: two calls that return an error and yet change persisted
state.  `RestoreChannel` without a restore snapshot (`TestRestoreChannel`, "fails
when no restore channel is present") fails and leaves its error receipt behind;
`ChanUpgradeTry` with a mismatching sequence under crossing hellos
(`TestChanUpgradeTry`, "crossing hellos: invalid upgrade sequence") fails having
restored the channel end, deleted the proposal, written a receipt and advanced the
sequence. -/
theorem rejection_not_atomic_counterexample :
    ((RestoreChannel { initStore none with upgradeRestore := none } 1 .ErrInvalidChannel).1
        = .error .ErrRestoreChannelNotFound ∧
      { initStore none with upgradeRestore := none }.upgradeErrorReceipt = none ∧
      (RestoreChannel { initStore none with upgradeRestore := none } 1
        .ErrInvalidChannel).2.upgradeErrorReceipt = some ⟨1, "invalid channel"⟩) ∧
    ((ChanUpgradeTry testEnv (initStore none) "mock" "channel-0" 1
        (channelUpgrade .INITUPGRADE) 20 (channelUpgrade .TRYUPGRADE) ⟨1, 110⟩ 0
        [] [] [] ⟨1, 5⟩).1 = .error .ErrInvalidUpgradeSequence ∧
      (ChanUpgradeTry testEnv (initStore none) "mock" "channel-0" 1
        (channelUpgrade .INITUPGRADE) 20 (channelUpgrade .TRYUPGRADE) ⟨1, 110⟩ 0
        [] [] [] ⟨1, 5⟩).2 ≠ initStore none) :=
  ⟨⟨rfl, rfl, rfl⟩, rfl, by decide⟩

/-- C9 (amended): atomicity of plain rejections.  A `ChanUpgradeInit` that returns an
error, a `ChanUpgradeTry` that returns an error other than
`ErrInvalidUpgradeSequence`, `ErrUpgradeTimeout` and `ErrUpgradeAborted`, and a
`ChanUpgradeCancel` that returns an error other than `ErrUpgradeAborted` leave all
persisted state of the channel identical to what it was before the call; a
`RestoreChannel` that returns an error leaves the channel end, the upgrade sequence,
the upgrade proposal and the restore snapshot identical and writes only the upgrade
error receipt. -/
theorem rejection_leaves_store_unchanged (env : Env) (st : Store)
    (portID channelID : String) (chanCap : Nat) (counterpartyChannel : Channel)
    (counterpartyUpgradeSequence : Nat) (proposedUpgradeChannel : Channel)
    (timeoutHeight : Height) (timeoutTimestamp : Nat)
    (proofChannel proofUpgradeTimeout proofUpgradeSequence : List Nat) (proofHeight : Height)
    (errorReceipt : ErrorReceipt) (proofErrorReceipt : List Nat)
    (seq : Nat) (err : Error) :
    (∀ e, (ChanUpgradeInit env st portID channelID chanCap proposedUpgradeChannel
        timeoutHeight timeoutTimestamp).1 = .error e →
      (ChanUpgradeInit env st portID channelID chanCap proposedUpgradeChannel
        timeoutHeight timeoutTimestamp).2 = st) ∧
    (∀ e, (ChanUpgradeTry env st portID channelID chanCap counterpartyChannel
        counterpartyUpgradeSequence proposedUpgradeChannel timeoutHeight timeoutTimestamp
        proofChannel proofUpgradeTimeout proofUpgradeSequence proofHeight).1 = .error e →
      e ≠ .ErrInvalidUpgradeSequence → e ≠ .ErrUpgradeTimeout → e ≠ .ErrUpgradeAborted →
      (ChanUpgradeTry env st portID channelID chanCap counterpartyChannel
        counterpartyUpgradeSequence proposedUpgradeChannel timeoutHeight timeoutTimestamp
        proofChannel proofUpgradeTimeout proofUpgradeSequence proofHeight).2 = st) ∧
    (∀ e, (ChanUpgradeCancel env st portID channelID chanCap errorReceipt proofErrorReceipt
        proofHeight).1 = .error e → e ≠ .ErrUpgradeAborted →
      (ChanUpgradeCancel env st portID channelID chanCap errorReceipt proofErrorReceipt
        proofHeight).2 = st) ∧
    (∀ e, (RestoreChannel st seq err).1 = .error e →
      (RestoreChannel st seq err).2 = { st with upgradeErrorReceipt := some ⟨seq, err.message⟩ })
    := by
  refine ⟨?_, ?_, ?_, ?_⟩
  · intro e h
    unfold ChanUpgradeInit at h ⊢
    cases hchk : upgradeInitChecks env st portID channelID chanCap proposedUpgradeChannel
        timeoutHeight timeoutTimestamp with
    | error e' => rfl
    | ok channel => rw [hchk] at h; simp at h
  · intro e h h1 h2 h3
    unfold ChanUpgradeTry at h ⊢
    cases hchk : upgradeTryChecks env st portID channelID chanCap counterpartyChannel
        counterpartyUpgradeSequence proposedUpgradeChannel timeoutHeight timeoutTimestamp
        proofChannel proofUpgradeTimeout proofUpgradeSequence proofHeight with
    | error e' => rfl
    | ok p =>
      exfalso
      obtain ⟨channel, previous⟩ := p
      rw [hchk] at h
      simp only at h
      by_cases hel : hasElapsed env timeoutHeight timeoutTimestamp = true
      · rw [if_pos hel] at h
        rcases (@abortUpgrade_spec (Nat × String) st .ErrUpgradeTimeout).1 with h' | h' <;>
          rw [h'] at h <;> simp at h
        · exact h2 h.symm
        · exact h3 h.symm
      · rw [if_neg hel] at h
        by_cases hseq : counterpartyUpgradeSequence ≠ expectedSequence st channel
        · rw [if_pos hseq] at h
          rcases (@abortInvalidSequence_spec (Nat × String) st).1 with h' | h' <;>
            rw [h'] at h <;> simp at h
          · exact h1 h.symm
          · exact h3 h.symm
        · rw [if_neg hseq] at h
          simp at h
  · intro e h h1
    unfold ChanUpgradeCancel at h ⊢
    cases hchk : upgradeCancelChecks env st portID channelID chanCap errorReceipt
        proofErrorReceipt proofHeight with
    | error e' => rfl
    | ok channel =>
      exfalso
      rw [hchk] at h
      simp only at h
      cases hres : Restore st .ErrUpgradeAborted with
      | mk res st1 =>
        rw [hres] at h
        cases res with
        | error e' =>
          simp only [Except.error.injEq] at h
          exact h1 h.symm
        | ok u => simp at h
  · intro e h
    unfold RestoreChannel at h ⊢
    cases hr : st.upgradeRestore with
    | none => simp
    | some restore => simp [hr] at h

/-- Witness for C9 (amended): plain rejections of the tests.  Init on a channel that
is not OPEN, Try with a capability that does not own the channel, and Cancel with a
local sequence (100) above the receipt's (10) return an error and leave the store as
it was; the failing `RestoreChannel` of `TestRestoreChannel` only writes the
receipt. -/
theorem rejection_leaves_store_unchanged_witness :
    (ChanUpgradeInit testEnv (initStore (some 99)) "mock" "channel-0" 1
      (channelUpgrade .INITUPGRADE) ⟨1, 110⟩ 0).2 = initStore (some 99) ∧
    (ChanUpgradeTry testEnv (initStore (some 99)) "mock" "channel-0" 42
      (channelUpgrade .INITUPGRADE) 100 (channelUpgrade .TRYUPGRADE) ⟨1, 110⟩ 0
      [] [] [] ⟨1, 5⟩).2 = initStore (some 99) ∧
    (ChanUpgradeCancel testEnv (initStore (some 99)) "mock" "channel-0" 1
      ⟨10, "invalid upgrade sequence"⟩ [] ⟨1, 5⟩).2 = initStore (some 99) ∧
    (RestoreChannel { initStore none with upgradeRestore := none } 1 .ErrInvalidChannel).2
      = { ({ initStore none with upgradeRestore := none } : Store) with
          upgradeErrorReceipt := some ⟨1, Error.ErrInvalidChannel.message⟩ } :=
  ⟨(rejection_leaves_store_unchanged testEnv (initStore (some 99)) "mock" "channel-0" 1
      (channelUpgrade .INITUPGRADE) 100 (channelUpgrade .INITUPGRADE) ⟨1, 110⟩ 0
      [] [] [] ⟨1, 5⟩ ⟨10, "invalid upgrade sequence"⟩ [] 1 .ErrInvalidChannel).1
      .ErrInvalidChannelState rfl,
    (rejection_leaves_store_unchanged testEnv (initStore (some 99)) "mock" "channel-0" 42
      (channelUpgrade .INITUPGRADE) 100 (channelUpgrade .TRYUPGRADE) ⟨1, 110⟩ 0
      [] [] [] ⟨1, 5⟩ ⟨10, "invalid upgrade sequence"⟩ [] 1 .ErrInvalidChannel).2.1
      .ErrChannelCapabilityNotFound rfl (by decide) (by decide) (by decide),
    (rejection_leaves_store_unchanged testEnv (initStore (some 99)) "mock" "channel-0" 1
      (channelUpgrade .INITUPGRADE) 100 (channelUpgrade .TRYUPGRADE) ⟨1, 110⟩ 0
      [] [] [] ⟨1, 5⟩ ⟨10, "invalid upgrade sequence"⟩ [] 1 .ErrInvalidChannel).2.2.1
      .ErrInvalidUpgradeSequence rfl (by decide),
    (rejection_leaves_store_unchanged testEnv { initStore none with upgradeRestore := none }
      "mock" "channel-0" 1
      (channelUpgrade .INITUPGRADE) 100 (channelUpgrade .TRYUPGRADE) ⟨1, 110⟩ 0
      [] [] [] ⟨1, 5⟩ ⟨10, "invalid upgrade sequence"⟩ [] 1 .ErrInvalidChannel).2.2.2
      .ErrRestoreChannelNotFound rfl⟩

/-- A failing connection check reports a missing or a non-OPEN connection. -/
theorem checkConnection_error (env : Env) (connectionHops : List String) (e : Error)
    (h : checkConnection env connectionHops = .error e) :
    e = .ErrConnectionNotFound ∨ e = .ErrInvalidConnectionState := by
  unfold checkConnection at h
  split at h
  · simp at h; exact Or.inl h.symm
  · split at h
    · simp at h; exact Or.inl h.symm
    · split at h
      · simp at h
      · simp at h; exact Or.inr h.symm

/-- The validation of Try never reports one of the three abort errors. -/
theorem upgradeTryChecks_error (env : Env) (st : Store) (portID channelID : String)
    (chanCap : Nat) (counterpartyChannel : Channel) (counterpartyUpgradeSequence : Nat)
    (proposedUpgradeChannel : Channel) (timeoutHeight : Height) (timeoutTimestamp : Nat)
    (proofChannel proofUpgradeTimeout proofUpgradeSequence : List Nat) (proofHeight : Height)
    (e : Error)
    (h : upgradeTryChecks env st portID channelID chanCap counterpartyChannel
      counterpartyUpgradeSequence proposedUpgradeChannel timeoutHeight timeoutTimestamp
      proofChannel proofUpgradeTimeout proofUpgradeSequence proofHeight = .error e) :
    e ≠ .ErrInvalidUpgradeSequence ∧ e ≠ .ErrUpgradeTimeout ∧ e ≠ .ErrUpgradeAborted := by
  unfold upgradeTryChecks at h
  by_cases h0 : env.Authenticate chanCap portID channelID = false
  · rw [if_pos h0] at h; cases h; decide
  rw [if_neg h0] at h
  cases hc : st.channelEnd with
  | none => rw [hc] at h; cases h; decide
  | some c =>
    rw [hc] at h
    simp only at h
    by_cases h1 : c.state ≠ .OPEN ∧ c.state ≠ .INITUPGRADE ∧ c.state ≠ .TRYUPGRADE
    · rw [if_pos h1] at h; cases h; decide
    rw [if_neg h1] at h
    by_cases h2 : proposedUpgradeChannel.counterparty ≠ c.counterparty
    · rw [if_pos h2] at h; cases h; decide
    rw [if_neg h2] at h
    by_cases h3 : proposedUpgradeChannel.ordering.SubsetOf c.ordering = false
    · rw [if_pos h3] at h; cases h; decide
    rw [if_neg h3] at h
    by_cases h4 : counterpartyChannel.ordering ≠ proposedUpgradeChannel.ordering
    · rw [if_pos h4] at h; cases h; decide
    rw [if_neg h4] at h
    cases hconn : checkConnection env proposedUpgradeChannel.connectionHops with
    | error e' =>
      rw [hconn] at h
      cases h
      rcases checkConnection_error _ _ _ hconn with rfl | rfl <;> decide
    | ok connectionEnd =>
      rw [hconn] at h
      simp only at h
      by_cases h5 : counterpartyChannel.connectionHops.head?
          ≠ some connectionEnd.counterpartyConnectionID
      · rw [if_pos h5] at h; cases h; decide
      rw [if_neg h5] at h
      by_cases h6 : counterpartyChannel.state ≠ .INITUPGRADE
      · rw [if_pos h6] at h; cases h; decide
      rw [if_neg h6] at h
      split at h
      · cases h; decide
      split at h
      · cases h; decide
      split at h
      · cases h; decide
      split at h
      · cases h
      cases hs : st.upgradeSequence with
      | none => rw [hs] at h; cases h; decide
      | some s =>
        rw [hs] at h
        simp only at h
        split at h
        · cases h; decide
        cases hr : st.upgradeRestore with
        | none => rw [hr] at h; cases h; decide
        | some restore => rw [hr] at h; cases h

/-- The check of `TestChanUpgradeTry` after a failing call: when the error is
`ErrInvalidUpgradeSequence`, `ErrUpgradeAborted` or `ErrUpgradeTimeout`, an upgrade
error receipt stamped with the local upgrade sequence is found. -/
theorem chanUpgradeTry_abort_error_has_receipt (env : Env) (st : Store)
    (portID channelID : String) (chanCap : Nat) (counterpartyChannel : Channel)
    (counterpartyUpgradeSequence : Nat) (proposedUpgradeChannel : Channel)
    (timeoutHeight : Height) (timeoutTimestamp : Nat)
    (proofChannel proofUpgradeTimeout proofUpgradeSequence : List Nat) (proofHeight : Height)
    (e : Error)
    (h : (ChanUpgradeTry env st portID channelID chanCap counterpartyChannel
      counterpartyUpgradeSequence proposedUpgradeChannel timeoutHeight timeoutTimestamp
      proofChannel proofUpgradeTimeout proofUpgradeSequence proofHeight).1 = .error e)
    (he : e = .ErrInvalidUpgradeSequence ∨ e = .ErrUpgradeTimeout ∨ e = .ErrUpgradeAborted) :
    ∃ r, (ChanUpgradeTry env st portID channelID chanCap counterpartyChannel
      counterpartyUpgradeSequence proposedUpgradeChannel timeoutHeight timeoutTimestamp
      proofChannel proofUpgradeTimeout proofUpgradeSequence proofHeight).2.upgradeErrorReceipt
        = some r ∧ r.sequence = st.currentSequence := by
  cases hchk : upgradeTryChecks env st portID channelID chanCap counterpartyChannel
      counterpartyUpgradeSequence proposedUpgradeChannel timeoutHeight timeoutTimestamp
      proofChannel proofUpgradeTimeout proofUpgradeSequence proofHeight with
  | error e' =>
    exfalso
    obtain ⟨n1, n2, n3⟩ := upgradeTryChecks_error _ _ _ _ _ _ _ _ _ _ _ _ _ _ _ hchk
    unfold ChanUpgradeTry at h
    rw [hchk] at h
    simp only [Except.error.injEq] at h
    subst h
    rcases he with he | he | he
    · exact n1 he
    · exact n2 he
    · exact n3 he
  | ok p =>
    obtain ⟨channel, previous⟩ := p
    unfold ChanUpgradeTry at h ⊢
    rw [hchk] at h ⊢
    simp only at h ⊢
    by_cases hel : hasElapsed env timeoutHeight timeoutTimestamp = true
    · rw [if_pos hel]
      exact ⟨_, (@abortUpgrade_spec (Nat × String) st .ErrUpgradeTimeout).2.1, rfl⟩
    · rw [if_neg hel] at h ⊢
      by_cases hseq : counterpartyUpgradeSequence ≠ expectedSequence st channel
      · rw [if_pos hseq]
        exact ⟨_, (@abortInvalidSequence_spec (Nat × String) st).2.1, rfl⟩
      · rw [if_neg hseq] at h
        simp at h

end Upgrade

namespace Transfer

/-- Splitting never yields an empty list of segments. -/
theorem splitChars_ne_nil (sep : Char) (l : List Char) : splitChars sep l ≠ [] := by
  induction l with
  | nil => simp [splitChars]
  | cons c cs ih =>
    unfold splitChars
    split
    · simp
    · split <;> simp

/-- A sequence without the separator is its own only segment. -/
theorem splitChars_of_not_mem (sep : Char) (l : List Char) (h : sep ∉ l) :
    splitChars sep l = [l] := by
  induction l with
  | nil => rfl
  | cons c cs ih =>
    have hc : c ≠ sep := fun e => h (by simp [e])
    have hcs : sep ∉ cs := fun e => h (by simp [e])
    unfold splitChars
    rw [if_neg hc, ih hcs]

/-- A separator-free run before a separator is the first segment. -/
theorem splitChars_append_sep (sep : Char) (a l : List Char) (h : sep ∉ a) :
    splitChars sep (a ++ sep :: l) = a :: splitChars sep l := by
  induction a with
  | nil => simp [splitChars]
  | cons c cs ih =>
    have hc : c ≠ sep := fun e => h (by simp [e])
    have hcs : sep ∉ cs := fun e => h (by simp [e])
    rw [List.cons_append, splitChars, if_neg hc, ih hcs]

/-- Splitting at "/" undoes joining '/'-free segments with "/". -/
theorem split_join (segs : List String) (hne : segs ≠ [])
    (h : ∀ s ∈ segs, '/' ∉ s.data) : Split (Join segs "/") '/' = segs := by
  induction segs with
  | nil => exact absurd rfl hne
  | cons a rest ih =>
    cases rest with
    | nil =>
      have ha : '/' ∉ a.data := h a (by simp)
      simp [Join, Split, splitChars_of_not_mem _ _ ha]
    | cons b rest =>
      have ha : '/' ∉ a.data := h a (by simp)
      have ih' := ih (by simp) (fun s hs => h s (by simp [hs]))
      unfold Split at ih' ⊢
      have hd : (Join (a :: b :: rest) "/").data = a.data ++ '/' :: (Join (b :: rest) "/").data := by
        simp [Join, String.data_append]
      rw [hd, splitChars_append_sep _ _ _ ha, List.map_cons, ih']


/-- A trace path of k hops has 2k items. -/
theorem traceSegments_length (cs : List String) :
    (traceSegments cs).length = 2 * cs.length := by
  induction cs with
  | nil => rfl
  | cons c cs ih => simp [traceSegments, ih]; omega

/-- The loop, entered at the start of the remaining trace items with enough fuel,
appends them to the path and stops at the base denom items. -/
theorem extractLoop_trace (cs rs : List String) (hne : rs ≠ [])
    (hbase : rs.length = 1 ∨ rs.head? ≠ some PortID) :
    ∀ (pre path : List String) (fuel : Nat), cs.length < fuel →
      extractLoop (pre ++ (traceSegments cs ++ rs)) fuel pre.length path
        = (path ++ traceSegments cs, rs) := by
  induction cs with
  | nil =>
    intro pre path fuel hfuel
    obtain ⟨f, rfl⟩ : ∃ f, fuel = f + 1 := ⟨fuel - 1, by omega⟩
    obtain ⟨r, rs', rfl⟩ : ∃ r rs', rs = r :: rs' := by
      cases rs with
      | nil => exact absurd rfl hne
      | cons r rs' => exact ⟨r, rs', rfl⟩
    simp only [traceSegments, List.nil_append, List.append_nil]
    rw [extractLoop]
    simp only [List.length_append, List.length_cons]
    rw [if_pos (by omega)]
    have hcond : ¬(pre.length < pre.length + (rs'.length + 1) - 1 ∧
        pre.length + (rs'.length + 1) > 2 ∧ (pre ++ r :: rs').getD pre.length "" = PortID) := by
      rintro ⟨h1, -, h3⟩
      rcases hbase with hb | hb
      · simp only [List.length_cons] at hb
        omega
      · apply hb
        rw [List.getD_append_right _ _ _ _ (le_refl _)] at h3
        simpa using h3
    rw [if_neg hcond, List.drop_left]
  | cons c cs ih =>
    intro pre path fuel hfuel
    obtain ⟨f, rfl⟩ : ∃ f, fuel = f + 1 := ⟨fuel - 1, by omega⟩
    have hlen := traceSegments_length cs
    have hrs : 0 < rs.length := List.length_pos.mpr hne
    rw [extractLoop]
    simp only [traceSegments, List.length_append, List.length_cons, List.cons_append]
    rw [if_pos (by omega)]
    have h0 : (pre ++ PortID :: c :: (traceSegments cs ++ rs)).getD pre.length "" = PortID := by
      rw [List.getD_append_right _ _ _ _ (le_refl _)]
      simp
    have h1 : (pre ++ PortID :: c :: (traceSegments cs ++ rs)).getD (pre.length + 1) "" = c := by
      rw [List.getD_append_right _ _ _ _ (by omega)]
      simp
    rw [if_pos ⟨by omega, by omega, h0⟩, h0, h1]
    have := ih (pre ++ [PortID, c]) (path ++ [PortID, c]) f (by simpa using hfuel)
    simp only [List.append_assoc, List.cons_append, List.nil_append, List.length_append,
      List.length_cons, List.length_nil] at this
    simpa using this

/-- Joining two or more items gives a string longer than the first item. -/
theorem data_length_join_cons (a b : String) (rest : List String) :
    a.data.length < (Join (a :: b :: rest) "/").data.length := by
  simp [Join, String.data_append]

/-- C10: `ParseDenomTrace` separates the trace prefix from the base denom.  For every
list of '/'-free channel segments `c_1..c_k` (k ≥ 0) and every non-empty list of
'/'-free segments `r_1..r_m` with `m = 1` or `r_1 ≠ "transfer"`,
`ParseDenomTrace("transfer/c_1/.../transfer/c_k/r_1/.../r_m")` has
`Path = "transfer/c_1/.../transfer/c_k"` (the empty string when `k = 0`) and
`BaseDenom = "r_1/.../r_m"`. -/
theorem parseDenomTrace_separates (cs rs : List String)
    (hcs : ∀ c ∈ cs, '/' ∉ c.data) (hrs : ∀ r ∈ rs, '/' ∉ r.data) (hne : rs ≠ [])
    (hbase : rs.length = 1 ∨ rs.head? ≠ some "transfer") :
    ParseDenomTrace (Join (traceSegments cs ++ rs) "/")
      = { Path := Join (traceSegments cs) "/", BaseDenom := Join rs "/" } := by
  have hport : '/' ∉ PortID.data := by decide
  have hseg : ∀ s ∈ traceSegments cs ++ rs, '/' ∉ s.data := by
    intro s hs
    rcases List.mem_append.mp hs with h | h
    · clear hs
      induction cs with
      | nil => simp [traceSegments] at h
      | cons c cs ih =>
        simp only [traceSegments, List.mem_cons] at h
        rcases h with rfl | rfl | h
        · exact hport
        · exact hcs _ (by simp)
        · exact ih (fun c hc => hcs c (by simp [hc])) h
    · exact hrs s h
  have hne' : traceSegments cs ++ rs ≠ [] := by simp [hne]
  unfold ParseDenomTrace
  simp only
  rw [split_join _ hne' hseg]
  by_cases hsingle : cs = [] ∧ rs.length = 1
  · obtain ⟨rfl, hlen⟩ := hsingle
    obtain ⟨r, rfl⟩ : ∃ r, rs = [r] := List.length_eq_one.mp hlen
    simp [traceSegments, Join]
  · have hfirst : (traceSegments cs ++ rs).getD 0 "" ≠ Join (traceSegments cs ++ rs) "/" := by
      intro heq
      have hlt : ((traceSegments cs ++ rs).getD 0 "").data.length
          < (Join (traceSegments cs ++ rs) "/").data.length := by
        cases cs with
        | nil =>
          cases rs with
          | nil => exact absurd rfl hne
          | cons r rs' =>
            cases rs' with
            | nil => exact absurd ⟨rfl, rfl⟩ hsingle
            | cons r' rs'' => exact data_length_join_cons r r' rs''
        | cons c cs' => exact data_length_join_cons PortID c (traceSegments cs' ++ rs)
      rw [heq] at hlt
      exact lt_irrefl _ hlt
    rw [if_neg hfirst]
    unfold extractPathAndBaseFromFullDenom
    have hloop := extractLoop_trace cs rs hne hbase [] []
      ((traceSegments cs ++ rs).length + 1)
      (by rw [List.length_append, traceSegments_length]; omega)
    simp only [List.nil_append, List.length_nil] at hloop
    rw [hloop]

/-- Witness for C10: `"transfer/channelidone/gamm/pool/1"` gives Path
`"transfer/channelidone"` and BaseDenom `"gamm/pool/1"`. -/
theorem parseDenomTrace_separates_witness :
    ParseDenomTrace (Join (traceSegments ["channelidone"] ++ ["gamm", "pool", "1"]) "/")
      = { Path := Join (traceSegments ["channelidone"]) "/",
          BaseDenom := Join ["gamm", "pool", "1"] "/" } :=
  parseDenomTrace_separates ["channelidone"] ["gamm", "pool", "1"]
    (by decide) (by decide) (by decide) (Or.inr (by decide))

/-- The examples of the doc comment of `ParseDenomTrace`, evaluated. -/
theorem parseDenomTrace_examples :
    ParseDenomTrace "transfer/channelidone/uatom"
      = { Path := "transfer/channelidone", BaseDenom := "uatom" } ∧
    ParseDenomTrace "transfer/channelidone/transfer/channelidtwo/uatom"
      = { Path := "transfer/channelidone/transfer/channelidtwo", BaseDenom := "uatom" } ∧
    ParseDenomTrace "transfer/channelidone/gamm/pool/1"
      = { Path := "transfer/channelidone", BaseDenom := "gamm/pool/1" } ∧
    ParseDenomTrace "gamm/pool/1" = { Path := "", BaseDenom := "gamm/pool/1" } ∧
    ParseDenomTrace "uatom" = { Path := "", BaseDenom := "uatom" } ∧
    Join (traceSegments ["channelidone"] ++ ["gamm", "pool", "1"]) "/"
      = "transfer/channelidone/gamm/pool/1" := by
  decide

end Transfer

namespace Transfer

/-- The identifier loop accepts the items of a trace path whose port identifier and
channel identifiers are valid. -/
theorem validateTraceLoop_trace (host : Host) (cs : List String)
    (hport : host.PortIdentifierValidator PortID = none)
    (hcs : ∀ c ∈ cs, host.ChannelIdentifierValidator c = none) :
    ∀ (pre : List String) (fuel : Nat),
      validateTraceLoop host (pre ++ traceSegments cs) fuel pre.length = none := by
  induction cs with
  | nil =>
    intro pre fuel
    cases fuel with
    | zero => rfl
    | succ f => simp [validateTraceLoop, traceSegments]
  | cons c cs ih =>
    intro pre fuel
    cases fuel with
    | zero => rfl
    | succ f =>
      have h0 : (pre ++ traceSegments (c :: cs)).getD pre.length "" = PortID := by
        rw [List.getD_append_right _ _ _ _ (le_refl _)]
        simp [traceSegments]
      have h1 : (pre ++ traceSegments (c :: cs)).getD (pre.length + 1) "" = c := by
        rw [List.getD_append_right _ _ _ _ (by omega)]
        simp [traceSegments]
      rw [validateTraceLoop, if_pos (by simp [traceSegments]), h0, hport]
      simp only
      rw [h1, hcs c (by simp)]
      simp only
      have := ih (fun c' hc' => hcs c' (by simp [hc'])) (pre ++ [PortID, c]) f
      simpa [traceSegments] using this

/-- `ValidatePrefixedDenom` returns no error for a denom in either documented format
whose base denom ends in a non-blank segment and does not begin with `transfer`
followed by further segments. -/
theorem validatePrefixedDenom_accepts_unambiguous (host : Host) (cs rs : List String)
    (hport : host.PortIdentifierValidator PortID = none)
    (hcs : ∀ c ∈ cs, host.ChannelIdentifierValidator c = none ∧ '/' ∉ c.data)
    (hrs : ∀ r ∈ rs, '/' ∉ r.data) (hne : rs ≠ [])
    (hlast : TrimSpace (rs.getLast hne) ≠ "")
    (hbase : rs.length = 1 ∨ rs.head? ≠ some "transfer") :
    ValidatePrefixedDenom host (Join (traceSegments cs ++ rs) "/") = none := by
  have hport' : '/' ∉ PortID.data := by decide
  have htrace : ∀ s ∈ traceSegments cs, '/' ∉ s.data := by
    intro s h
    induction cs with
    | nil => simp [traceSegments] at h
    | cons c cs ih =>
      simp only [traceSegments, List.mem_cons] at h
      rcases h with rfl | rfl | h
      · exact hport'
      · exact (hcs _ (by simp)).2
      · exact ih (fun c hc => hcs c (by simp [hc])) h
  have hseg : ∀ s ∈ traceSegments cs ++ rs, '/' ∉ s.data := by
    intro s hs
    rcases List.mem_append.mp hs with h | h
    · exact htrace s h
    · exact hrs s h
  have hne' : traceSegments cs ++ rs ≠ [] := by simp [hne]
  unfold ValidatePrefixedDenom
  simp only
  rw [split_join _ hne' hseg]
  split
  · rfl
  · have hl : (traceSegments cs ++ rs).getD ((traceSegments cs ++ rs).length - 1) ""
        = rs.getLast hne := by
      have hpos : 0 < rs.length := List.length_pos.mpr hne
      rw [List.getD_append_right _ _ _ _ (by rw [List.length_append]; omega)]
      rw [List.getLast_eq_getElem, List.getD_eq_getElem?_getD]
      have : (traceSegments cs ++ rs).length - 1 - (traceSegments cs).length
          = rs.length - 1 := by
        rw [List.length_append]; omega
      rw [this, List.getElem?_eq_getElem (by omega)]
      rfl
    rw [hl, if_neg hlast]
    unfold extractPathAndBaseFromFullDenom
    have hloop := extractLoop_trace cs rs hne hbase [] []
      ((traceSegments cs ++ rs).length + 1)
      (by rw [List.length_append, traceSegments_length]; omega)
    simp only [List.nil_append, List.length_nil] at hloop
    rw [hloop]
    simp only
    split
    · rfl
    · rename_i hpath
      have hcs' : traceSegments cs ≠ [] := by
        intro h
        apply hpath
        rw [h]
        rfl
      rw [split_join _ hcs' htrace]
      unfold validateTraceIdentifiers
      have hlen := traceSegments_length cs
      have hpos : 0 < (traceSegments cs).length := List.length_pos.mpr hcs'
      rw [if_neg (by omega)]
      have := validateTraceLoop_trace host cs hport (fun c hc => (hcs c hc).1) []
        (traceSegments cs).length
      simpa using this

/-- Where the code follows its doc comment: `ValidatePrefixedDenom` returns no error
for a denom in either documented format whose base denom ends in a non-blank segment
and is not itself read as a further hop.  For every k ≥ 0, every list of valid (hence
'/'-free) channel identifiers `c_1..c_k`, and every base denom `b = r_1/.../r_m` made
of '/'-free segments with `r_m` non-blank and `m = 1`, or `r_1 ≠ "transfer"`, or
`k = 0` and `m = 2`, `ValidatePrefixedDenom("transfer/c_1/.../transfer/c_k/b") = nil`,
and `ValidatePrefixedDenom(b) = nil` when `k = 0`; `transfer` is assumed to be a valid
port identifier. -/
theorem validatePrefixedDenom_accepts (host : Host) (cs rs : List String)
    (hport : host.PortIdentifierValidator PortID = none)
    (hcs : ∀ c ∈ cs, host.ChannelIdentifierValidator c = none ∧ '/' ∉ c.data)
    (hrs : ∀ r ∈ rs, '/' ∉ r.data) (hne : rs ≠ [])
    (hlast : TrimSpace (rs.getLast hne) ≠ "")
    (hbase : rs.length = 1 ∨ rs.head? ≠ some "transfer" ∨ (cs = [] ∧ rs.length = 2)) :
    ValidatePrefixedDenom host (Join (traceSegments cs ++ rs) "/") = none := by
  rcases hbase with h | h | ⟨rfl, h⟩
  · exact validatePrefixedDenom_accepts_unambiguous host cs rs hport hcs hrs hne hlast
      (Or.inl h)
  · exact validatePrefixedDenom_accepts_unambiguous host cs rs hport hcs hrs hne hlast
      (Or.inr h)
  · match rs, h with
    | [a, b], _ =>
      have hseg : ∀ s ∈ [a, b], '/' ∉ s.data := hrs
      have hb : TrimSpace b ≠ "" := by simpa using hlast
      unfold ValidatePrefixedDenom
      simp only [traceSegments, List.nil_append]
      rw [split_join _ (by simp) hseg]
      split
      · rfl
      · have hl : [a, b].getD ([a, b].length - 1) "" = b := rfl
        rw [hl, if_neg hb]
        rfl

/-- The accepted cases evaluated: `"transfer/channel-0/gamm/pool/1"`, and
`"transfer/x"`, which is too short to hold a hop and is a base denom. -/
theorem validatePrefixedDenom_accepts_witness :
    ValidatePrefixedDenom lengthHost
      (Join (traceSegments ["channel-0"] ++ ["gamm", "pool", "1"]) "/") = none ∧
    ValidatePrefixedDenom lengthHost (Join (traceSegments [] ++ ["transfer", "x"]) "/")
      = none :=
  ⟨validatePrefixedDenom_accepts lengthHost ["channel-0"] ["gamm", "pool", "1"]
      (by decide) (by decide) (by decide) (by decide) (by decide)
      (Or.inr (Or.inl (by decide))),
    validatePrefixedDenom_accepts lengthHost [] ["transfer", "x"]
      (by decide) (by decide) (by decide) (by decide) (by decide)
      (Or.inr (Or.inr ⟨rfl, rfl⟩))⟩

/-- C11: the code at the failing input.  The base denom `"uatom/"` is not blank, so
that by the claim, and by the doc comment of `ValidatePrefixedDenom` (a base denom
"may or may not contain '/'s"), `"uatom/"` (k = 0) and `"transfer/channel-0/uatom/"`
(k = 1) are to be accepted.  `ValidatePrefixedDenom` returns the error "base
denomination cannot be blank" for both: its guard trims the last '/'-separated item,
which is empty, instead of the base denom.  The sibling path accepts both:
`ParseDenomTrace` reads the base denom `"uatom/"` and `DenomTrace.Validate` returns
no error for the parsed trace. -/
theorem validatePrefixedDenom_rejects_trailing_slash :
    TrimSpace "uatom/" ≠ "" ∧
    ValidatePrefixedDenom lengthHost "uatom/"
      = some (.wrap .ErrInvalidDenomForTransfer "base denomination cannot be blank") ∧
    ParseDenomTrace "uatom/" = ⟨"", "uatom/"⟩ ∧
    DenomTrace.Validate lengthHost (ParseDenomTrace "uatom/") = none ∧
    ValidatePrefixedDenom lengthHost "transfer/channel-0/uatom/"
      = some (.wrap .ErrInvalidDenomForTransfer "base denomination cannot be blank") ∧
    ParseDenomTrace "transfer/channel-0/uatom/" = ⟨"transfer/channel-0", "uatom/"⟩ ∧
    DenomTrace.Validate lengthHost (ParseDenomTrace "transfer/channel-0/uatom/") = none := by
  decide

/-- The rejection of a base denom with a blank last segment does not depend on the
validators: they are not consulted. -/
theorem validatePrefixedDenom_trailing_slash_any_host (host : Host) :
    ValidatePrefixedDenom host "uatom/"
      = some (.wrap .ErrInvalidDenomForTransfer "base denomination cannot be blank") := by
  rfl

/-- A base denom that starts with a `transfer` segment is read as a further hop: with
a host that rejects the channel identifier `x` (here for its length),
`"transfer/x/y"` is rejected although it is a non-blank base denom of the
unprefixed format, while `"gamm/pool/1"` is accepted. -/
theorem validatePrefixedDenom_base_read_as_hop :
    ValidatePrefixedDenom lengthHost "transfer/x/y"
      = some (.wrap (.external "invalid identifier") "invalid channel ID at position 0") ∧
    ValidatePrefixedDenom lengthHost "gamm/pool/1" = none := by
  decide

end Transfer

namespace Transfer

/-- Cutting at the first separator: the part before has no separator. -/
theorem cutChars_eq_some (sep : Char) (l a b : List Char) :
    cutChars sep l = some (a, b) ↔ l = a ++ sep :: b ∧ sep ∉ a := by
  induction l generalizing a with
  | nil => simp [cutChars]
  | cons c cs ih =>
    unfold cutChars
    by_cases hc : c = sep
    · subst hc
      rw [if_pos rfl]
      constructor
      · intro h
        simp only [Option.some.injEq, Prod.mk.injEq] at h
        obtain ⟨rfl, rfl⟩ := h
        simp
      · rintro ⟨h1, h2⟩
        cases a with
        | nil => simp at h1; simp [h1]
        | cons x xs =>
          exfalso
          simp only [List.cons_append, List.cons.injEq] at h1
          exact h2 (by simp [h1.1])
    · rw [if_neg hc]
      constructor
      · intro h
        simp only [Option.map_eq_some', Prod.mk.injEq] at h
        obtain ⟨⟨a', b'⟩, hcut, rfl, rfl⟩ := h
        obtain ⟨h1, h2⟩ := (ih a').mp hcut
        refine ⟨by simp [h1], ?_⟩
        simp only [List.mem_cons, not_or]
        exact ⟨fun e => hc e.symm, h2⟩
      · rintro ⟨h1, h2⟩
        cases a with
        | nil =>
          exfalso
          simp only [List.nil_append, List.cons.injEq] at h1
          exact hc h1.1
        | cons x xs =>
          simp only [List.cons_append, List.cons.injEq] at h1
          obtain ⟨rfl, h1⟩ := h1
          have h2' : sep ∉ xs := fun e => h2 (by simp [e])
          rw [(ih xs).mpr ⟨h1, h2'⟩]
          rfl

/-- `SplitN(denom, "/", 2)` has two items of which the first is `ibc` exactly when the
denom begins with `ibc/`; the second item then is what follows. -/
theorem splitN2_ibc (denom : String) :
    ((SplitN2 denom '/').length = 2 ∧ (SplitN2 denom '/').getD 0 "" = DenomPrefix) ↔
      ∃ h, denom = "ibc/" ++ h ∧ (SplitN2 denom '/').getD 1 "" = h := by
  constructor
  · rintro ⟨hlen, h0⟩
    unfold SplitN2 at hlen h0 ⊢
    cases hcut : cutChars '/' denom.data with
    | none => rw [hcut] at hlen; simp at hlen
    | some p =>
      obtain ⟨a, b⟩ := p
      rw [hcut] at h0
      simp only [List.getD_cons_zero] at h0
      obtain ⟨h1, -⟩ := (cutChars_eq_some _ _ _ _).mp hcut
      have ha : a = DenomPrefix.data := by rw [← h0]
      refine ⟨String.mk b, ?_, by simp⟩
      apply String.ext
      rw [h1, ha]
      rfl
  · rintro ⟨h, rfl, -⟩
    have hcut : cutChars '/' ("ibc/" ++ h).data = some ("ibc".data, h.data) := by
      apply (cutChars_eq_some _ _ _ _).mpr
      refine ⟨?_, by decide⟩
      rw [String.data_append]
      rfl
    unfold SplitN2
    rw [hcut]
    exact ⟨rfl, rfl⟩

/-- A string trims to the empty string exactly when all its characters are white
space. -/
theorem trimSpace_eq_empty (s : String) :
    TrimSpace s = "" ↔ ∀ c ∈ s.data, isSpace c = true := by
  unfold TrimSpace
  have hmk : ∀ l : List Char, String.mk l = "" ↔ l = [] := by
    intro l
    constructor
    · intro h
      have := congrArg String.data h
      simpa using this
    · rintro rfl
      rfl
  rw [hmk, List.reverse_eq_nil_iff, List.dropWhile_eq_nil_iff]
  constructor
  · intro h
    have hnil : s.data.dropWhile isSpace = [] := by
      cases hd : s.data.dropWhile isSpace with
      | nil => rfl
      | cons x xs =>
        exfalso
        have hx : isSpace x = true := h x (by rw [hd]; simp)
        have := List.head_dropWhile_not isSpace s.data (by rw [hd]; simp)
        simp only [hd, List.head_cons] at this
        rw [hx] at this
        exact absurd this (by decide)
    exact List.dropWhile_eq_nil_iff.mp hnil
  · intro h x hx
    have hnil : s.data.dropWhile isSpace = [] := List.dropWhile_eq_nil_iff.mpr h
    rw [hnil] at hx
    simp at hx

/-- A hexadecimal digit is not white space. -/
theorem isSpace_of_hexValue (c : Char) (v : Nat) (h : hexValue c = some v) :
    isSpace c = false := by
  unfold hexValue at h
  have h0 : '0'.toNat = 48 := rfl
  have h9 : '9'.toNat = 57 := rfl
  have ha : 'a'.toNat = 97 := rfl
  have hf : 'f'.toNat = 102 := rfl
  have hA : 'A'.toNat = 65 := rfl
  have hF : 'F'.toNat = 70 := rfl
  rw [h0, h9, ha, hf, hA, hF] at h
  unfold isSpace
  split_ifs at h with h1 h2 h3
  all_goals
    simp only [Bool.or_eq_false_iff, Bool.and_eq_false_iff, decide_eq_false_iff_not,
      beq_eq_false_iff_ne, ne_eq, not_le]
    first | done | omega

/-- Decoding a non-empty string of hexadecimal digits gives at least one byte, and the
string does not trim to the empty string. -/
theorem decodeHexChars_nonempty (l : List Char) (bz : List Nat) (hl : l ≠ [])
    (h : decodeHexChars l = some bz) :
    bz ≠ [] ∧ ∃ c ∈ l, isSpace c = false := by
  match l, hl with
  | [_], _ => simp [decodeHexChars] at h
  | p :: q :: rest, _ =>
    unfold decodeHexChars at h
    cases hp : hexValue p with
    | none => simp [hp] at h
    | some a =>
      cases hq : hexValue q with
      | none => simp [hp, hq] at h
      | some b =>
        simp only [hp, hq, Option.map_eq_some'] at h
        obtain ⟨t, -, rfl⟩ := h
        exact ⟨by simp, p, by simp, isSpace_of_hexValue p a hp⟩

/-- `hex.DecodeString` succeeds exactly when the characters decode. -/
theorem hexDecodeString_ok (s : String) (bz : List Nat) :
    hexDecodeString s = .ok bz ↔ decodeHexChars s.data = some bz := by
  unfold hexDecodeString
  cases decodeHexChars s.data <;> simp

/-- A non-blank string that `hex.DecodeString` accepts decodes to at least one
byte. -/
theorem hexDecodeString_nonempty (s : String) (bz : List Nat) (hs : s.data ≠ [])
    (h : hexDecodeString s = .ok bz) : 0 < bz.length ∧ TrimSpace s ≠ "" := by
  obtain ⟨hbz, c, hc, hsp⟩ :=
    decodeHexChars_nonempty _ _ hs ((hexDecodeString_ok s bz).mp h)
  refine ⟨List.length_pos.mpr hbz, ?_⟩
  intro hblank
  have := (trimSpace_eq_empty s).mp hblank c hc
  rw [hsp] at this
  exact absurd this (by decide)

/-- `ValidateIBCDenom` in terms of `hex.DecodeString`: no error exactly when the denom
passes `sdk.ValidateDenom` and either is not `"ibc"` and does not begin with `"ibc/"`,
or is `"ibc/"` followed by a string that `hex.DecodeString` decodes to 32 bytes. -/
theorem validateIBCDenom_nil_iff_decodes (ValidateDenom : String → Option Error)
    (denom : String) :
    ValidateIBCDenom ValidateDenom denom = none ↔
      ValidateDenom denom = none ∧
      ((denom ≠ "ibc" ∧ ¬ ∃ h, denom = "ibc/" ++ h) ∨
        ∃ h bz, denom = "ibc/" ++ h ∧ hexDecodeString h = .ok bz ∧ bz.length = 32) := by
  unfold ValidateIBCDenom
  cases hv : ValidateDenom denom with
  | some err => simp
  | none =>
    simp only [true_and]
    by_cases hibc : denom = DenomPrefix
    · rw [if_pos hibc]
      simp only [reduceCtorEq, false_iff, not_or, not_and, not_not]
      refine ⟨fun hne => absurd hibc hne, ?_⟩
      rintro ⟨h, bz, hd, -, -⟩
      rw [hibc] at hd
      have := congrArg (fun s => s.data.length) hd
      simp [DenomPrefix, String.data_append] at this
    · rw [if_neg hibc]
      by_cases hsplit : (SplitN2 denom '/').length = 2 ∧
          (SplitN2 denom '/').getD 0 "" = DenomPrefix
      · rw [if_pos hsplit]
        obtain ⟨h, hd, h1⟩ := (splitN2_ibc denom).mp hsplit
        rw [h1]
        have hinj : ∀ h', denom = "ibc/" ++ h' → h' = h := by
          intro h' hd'
          rw [hd] at hd'
          have := congrArg String.data hd'
          simp only [String.data_append, List.append_cancel_left_eq] at this
          exact String.ext this.symm
        -- the right-hand side says that `h` decodes to 32 bytes
        have hrhs : ((denom ≠ "ibc" ∧ ¬ ∃ h, denom = "ibc/" ++ h) ∨
            ∃ h bz, denom = "ibc/" ++ h ∧ hexDecodeString h = .ok bz ∧ bz.length = 32) ↔
            ∃ bz, hexDecodeString h = .ok bz ∧ bz.length = 32 := by
          constructor
          · rintro (⟨-, hno⟩ | ⟨h', bz, hd', hdec, hlen⟩)
            · exact absurd ⟨h, hd⟩ hno
            · obtain rfl := hinj h' hd'
              exact ⟨bz, hdec, hlen⟩
          · rintro ⟨bz, hdec, hlen⟩
            exact Or.inr ⟨h, bz, hd, hdec, hlen⟩
        rw [hrhs]
        by_cases hblank : TrimSpace h = ""
        · rw [if_pos hblank]
          simp only [reduceCtorEq, false_iff, not_exists, not_and]
          intro bz hdec hlen
          have hne : h.data ≠ [] := by
            intro he
            have h0 := (hexDecodeString_ok h bz).mp hdec
            rw [he] at h0
            simp only [decodeHexChars, Option.some.injEq] at h0
            rw [← h0] at hlen
            simp at hlen
          exact (hexDecodeString_nonempty h bz hne hdec).2 hblank
        · rw [if_neg hblank]
          have hne : h.data ≠ [] := by
            intro he
            apply hblank
            rw [trimSpace_eq_empty]
            intro c hc
            rw [he] at hc
            simp at hc
          unfold ParseHexHash
          cases hdec : hexDecodeString h with
          | error e => simp
          | ok bz =>
            have hpos := (hexDecodeString_nonempty h bz hne hdec).1
            simp only
            unfold ValidateHash
            by_cases hlen : bz.length = tmhashSize
            · rw [if_neg (by omega)]
              simp only [true_iff]
              exact ⟨bz, rfl, hlen⟩
            · rw [if_pos ⟨hpos, hlen⟩]
              simp only [reduceCtorEq, false_iff, not_exists, not_and, Except.ok.injEq]
              rintro bz' rfl
              exact hlen
      · rw [if_neg hsplit]
        simp only [true_iff]
        left
        refine ⟨hibc, ?_⟩
        rintro ⟨h, hd⟩
        apply hsplit
        apply (splitN2_ibc denom).mpr
        have hcut : cutChars '/' denom.data = some ("ibc".data, h.data) := by
          apply (cutChars_eq_some _ _ _ _).mpr
          refine ⟨?_, by decide⟩
          rw [hd, String.data_append]
          rfl
        refine ⟨h, hd, ?_⟩
        unfold SplitN2
        rw [hcut]
        rfl

/-- A character is determined by its code point. -/
theorem char_eq_of_toNat (c : Char) (n : Nat) (h : c.toNat = n) : c = Char.ofNat n := by
  rw [← h]
  exact (Char.ofNat_toNat c).symm

/-- The characters with a hexadecimal value are the digits and the letters `a` to `f`
in either case. -/
theorem hexValue_eq_some (c : Char) :
    (∃ v, hexValue c = some v) ↔ c ∈ "0123456789abcdefABCDEF".data := by
  constructor
  · rintro ⟨v, h⟩
    unfold hexValue at h
    have h0 : '0'.toNat = 48 := rfl
    have h9 : '9'.toNat = 57 := rfl
    have ha : 'a'.toNat = 97 := rfl
    have hf : 'f'.toNat = 102 := rfl
    have hA : 'A'.toNat = 65 := rfl
    have hF : 'F'.toNat = 70 := rfl
    rw [h0, h9, ha, hf, hA, hF] at h
    split_ifs at h with h1 h2 h3
    · obtain ⟨l, u⟩ := h1
      interval_cases hn : c.toNat <;> rw [char_eq_of_toNat c _ hn] <;> decide
    · obtain ⟨l, u⟩ := h2
      interval_cases hn : c.toNat <;> rw [char_eq_of_toNat c _ hn] <;> decide
    · obtain ⟨l, u⟩ := h3
      interval_cases hn : c.toNat <;> rw [char_eq_of_toNat c _ hn] <;> decide
  · intro h
    simp only [String.data, List.mem_cons, List.mem_singleton] at h
    rcases h with h | h | h | h | h | h | h | h | h | h | h | h | h | h | h | h | h | h |
      h | h | h | h | h <;>
      first | (subst h; exact ⟨_, rfl⟩) | simp at h

/-- A sequence of characters decodes to `n` bytes exactly when it consists of `2 * n`
hexadecimal digits. -/
theorem decodeHexChars_length_iff (l : List Char) (n : Nat) :
    (∃ bz, decodeHexChars l = some bz ∧ bz.length = n) ↔
      l.length = 2 * n ∧ ∀ c ∈ l, c ∈ "0123456789abcdefABCDEF".data := by
  induction n generalizing l with
  | zero =>
    constructor
    · rintro ⟨bz, h, hlen⟩
      match l with
      | [] => simp
      | [_] => simp [decodeHexChars] at h
      | p :: q :: rest =>
        unfold decodeHexChars at h
        cases hp : hexValue p <;> cases hq : hexValue q <;> simp [hp, hq] at h
        obtain ⟨t, -, rfl⟩ := h
        simp at hlen
    · rintro ⟨hl, -⟩
      have : l = [] := List.length_eq_zero.mp (by omega)
      subst this
      exact ⟨[], rfl, rfl⟩
  | succ n ih =>
    constructor
    · rintro ⟨bz, h, hlen⟩
      match l with
      | [] =>
        simp only [decodeHexChars, Option.some.injEq] at h
        subst h
        simp at hlen
      | [_] => simp [decodeHexChars] at h
      | p :: q :: rest =>
        unfold decodeHexChars at h
        cases hp : hexValue p with
        | none => simp [hp] at h
        | some a =>
          cases hq : hexValue q with
          | none => simp [hp, hq] at h
          | some b =>
            simp only [hp, hq, Option.map_eq_some'] at h
            obtain ⟨t, ht, rfl⟩ := h
            have hlen' : t.length = n := by simpa using hlen
            obtain ⟨h1, h2⟩ := (ih rest).mp ⟨t, ht, hlen'⟩
            refine ⟨by simp only [List.length_cons]; omega, ?_⟩
            intro c hc
            simp only [List.mem_cons] at hc
            rcases hc with rfl | rfl | hc
            · exact (hexValue_eq_some _).mp ⟨a, hp⟩
            · exact (hexValue_eq_some _).mp ⟨b, hq⟩
            · exact h2 c hc
    · rintro ⟨hl, hall⟩
      match l, hl, hall with
      | p :: q :: rest, hl, hall =>
        obtain ⟨a, hp⟩ := (hexValue_eq_some p).mpr (hall p (by simp))
        obtain ⟨b, hq⟩ := (hexValue_eq_some q).mpr (hall q (by simp))
        obtain ⟨t, ht, hlen⟩ := (ih rest).mpr
          ⟨by simp only [List.length_cons] at hl; omega,
            fun c hc => hall c (by simp [hc])⟩
        refine ⟨(a * 16 + b) :: t, ?_, by simp [hlen]⟩
        unfold decodeHexChars
        simp [hp, hq, ht]

/-- `hex.DecodeString` gives thirty-two bytes exactly for the strings of sixty-four
hexadecimal digits. -/
theorem hexDecodeString_32_iff (h : String) :
    (∃ bz, hexDecodeString h = .ok bz ∧ bz.length = 32) ↔
      h.length = 64 ∧ ∀ c ∈ h.data, c ∈ "0123456789abcdefABCDEF".data := by
  have := decodeHexChars_length_iff h.data 32
  simp only [hexDecodeString_ok]
  exact this

/-- C12: `ValidateIBCDenom` returns no error exactly when the denom passes
`sdk.ValidateDenom` and is either (a) not equal to `"ibc"` and not beginning with
`"ibc/"`, or (b) `"ibc/"` followed by a hex string that decodes to exactly 32 bytes,
which is a string of 64 hexadecimal digits, of either case; the hash of an accepted
denomination of the second kind parses to 32 bytes. -/
theorem validateIBCDenom_nil_iff (ValidateDenom : String → Option Error) (denom : String) :
    (ValidateIBCDenom ValidateDenom denom = none ↔
      ValidateDenom denom = none ∧
      ((denom ≠ "ibc" ∧ ¬ ∃ h, denom = "ibc/" ++ h) ∨
        ∃ h, denom = "ibc/" ++ h ∧ h.length = 64 ∧
          ∀ c ∈ h.data, c ∈ "0123456789abcdefABCDEF".data)) ∧
    (∀ h, denom = "ibc/" ++ h → ValidateIBCDenom ValidateDenom denom = none →
      ∃ bz, ParseHexHash h = .ok bz ∧ bz.length = 32) := by
  have hinj : ∀ h h', "ibc/" ++ h = "ibc/" ++ h' → h = h' := by
    intro h h' he
    have := congrArg String.data he
    simp only [String.data_append, List.append_cancel_left_eq] at this
    exact String.ext this
  constructor
  · rw [validateIBCDenom_nil_iff_decodes]
    constructor
    · rintro ⟨hv, h | ⟨h, bz, hd, hdec, hlen⟩⟩
      · exact ⟨hv, Or.inl h⟩
      · exact ⟨hv, Or.inr ⟨h, hd, (hexDecodeString_32_iff h).mp ⟨bz, hdec, hlen⟩⟩⟩
    · rintro ⟨hv, h | ⟨h, hd, hhex⟩⟩
      · exact ⟨hv, Or.inl h⟩
      · obtain ⟨bz, hdec, hlen⟩ := (hexDecodeString_32_iff h).mpr hhex
        exact ⟨hv, Or.inr ⟨h, bz, hd, hdec, hlen⟩⟩
  · intro h hd hnil
    obtain ⟨-, hcase⟩ := (validateIBCDenom_nil_iff_decodes ValidateDenom denom).mp hnil
    rcases hcase with ⟨-, hno⟩ | ⟨h', bz, hd', hdec, hlen⟩
    · exact absurd ⟨h, hd⟩ hno
    · obtain rfl : h = h' := hinj h h' (hd ▸ hd')
      refine ⟨bz, ?_, hlen⟩
      unfold ParseHexHash ValidateHash
      rw [hdec]
      simp [hlen, tmhashSize]

/-- Witness for C12: a voucher denomination with a hash of 64 hexadecimal digits is
accepted and its hash parses to 32 bytes; a hash of 12 digits is rejected. -/
theorem validateIBCDenom_nil_iff_witness :
    ValidateIBCDenom testValidateDenom
      "ibc/7F1D3FCF4AE79E1554D670D1AD949A9BA4E4A3C76C63093E17E446A46061A7A2" = none ∧
    (∃ bz, ParseHexHash "7F1D3FCF4AE79E1554D670D1AD949A9BA4E4A3C76C63093E17E446A46061A7A2"
      = .ok bz ∧ bz.length = 32) ∧
    ValidateIBCDenom testValidateDenom "ibc/7F1D3FCF4AE7" ≠ none :=
  have hok := (validateIBCDenom_nil_iff testValidateDenom
    "ibc/7F1D3FCF4AE79E1554D670D1AD949A9BA4E4A3C76C63093E17E446A46061A7A2").1.mpr
    ⟨by decide, Or.inr ⟨"7F1D3FCF4AE79E1554D670D1AD949A9BA4E4A3C76C63093E17E446A46061A7A2",
      by decide, by decide, by decide⟩⟩
  ⟨hok,
    (validateIBCDenom_nil_iff testValidateDenom
      "ibc/7F1D3FCF4AE79E1554D670D1AD949A9BA4E4A3C76C63093E17E446A46061A7A2").2
      "7F1D3FCF4AE79E1554D670D1AD949A9BA4E4A3C76C63093E17E446A46061A7A2" (by decide) hok,
    fun hnil =>
      match ((validateIBCDenom_nil_iff testValidateDenom "ibc/7F1D3FCF4AE7").1.mp hnil).2 with
      | Or.inl hbase => hbase.2 ⟨"7F1D3FCF4AE7", by decide⟩
      | Or.inr ⟨h, hd, hlen, _⟩ => by
        have := congrArg String.length hd
        rw [String.length_append, hlen] at this
        exact absurd this (by decide)⟩

/-- The cases the claim names, evaluated with a validator in the manner of
`sdk.ValidateDenom`: base denominations and a well-formed voucher denomination are
accepted; `"ibc"`, `"ibc/"`, a non-hex hash and a hash of the wrong length are
rejected. -/
theorem validateIBCDenom_examples :
    ValidateIBCDenom testValidateDenom "uatom" = none ∧
    ValidateIBCDenom testValidateDenom "gamm/pool/1" = none ∧
    ValidateIBCDenom testValidateDenom
      "ibc/7F1D3FCF4AE79E1554D670D1AD949A9BA4E4A3C76C63093E17E446A46061A7A2" = none ∧
    ValidateIBCDenom testValidateDenom "ibc" ≠ none ∧
    ValidateIBCDenom testValidateDenom "ibc/" ≠ none ∧
    ValidateIBCDenom testValidateDenom "ibc/notahexhash" ≠ none ∧
    ValidateIBCDenom testValidateDenom "ibc/7F1D3FCF4AE7" ≠ none := by
  decide

end Transfer
namespace Transfer

/-- The upper-case hexadecimal digit of a value below sixteen is its character in
`0123456789ABCDEF`. -/
theorem upperHexDigit_eq (n : Nat) (h : n < 16) :
    upperHexDigit n = "0123456789ABCDEF".data.getD n '0' := by
  interval_cases n <;> rfl

/-- The upper-case hexadecimal digits of bytes: for each byte the character of its high
half and the character of its low half. -/
theorem upperHexChars_eq (bz : List Nat) (h : ∀ b ∈ bz, b < 256) :
    upperHexChars bz = bz.flatMap (fun b =>
      ["0123456789ABCDEF".data.getD (b / 16) '0', "0123456789ABCDEF".data.getD (b % 16) '0']) := by
  induction bz with
  | nil => rfl
  | cons b bz ih =>
    have hb : b < 256 := h b (by simp)
    rw [upperHexChars, upperHexDigit_eq _ (by omega), upperHexDigit_eq _ (by omega),
      ih (fun x hx => h x (by simp [hx]))]
    rfl

/-- C13: for every `DenomTrace` `dt`: if `dt.Path` is empty then `dt.IBCDenom()` and
`dt.GetFullDenomPath()` are `dt.BaseDenom`; otherwise `dt.GetFullDenomPath()` is
`dt.Path + "/" + dt.BaseDenom` and `dt.IBCDenom()` is `"ibc/"` followed by the
upper-case hex encoding of `sha256(dt.Path + "/" + dt.BaseDenom)`: for each byte of
the digest in turn, the character of `0123456789ABCDEF` for its high half and the one
for its low half.  `Sum256` stands for `sha256.Sum256` and gives bytes. -/
theorem denomTrace_ibcDenom_fullDenomPath (Sum256 : String → List Nat) (dt : DenomTrace)
    (hbytes : ∀ s, ∀ b ∈ Sum256 s, b < 256) :
    (dt.Path = "" →
      dt.IBCDenom Sum256 = dt.BaseDenom ∧ dt.GetFullDenomPath = dt.BaseDenom) ∧
    (dt.Path ≠ "" →
      dt.GetFullDenomPath = dt.Path ++ "/" ++ dt.BaseDenom ∧
      dt.IBCDenom Sum256
        = "ibc/" ++ String.mk ((Sum256 (dt.Path ++ "/" ++ dt.BaseDenom)).flatMap (fun b =>
            ["0123456789ABCDEF".data.getD (b / 16) '0',
              "0123456789ABCDEF".data.getD (b % 16) '0']))) := by
  constructor
  · intro h
    simp [DenomTrace.IBCDenom, DenomTrace.GetFullDenomPath, h]
  · intro h
    have hfull : dt.GetFullDenomPath = dt.Path ++ "/" ++ dt.BaseDenom := by
      simp [DenomTrace.GetFullDenomPath, DenomTrace.GetPrefix, h]
    refine ⟨hfull, ?_⟩
    unfold DenomTrace.IBCDenom DenomTrace.Hash HexBytesString
    rw [if_pos h, hfull, upperHexChars_eq _ (hbytes _)]
    rfl

/-- Witness for C13: `uatom` without a trace, and the trace `transfer/channel-0` of
`uatom`, whose digest for evaluation is the bytes 24, 25, ..., 55. -/
theorem denomTrace_ibcDenom_fullDenomPath_witness :
    ((⟨"", "uatom"⟩ : DenomTrace).IBCDenom testSum256 = "uatom" ∧
      (⟨"", "uatom"⟩ : DenomTrace).GetFullDenomPath = "uatom") ∧
    (⟨"transfer/channel-0", "uatom"⟩ : DenomTrace).GetFullDenomPath
      = "transfer/channel-0/uatom" ∧
    (⟨"transfer/channel-0", "uatom"⟩ : DenomTrace).IBCDenom testSum256
      = "ibc/18191A1B1C1D1E1F202122232425262728292A2B2C2D2E2F3031323334353637" :=
  have hbytes : ∀ s, ∀ b ∈ testSum256 s, b < 256 := by
    intro s b hb
    simp only [testSum256, List.mem_map] at hb
    obtain ⟨i, -, rfl⟩ := hb
    exact Nat.mod_lt _ (by decide)
  ⟨(denomTrace_ibcDenom_fullDenomPath testSum256 ⟨"", "uatom"⟩ hbytes).1 rfl,
    ((denomTrace_ibcDenom_fullDenomPath testSum256 ⟨"transfer/channel-0", "uatom"⟩ hbytes).2
      (by decide)).1.trans (by decide),
    ((denomTrace_ibcDenom_fullDenomPath testSum256 ⟨"transfer/channel-0", "uatom"⟩ hbytes).2
      (by decide)).2.trans (by decide)⟩


/-- The encoding is upper-case hexadecimal, two digits per byte, and a digest of 32
bytes gives a denomination that `ValidateIBCDenom` accepts. -/
theorem ibcDenom_examples :
    HexBytesString [0, 10, 171, 255] = "000AABFF" ∧
    (⟨"transfer/channel-0", "uatom"⟩ : DenomTrace).IBCDenom testSum256
      = "ibc/18191A1B1C1D1E1F202122232425262728292A2B2C2D2E2F3031323334353637" ∧
    ValidateIBCDenom testValidateDenom
      ((⟨"transfer/channel-0", "uatom"⟩ : DenomTrace).IBCDenom testSum256) = none := by
  decide

end Transfer

namespace IBCFee

/-- C14: `Fee.Validate` returns an error if and only if at least one of `AckFee`,
`RecvFee`, `TimeoutFee` is an invalid coin set, or all three are empty or zero; a
`Fee` of which one part is a valid non-zero coin set and the other two are empty
is accepted. -/
theorem fee_validate_error_iff (ValidateDenom : String → Option Error) (fee : Fee) :
    (fee.Validate ValidateDenom ≠ none ↔
      (fee.AckFee.IsValid ValidateDenom = false ∨ fee.RecvFee.IsValid ValidateDenom = false ∨
        fee.TimeoutFee.IsValid ValidateDenom = false) ∨
      (fee.AckFee.IsZero = true ∧ fee.RecvFee.IsZero = true ∧ fee.TimeoutFee.IsZero = true)) ∧
    (∀ coins : Coins, coins.IsValid ValidateDenom = true → coins.IsZero = false →
      Fee.Validate ValidateDenom ⟨coins, [], []⟩ = none ∧
      Fee.Validate ValidateDenom ⟨[], coins, []⟩ = none ∧
      Fee.Validate ValidateDenom ⟨[], [], coins⟩ = none) := by
  constructor
  · unfold Fee.Validate
    cases ha : fee.AckFee.IsValid ValidateDenom <;>
    cases hr : fee.RecvFee.IsValid ValidateDenom <;>
    cases ht : fee.TimeoutFee.IsValid ValidateDenom <;>
    cases hza : fee.AckFee.IsZero <;>
    cases hzr : fee.RecvFee.IsZero <;>
    cases hzt : fee.TimeoutFee.IsZero <;>
    simp
  · intro coins hv hz
    have hev : Coins.IsValid ValidateDenom ([] : Coins) = true := rfl
    have hez : Coins.IsZero ([] : Coins) = true := rfl
    simp [Fee.Validate, hv, hz, hev, hez]

/-- Witness for C14: a fee of 100 `stake` for receiving only is accepted, a fee with
an unsorted coin set and the fee of three empty coin sets are rejected. -/
theorem fee_validate_error_iff_witness :
    Fee.Validate testImports.ValidateDenom ⟨[⟨"stake", 100⟩], [], []⟩ = none ∧
    Fee.Validate testImports.ValidateDenom ⟨[⟨"stake", 100⟩, ⟨"atom", 1⟩], [], []⟩ ≠ none ∧
    Fee.Validate testImports.ValidateDenom ⟨[], [], []⟩ ≠ none :=
  ⟨((fee_validate_error_iff testImports.ValidateDenom ⟨[], [], []⟩).2
      [⟨"stake", 100⟩] (by decide) (by decide)).1,
    (fee_validate_error_iff testImports.ValidateDenom
      ⟨[⟨"stake", 100⟩, ⟨"atom", 1⟩], [], []⟩).1.mpr (Or.inl (Or.inr (Or.inl (by decide)))),
    (fee_validate_error_iff testImports.ValidateDenom ⟨[], [], []⟩).1.mpr
      (Or.inr ⟨by decide, by decide, by decide⟩)⟩

/-- C15: `MsgPayPacketFee.ValidateBasic` returns nil if and only if `SourceChannelId`
is a valid channel identifier, `SourcePortId` is a valid port identifier, `Signer` is
a valid bech32 account address, `Relayers` is nil, and `Fee.Validate` succeeds; a
message with a non-nil `Relayers` list, be it empty, is rejected with
`ErrRelayersNotNil` when the earlier checks pass. -/
theorem msgPayPacketFee_validateBasic_nil_iff (lib : Imports) (msg : MsgPayPacketFee) :
    (msg.ValidateBasic lib = none ↔
      lib.ChannelIdentifierValidator msg.SourceChannelId = none ∧
      lib.PortIdentifierValidator msg.SourcePortId = none ∧
      (∃ addr, lib.AccAddressFromBech32 msg.Signer = .ok addr) ∧
      msg.Relayers = none ∧
      msg.Fee.Validate lib.ValidateDenom = none) ∧
    (lib.ChannelIdentifierValidator msg.SourceChannelId = none →
      lib.PortIdentifierValidator msg.SourcePortId = none →
      (∃ addr, lib.AccAddressFromBech32 msg.Signer = .ok addr) →
      msg.Relayers ≠ none →
      msg.ValidateBasic lib = some .ErrRelayersNotNil) := by
  unfold MsgPayPacketFee.ValidateBasic
  cases hc : lib.ChannelIdentifierValidator msg.SourceChannelId with
  | some e => simp
  | none =>
    cases hp : lib.PortIdentifierValidator msg.SourcePortId with
    | some e => simp
    | none =>
      cases hs : lib.AccAddressFromBech32 msg.Signer with
      | error e => simp
      | ok addr =>
        cases hr : msg.Relayers with
        | some rs => simp
        | none =>
          cases hf : msg.Fee.Validate lib.ValidateDenom with
          | some e => simp
          | none => simp

/-- Witness for C15: a message without relayers is accepted; the same message with an
empty, non-nil list of relayers is rejected with `ErrRelayersNotNil`. -/
theorem msgPayPacketFee_validateBasic_nil_iff_witness :
    MsgPayPacketFee.ValidateBasic testImports
      ⟨recvOnlyFee, "transfer", "channel-0", "cosmos1abc", none⟩ = none ∧
    MsgPayPacketFee.ValidateBasic testImports
      ⟨recvOnlyFee, "transfer", "channel-0", "cosmos1abc", some []⟩
        = some .ErrRelayersNotNil :=
  ⟨(msgPayPacketFee_validateBasic_nil_iff testImports
      ⟨recvOnlyFee, "transfer", "channel-0", "cosmos1abc", none⟩).1.mpr
      ⟨by decide, by decide, ⟨_, rfl⟩, rfl, by decide⟩,
    (msgPayPacketFee_validateBasic_nil_iff testImports
      ⟨recvOnlyFee, "transfer", "channel-0", "cosmos1abc", some []⟩).2
      (by decide) (by decide) ⟨_, rfl⟩ (by decide)⟩

end IBCFee

namespace IBCFee

/-- C16: transparency when fees are disabled.  If fee is not enabled for the packet's
channel (the destination port and channel for `OnRecvPacket`, the source port and
channel for `OnAcknowledgementPacket` and `OnTimeoutPacket`), the middleware
callback returns exactly what the underlying application's callback returns on the
unmodified arguments (the raw acknowledgement bytes are passed on undecoded), leaves
the state the application's callback leaves, and invokes nothing but the read of the
fee enabled flag and that one callback: no keeper write, no fee distribution. -/
theorem middleware_transparent_when_fee_disabled {σ : Type} (im : IBCMiddleware σ)
    (types : Types) (ctx : Ctx σ) (packet : Packet) (acknowledgement : List Nat)
    (relayer : AccAddress) :
    (im.keeper.IsFeeEnabled ctx.state packet.DestinationPort packet.DestinationChannel = false →
      im.OnRecvPacket ctx packet relayer =
        ((im.app.OnRecvPacket ctx.state packet relayer).1.map .underlying,
          ⟨(im.app.OnRecvPacket ctx.state packet relayer).2,
            ctx.events ++ [.keeper (.IsFeeEnabled packet.DestinationPort packet.DestinationChannel),
              .app (.OnRecvPacket packet relayer)
                (.ack (im.app.OnRecvPacket ctx.state packet relayer).1)]⟩)) ∧
    (im.keeper.IsFeeEnabled ctx.state packet.SourcePort packet.SourceChannel = false →
      im.OnAcknowledgementPacket types ctx packet acknowledgement relayer =
        ((im.app.OnAcknowledgementPacket ctx.state packet acknowledgement relayer).1,
          ⟨(im.app.OnAcknowledgementPacket ctx.state packet acknowledgement relayer).2,
            ctx.events ++ [.keeper (.IsFeeEnabled packet.SourcePort packet.SourceChannel),
              .app (.OnAcknowledgementPacket packet acknowledgement relayer)
                (.error (im.app.OnAcknowledgementPacket ctx.state packet acknowledgement
                  relayer).1)]⟩) ∧
      im.OnTimeoutPacket ctx packet relayer =
        ((im.app.OnTimeoutPacket ctx.state packet relayer).1,
          ⟨(im.app.OnTimeoutPacket ctx.state packet relayer).2,
            ctx.events ++ [.keeper (.IsFeeEnabled packet.SourcePort packet.SourceChannel),
              .app (.OnTimeoutPacket packet relayer)
                (.error (im.app.OnTimeoutPacket ctx.state packet relayer).1)]⟩)) := by
  refine ⟨?_, ?_⟩
  · intro h
    simp [IBCMiddleware.OnRecvPacket, IBCMiddleware.IsFeeEnabled, IBCMiddleware.appOnRecvPacket,
      Ctx.read, Ctx.called, h]
  · intro h
    refine ⟨?_, ?_⟩
    · simp [IBCMiddleware.OnAcknowledgementPacket, IBCMiddleware.IsFeeEnabled,
        IBCMiddleware.appOnAcknowledgementPacket, Ctx.read, Ctx.called, h]
    · simp [IBCMiddleware.OnTimeoutPacket, IBCMiddleware.IsFeeEnabled,
        IBCMiddleware.appOnTimeoutPacket, Ctx.read, Ctx.called, h]

/-- Witness for C16: no channel is fee enabled; the packet is received, an
acknowledgement that would decode as an incentivized one is passed on as it is, and
the packet is timed out. -/
theorem middleware_transparent_when_fee_disabled_witness :
    testMiddleware.OnRecvPacket (testCtx [] false) testPacket testRelayer =
      (some (.underlying ⟨true, [7]⟩),
        ⟨{ testState [] false with appCalls := 1 },
          [.keeper (.IsFeeEnabled "transfer" "channel-1"),
            .app (.OnRecvPacket testPacket testRelayer) (.ack (some ⟨true, [7]⟩))]⟩) ∧
    testMiddleware.OnAcknowledgementPacket testTypes (testCtx [] false) testPacket
        [255, 1, 7] testRelayer =
      (none,
        ⟨{ testState [] false with appCalls := 1 },
          [.keeper (.IsFeeEnabled "transfer" "channel-0"),
            .app (.OnAcknowledgementPacket testPacket [255, 1, 7] testRelayer)
              (.error none)]⟩) ∧
    testMiddleware.OnTimeoutPacket (testCtx [] false) testPacket testRelayer =
      (none,
        ⟨{ testState [] false with appCalls := 1 },
          [.keeper (.IsFeeEnabled "transfer" "channel-0"),
            .app (.OnTimeoutPacket testPacket testRelayer) (.error none)]⟩) :=
  ⟨(middleware_transparent_when_fee_disabled testMiddleware testTypes (testCtx [] false)
      testPacket [255, 1, 7] testRelayer).1 (by rfl),
    (middleware_transparent_when_fee_disabled testMiddleware testTypes (testCtx [] false)
      testPacket [255, 1, 7] testRelayer).2 (by rfl)⟩

end IBCFee
namespace IBCFee

/-- C17: version negotiation in `OnChanOpenTry`.  If `counterpartyVersion` does not
decode as fee `Metadata`, the result is exactly the underlying application's
`OnChanOpenTry` result on the whole version string, no keeper method is invoked and
the state is the one the application leaves, so that the fee enabled flag is
unchanged wherever the application does not change it.  If it decodes with
`FeeVersion` equal to the ICS29 version and the application returns `appVersion`
without error, `SetFeeEnabled(portID, channelID)` has been called before the
application was, so that fee is enabled for `(portID, channelID)` wherever the
application does not change the flag, and the returned version is the encoding of
`Metadata{FeeVersion: ICS29 version, AppVersion: appVersion}`, which decodes to that
`Metadata` when the codec decodes what it encodes. -/
theorem onChanOpenTry_version_negotiation {σ : Type} (im : IBCMiddleware σ) (types : Types)
    (ctx : Ctx σ) (order : Order) (connectionHops : List String) (portID channelID : String)
    (chanCap : Nat) (counterparty : Counterparty) (counterpartyVersion : String) :
    (types.UnmarshalMetadata counterpartyVersion = none →
      im.OnChanOpenTry types ctx order connectionHops portID channelID chanCap counterparty
          counterpartyVersion =
        ((im.app.OnChanOpenTry ctx.state order connectionHops portID channelID chanCap
            counterparty counterpartyVersion).1,
          ⟨(im.app.OnChanOpenTry ctx.state order connectionHops portID channelID chanCap
              counterparty counterpartyVersion).2,
            ctx.events ++ [.app (.OnChanOpenTry order connectionHops portID channelID chanCap
                counterparty counterpartyVersion)
              (.version
                (im.app.OnChanOpenTry ctx.state order connectionHops portID channelID chanCap
                  counterparty counterpartyVersion).1.1
                (im.app.OnChanOpenTry ctx.state order connectionHops portID channelID chanCap
                  counterparty counterpartyVersion).1.2)]⟩) ∧
      ((∀ s version p c,
          im.keeper.IsFeeEnabled (im.app.OnChanOpenTry s order connectionHops portID channelID
            chanCap counterparty version).2 p c = im.keeper.IsFeeEnabled s p c) →
        ∀ p c, im.keeper.IsFeeEnabled
          (im.OnChanOpenTry types ctx order connectionHops portID channelID chanCap
            counterparty counterpartyVersion).2.state p c
        = im.keeper.IsFeeEnabled ctx.state p c)) ∧
    (∀ versionMetadata appVersion encoded,
      types.UnmarshalMetadata counterpartyVersion = some versionMetadata →
      versionMetadata.FeeVersion = types.Version →
      (im.app.OnChanOpenTry (im.keeper.SetFeeEnabled ctx.state portID channelID) order
        connectionHops portID channelID chanCap counterparty versionMetadata.AppVersion).1
          = (appVersion, none) →
      types.MarshalMetadata ⟨types.Version, appVersion⟩ = .ok encoded →
      (im.OnChanOpenTry types ctx order connectionHops portID channelID chanCap counterparty
          counterpartyVersion).1 = (encoded, none) ∧
      (im.OnChanOpenTry types ctx order connectionHops portID channelID chanCap counterparty
          counterpartyVersion).2 =
        ⟨(im.app.OnChanOpenTry (im.keeper.SetFeeEnabled ctx.state portID channelID) order
            connectionHops portID channelID chanCap counterparty versionMetadata.AppVersion).2,
          ctx.events ++ [.keeper (.SetFeeEnabled portID channelID),
            .app (.OnChanOpenTry order connectionHops portID channelID chanCap counterparty
              versionMetadata.AppVersion) (.version appVersion none)]⟩ ∧
      ((∀ s, im.keeper.IsFeeEnabled (im.keeper.SetFeeEnabled s portID channelID) portID
          channelID = true) →
        (∀ s version p c,
          im.keeper.IsFeeEnabled (im.app.OnChanOpenTry s order connectionHops portID channelID
            chanCap counterparty version).2 p c = im.keeper.IsFeeEnabled s p c) →
        im.keeper.IsFeeEnabled
          (im.OnChanOpenTry types ctx order connectionHops portID channelID chanCap
            counterparty counterpartyVersion).2.state portID channelID = true) ∧
      ((∀ md s, types.MarshalMetadata md = .ok s → types.UnmarshalMetadata s = some md) →
        types.UnmarshalMetadata
          (im.OnChanOpenTry types ctx order connectionHops portID channelID chanCap
            counterparty counterpartyVersion).1.1 = some ⟨types.Version, appVersion⟩)) := by
  refine ⟨?_, ?_⟩
  · intro h
    have heq : im.OnChanOpenTry types ctx order connectionHops portID channelID chanCap
        counterparty counterpartyVersion =
        im.appOnChanOpenTry ctx order connectionHops portID channelID chanCap counterparty
          counterpartyVersion := by
      simp [IBCMiddleware.OnChanOpenTry, h]
    rw [heq]
    refine ⟨rfl, ?_⟩
    intro happ p c
    exact happ _ _ _ _
  · intro versionMetadata appVersion encoded hdec hfee hres hmar
    have heq : im.OnChanOpenTry types ctx order connectionHops portID channelID chanCap
        counterparty counterpartyVersion =
        ((encoded, none),
          (im.appOnChanOpenTry (im.SetFeeEnabled ctx portID channelID) order connectionHops
            portID channelID chanCap counterparty versionMetadata.AppVersion).2) := by
      unfold IBCMiddleware.OnChanOpenTry
      rw [hdec]
      simp only [ne_eq, hfee, not_true_eq_false, if_false]
      have h1 : (im.appOnChanOpenTry (im.SetFeeEnabled ctx portID channelID) order
          connectionHops portID channelID chanCap counterparty versionMetadata.AppVersion).1
            = (appVersion, none) := hres
      rw [h1]
      simp only
      rw [hmar]
    rw [heq]
    have hstate : (im.appOnChanOpenTry (im.SetFeeEnabled ctx portID channelID) order
        connectionHops portID channelID chanCap counterparty versionMetadata.AppVersion).2 =
        ⟨(im.app.OnChanOpenTry (im.keeper.SetFeeEnabled ctx.state portID channelID) order
            connectionHops portID channelID chanCap counterparty versionMetadata.AppVersion).2,
          ctx.events ++ [.keeper (.SetFeeEnabled portID channelID),
            .app (.OnChanOpenTry order connectionHops portID channelID chanCap counterparty
              versionMetadata.AppVersion) (.version appVersion none)]⟩ := by
      simp only [IBCMiddleware.appOnChanOpenTry, IBCMiddleware.SetFeeEnabled, Ctx.write,
        Ctx.called, hres, List.append_assoc, List.singleton_append]
    refine ⟨rfl, hstate, ?_, ?_⟩
    · intro hset happ
      simp only
      rw [hstate]
      simp only
      rw [happ]
      exact hset _
    · intro hround
      exact hround _ _ hmar

/-- Witness for C17: with the codec for evaluation, the counterparty version
`ics29-1|ics20-1` enables fee on `transfer/channel-0` and is answered by the encoding
of the fee version and the application's version. -/
theorem onChanOpenTry_version_negotiation_witness :
    (testMiddleware.OnChanOpenTry testTypes (testCtx [] false) .UNORDERED ["connection-0"]
        "transfer" "channel-0" 1 ⟨"transfer", "channel-1"⟩ "ics29-1|ics20-1").1
      = ("ics29-1|ics20-1", none) ∧
    (testMiddleware.OnChanOpenTry testTypes (testCtx [] false) .UNORDERED ["connection-0"]
        "transfer" "channel-0" 1 ⟨"transfer", "channel-1"⟩ "ics29-1|ics20-1").2 =
      ⟨(testMiddleware.app.OnChanOpenTry
          (testMiddleware.keeper.SetFeeEnabled (testCtx [] false).state "transfer" "channel-0")
          .UNORDERED ["connection-0"] "transfer" "channel-0" 1 ⟨"transfer", "channel-1"⟩
          (⟨"ics29-1", "ics20-1"⟩ : Metadata).AppVersion).2,
        (testCtx [] false).events ++ [.keeper (.SetFeeEnabled "transfer" "channel-0"),
          .app (.OnChanOpenTry .UNORDERED ["connection-0"] "transfer" "channel-0" 1
            ⟨"transfer", "channel-1"⟩ (⟨"ics29-1", "ics20-1"⟩ : Metadata).AppVersion)
            (.version "ics20-1" none)]⟩ ∧
    ((∀ s, testMiddleware.keeper.IsFeeEnabled
        (testMiddleware.keeper.SetFeeEnabled s "transfer" "channel-0") "transfer" "channel-0"
          = true) →
      (∀ s version p c,
        testMiddleware.keeper.IsFeeEnabled (testMiddleware.app.OnChanOpenTry s .UNORDERED
          ["connection-0"] "transfer" "channel-0" 1 ⟨"transfer", "channel-1"⟩ version).2 p c
          = testMiddleware.keeper.IsFeeEnabled s p c) →
      testMiddleware.keeper.IsFeeEnabled
        (testMiddleware.OnChanOpenTry testTypes (testCtx [] false) .UNORDERED ["connection-0"]
          "transfer" "channel-0" 1 ⟨"transfer", "channel-1"⟩ "ics29-1|ics20-1").2.state
        "transfer" "channel-0" = true) ∧
    ((∀ md s, testTypes.MarshalMetadata md = .ok s → testTypes.UnmarshalMetadata s = some md) →
      testTypes.UnmarshalMetadata
        (testMiddleware.OnChanOpenTry testTypes (testCtx [] false) .UNORDERED ["connection-0"]
          "transfer" "channel-0" 1 ⟨"transfer", "channel-1"⟩ "ics29-1|ics20-1").1.1
        = some ⟨testTypes.Version, "ics20-1"⟩) :=
  (onChanOpenTry_version_negotiation testMiddleware testTypes (testCtx [] false) .UNORDERED
    ["connection-0"] "transfer" "channel-0" 1 ⟨"transfer", "channel-1"⟩
    "ics29-1|ics20-1").2 ⟨"ics29-1", "ics20-1"⟩ "ics20-1" "ics29-1|ics20-1"
    (by decide) (by decide) (by rfl) (by rfl)

/-- The runs of `OnChanOpenTry` on the instance for evaluation: a version that is not
fee metadata goes to the application whole and leaves fee disabled; fee metadata
enables fee; fee metadata of another fee version is rejected without a call of the
application. -/
theorem onChanOpenTry_runs :
    testMiddleware.OnChanOpenTry testTypes (testCtx [] false) .UNORDERED ["connection-0"]
        "transfer" "channel-0" 1 ⟨"transfer", "channel-1"⟩ "ics20-1" =
      (("ics20-1", none),
        ⟨{ testState [] false with appCalls := 1 },
          [.app (.OnChanOpenTry .UNORDERED ["connection-0"] "transfer" "channel-0" 1
            ⟨"transfer", "channel-1"⟩ "ics20-1") (.version "ics20-1" none)]⟩) ∧
    (testMiddleware.OnChanOpenTry testTypes (testCtx [] false) .UNORDERED ["connection-0"]
        "transfer" "channel-0" 1 ⟨"transfer", "channel-1"⟩ "ics29-1|ics20-1").2.state.feeEnabled
      = [("transfer", "channel-0")] ∧
    testMiddleware.OnChanOpenTry testTypes (testCtx [] false) .UNORDERED ["connection-0"]
        "transfer" "channel-0" 1 ⟨"transfer", "channel-1"⟩ "ics28-1|ics20-1" =
      (("", some (.wrap .ErrInvalidVersion "expected fee version")), testCtx [] false) :=
  ⟨rfl, rfl, rfl⟩

end IBCFee
namespace IBCFee

/-- When neither the keeper methods nor the application callbacks change the lock, no
callback of the middleware does. -/
theorem callbacks_preserve_locked {σ : Type} (im : IBCMiddleware σ) (types : Types)
    (hp : im.PreservesLocked) (ctx : Ctx σ) :
    (∀ order connectionHops portID channelID chanCap counterparty version,
      im.keeper.IsLocked (im.OnChanOpenInit types ctx order connectionHops portID channelID
        chanCap counterparty version).2.state = im.keeper.IsLocked ctx.state) ∧
    (∀ order connectionHops portID channelID chanCap counterparty version,
      im.keeper.IsLocked (im.OnChanOpenTry types ctx order connectionHops portID channelID
        chanCap counterparty version).2.state = im.keeper.IsLocked ctx.state) ∧
    (∀ portID channelID counterpartyChannelID version,
      im.keeper.IsLocked (im.OnChanOpenAck types ctx portID channelID counterpartyChannelID
        version).2.state = im.keeper.IsLocked ctx.state) ∧
    (∀ portID channelID,
      im.keeper.IsLocked (im.OnChanOpenConfirm ctx portID channelID).2.state
        = im.keeper.IsLocked ctx.state) ∧
    (∀ portID channelID,
      im.keeper.IsLocked (im.OnChanCloseInit ctx portID channelID).2.state
        = im.keeper.IsLocked ctx.state) ∧
    (∀ portID channelID,
      im.keeper.IsLocked (im.OnChanCloseConfirm ctx portID channelID).2.state
        = im.keeper.IsLocked ctx.state) ∧
    (∀ packet relayer,
      im.keeper.IsLocked (im.OnRecvPacket ctx packet relayer).2.state
        = im.keeper.IsLocked ctx.state) ∧
    (∀ packet acknowledgement relayer,
      im.keeper.IsLocked (im.OnAcknowledgementPacket types ctx packet acknowledgement
        relayer).2.state = im.keeper.IsLocked ctx.state) ∧
    (∀ packet relayer,
      im.keeper.IsLocked (im.OnTimeoutPacket ctx packet relayer).2.state
        = im.keeper.IsLocked ctx.state) := by
  refine ⟨?_, ?_, ?_, ?_, ?_, ?_, ?_, ?_, ?_⟩
  · intro order connectionHops portID channelID chanCap counterparty version
    unfold IBCMiddleware.OnChanOpenInit
    split
    · simp [IBCMiddleware.appOnChanOpenInit, Ctx.called, hp.onChanOpenInit]
    · split
      · rfl
      · simp [IBCMiddleware.appOnChanOpenInit, IBCMiddleware.SetFeeEnabled, Ctx.called,
          Ctx.write, hp.onChanOpenInit, hp.setFeeEnabled]
  · intro order connectionHops portID channelID chanCap counterparty version
    unfold IBCMiddleware.OnChanOpenTry
    split
    · simp [IBCMiddleware.appOnChanOpenTry, Ctx.called, hp.onChanOpenTry]
    · split
      · rfl
      · simp only
        split
        · simp [IBCMiddleware.appOnChanOpenTry, IBCMiddleware.SetFeeEnabled, Ctx.called,
            Ctx.write, hp.onChanOpenTry, hp.setFeeEnabled]
        · split <;>
          simp [IBCMiddleware.appOnChanOpenTry, IBCMiddleware.SetFeeEnabled, Ctx.called,
            Ctx.write, hp.onChanOpenTry, hp.setFeeEnabled]
  · intro portID channelID counterpartyChannelID version
    unfold IBCMiddleware.OnChanOpenAck
    split
    · split
      · simp [IBCMiddleware.IsFeeEnabled, Ctx.read]
      · split
        · simp [IBCMiddleware.IsFeeEnabled, Ctx.read]
        · simp [IBCMiddleware.appOnChanOpenAck, IBCMiddleware.IsFeeEnabled, Ctx.read,
            Ctx.called, hp.onChanOpenAck]
    · simp [IBCMiddleware.appOnChanOpenAck, IBCMiddleware.IsFeeEnabled, Ctx.read,
        Ctx.called, hp.onChanOpenAck]
  · intro portID channelID
    simp [IBCMiddleware.OnChanOpenConfirm, IBCMiddleware.appOnChanOpenConfirm, Ctx.called,
      hp.onChanOpenConfirm]
  · intro portID channelID
    unfold IBCMiddleware.OnChanCloseInit
    split
    · simp [IBCMiddleware.appOnChanCloseInit, Ctx.called, hp.onChanCloseInit]
    · split <;>
      simp [IBCMiddleware.appOnChanCloseInit, IBCMiddleware.RefundFeesOnChannelClosure,
        Ctx.called, Ctx.write, hp.onChanCloseInit, hp.refund]
  · intro portID channelID
    unfold IBCMiddleware.OnChanCloseConfirm
    split
    · simp [IBCMiddleware.appOnChanCloseConfirm, Ctx.called, hp.onChanCloseConfirm]
    · split <;>
      simp [IBCMiddleware.appOnChanCloseConfirm, IBCMiddleware.RefundFeesOnChannelClosure,
        Ctx.called, Ctx.write, hp.onChanCloseConfirm, hp.refund]
  · intro packet relayer
    unfold IBCMiddleware.OnRecvPacket
    simp only
    split
    · simp [IBCMiddleware.appOnRecvPacket, IBCMiddleware.IsFeeEnabled, Ctx.read, Ctx.called,
        hp.onRecvPacket]
    · split <;>
      simp [IBCMiddleware.appOnRecvPacket, IBCMiddleware.IsFeeEnabled,
        IBCMiddleware.SetRelayerAddressForAsyncAck, IBCMiddleware.GetCounterpartyAddress,
        Ctx.read, Ctx.called, Ctx.write, hp.onRecvPacket, hp.setRelayerAddress]
  · intro packet acknowledgement relayer
    unfold IBCMiddleware.OnAcknowledgementPacket
    simp only
    split
    · simp [IBCMiddleware.appOnAcknowledgementPacket, IBCMiddleware.IsFeeEnabled, Ctx.read,
        Ctx.called, hp.onAcknowledgementPacket]
    · split
      · simp [IBCMiddleware.IsFeeEnabled, Ctx.read]
      · split
        · simp [IBCMiddleware.appOnAcknowledgementPacket, IBCMiddleware.IsFeeEnabled,
            IBCMiddleware.IsLocked, Ctx.read, Ctx.called, hp.onAcknowledgementPacket]
        · split <;>
          simp [IBCMiddleware.appOnAcknowledgementPacket, IBCMiddleware.IsFeeEnabled,
            IBCMiddleware.IsLocked, IBCMiddleware.GetFeesInEscrow,
            IBCMiddleware.DistributePacketFeesOnAcknowledgement, Ctx.read, Ctx.called,
            Ctx.write, hp.onAcknowledgementPacket, hp.distributeOnAcknowledgement]
  · intro packet relayer
    unfold IBCMiddleware.OnTimeoutPacket
    simp only
    split
    · simp [IBCMiddleware.appOnTimeoutPacket, IBCMiddleware.IsFeeEnabled, Ctx.read,
        Ctx.called, hp.onTimeoutPacket]
    · split
      · simp [IBCMiddleware.appOnTimeoutPacket, IBCMiddleware.IsFeeEnabled,
          IBCMiddleware.IsLocked, Ctx.read, Ctx.called, hp.onTimeoutPacket]
      · split
        · split <;>
          simp [IBCMiddleware.appOnTimeoutPacket, IBCMiddleware.IsFeeEnabled,
            IBCMiddleware.IsLocked, IBCMiddleware.GetFeesInEscrow,
            IBCMiddleware.DistributePacketFeesOnTimeout, Ctx.read, Ctx.called, Ctx.write,
            hp.onTimeoutPacket, hp.distributeOnTimeout]
        · simp [IBCMiddleware.appOnTimeoutPacket, IBCMiddleware.IsFeeEnabled,
            IBCMiddleware.IsLocked, IBCMiddleware.GetFeesInEscrow, Ctx.read, Ctx.called,
            hp.onTimeoutPacket]

end IBCFee
namespace IBCFee

/-- `OnChanOpenInit` changes the store only through the calls it records. -/
theorem onChanOpenInit_replays {σ : Type} (im : IBCMiddleware σ) (types : Types) (ctx : Ctx σ)
    (order : Order) (connectionHops : List String) (portID channelID : String) (chanCap : Nat)
    (counterparty : Counterparty) (version : String) :
    ∃ evs, (im.OnChanOpenInit types ctx order connectionHops portID channelID chanCap
        counterparty version).2.events = ctx.events ++ evs ∧
      (im.OnChanOpenInit types ctx order connectionHops portID channelID chanCap
        counterparty version).2.state = replay im evs ctx.state := by
  unfold IBCMiddleware.OnChanOpenInit
  repeat' split
  all_goals
    simp only [IBCMiddleware.appOnChanOpenInit, IBCMiddleware.SetFeeEnabled, Ctx.write,
      Ctx.called, List.append_assoc]
    first
      | (refine ⟨_, rfl, ?_⟩
         simp [replay, Event.effect, KeeperCall.effect, AppCall.effect])
      | (refine ⟨[], ?_, ?_⟩ <;> simp [replay])

/-- `OnChanOpenTry` changes the store only through the calls it records. -/
theorem onChanOpenTry_replays {σ : Type} (im : IBCMiddleware σ) (types : Types) (ctx : Ctx σ)
    (order : Order) (connectionHops : List String) (portID channelID : String) (chanCap : Nat)
    (counterparty : Counterparty) (counterpartyVersion : String) :
    ∃ evs, (im.OnChanOpenTry types ctx order connectionHops portID channelID chanCap
        counterparty counterpartyVersion).2.events = ctx.events ++ evs ∧
      (im.OnChanOpenTry types ctx order connectionHops portID channelID chanCap
        counterparty counterpartyVersion).2.state = replay im evs ctx.state := by
  unfold IBCMiddleware.OnChanOpenTry
  simp only
  repeat' split
  all_goals
    simp_all only [IBCMiddleware.appOnChanOpenTry, IBCMiddleware.SetFeeEnabled, Ctx.write,
      Ctx.called, List.append_assoc]
    first
      | (refine ⟨_, rfl, ?_⟩
         simp_all [replay, Event.effect, KeeperCall.effect, AppCall.effect])
      | (refine ⟨[], ?_, ?_⟩ <;> simp [replay])

/-- `OnChanOpenAck` changes the store only through the calls it records. -/
theorem onChanOpenAck_replays {σ : Type} (im : IBCMiddleware σ) (types : Types) (ctx : Ctx σ)
    (portID channelID counterpartyChannelID counterpartyVersion : String) :
    ∃ evs, (im.OnChanOpenAck types ctx portID channelID counterpartyChannelID
        counterpartyVersion).2.events = ctx.events ++ evs ∧
      (im.OnChanOpenAck types ctx portID channelID counterpartyChannelID
        counterpartyVersion).2.state = replay im evs ctx.state := by
  unfold IBCMiddleware.OnChanOpenAck
  repeat' split
  all_goals
    simp only [IBCMiddleware.appOnChanOpenAck, IBCMiddleware.IsFeeEnabled, Ctx.read,
      Ctx.called, List.append_assoc]
    refine ⟨_, rfl, ?_⟩
    simp [replay, Event.effect, KeeperCall.effect, AppCall.effect]

/-- `OnChanOpenConfirm` changes the store only through the call it records. -/
theorem onChanOpenConfirm_replays {σ : Type} (im : IBCMiddleware σ) (ctx : Ctx σ)
    (portID channelID : String) :
    ∃ evs, (im.OnChanOpenConfirm ctx portID channelID).2.events = ctx.events ++ evs ∧
      (im.OnChanOpenConfirm ctx portID channelID).2.state = replay im evs ctx.state := by
  unfold IBCMiddleware.OnChanOpenConfirm
  simp only [IBCMiddleware.appOnChanOpenConfirm, Ctx.called]
  refine ⟨_, rfl, ?_⟩
  simp [replay, Event.effect, KeeperCall.effect, AppCall.effect]

/-- `OnChanCloseInit` changes the store only through the calls it records. -/
theorem onChanCloseInit_replays {σ : Type} (im : IBCMiddleware σ) (ctx : Ctx σ)
    (portID channelID : String) :
    ∃ evs, (im.OnChanCloseInit ctx portID channelID).2.events = ctx.events ++ evs ∧
      (im.OnChanCloseInit ctx portID channelID).2.state = replay im evs ctx.state := by
  unfold IBCMiddleware.OnChanCloseInit
  repeat' split
  all_goals
    simp_all only [IBCMiddleware.appOnChanCloseInit, IBCMiddleware.RefundFeesOnChannelClosure,
      Ctx.write, Ctx.called, List.append_assoc]
    refine ⟨_, rfl, ?_⟩
    simp_all [replay, Event.effect, KeeperCall.effect, AppCall.effect]

/-- `OnChanCloseConfirm` changes the store only through the calls it records. -/
theorem onChanCloseConfirm_replays {σ : Type} (im : IBCMiddleware σ) (ctx : Ctx σ)
    (portID channelID : String) :
    ∃ evs, (im.OnChanCloseConfirm ctx portID channelID).2.events = ctx.events ++ evs ∧
      (im.OnChanCloseConfirm ctx portID channelID).2.state = replay im evs ctx.state := by
  unfold IBCMiddleware.OnChanCloseConfirm
  repeat' split
  all_goals
    simp_all only [IBCMiddleware.appOnChanCloseConfirm,
      IBCMiddleware.RefundFeesOnChannelClosure, Ctx.write, Ctx.called, List.append_assoc]
    refine ⟨_, rfl, ?_⟩
    simp_all [replay, Event.effect, KeeperCall.effect, AppCall.effect]

/-- `OnRecvPacket` changes the store only through the calls it records. -/
theorem onRecvPacket_replays {σ : Type} (im : IBCMiddleware σ) (ctx : Ctx σ)
    (packet : Packet) (relayer : AccAddress) :
    ∃ evs, (im.OnRecvPacket ctx packet relayer).2.events = ctx.events ++ evs ∧
      (im.OnRecvPacket ctx packet relayer).2.state = replay im evs ctx.state := by
  unfold IBCMiddleware.OnRecvPacket
  simp only
  repeat' split
  all_goals
    simp_all only [IBCMiddleware.appOnRecvPacket, IBCMiddleware.IsFeeEnabled,
      IBCMiddleware.SetRelayerAddressForAsyncAck, IBCMiddleware.GetCounterpartyAddress,
      Ctx.read, Ctx.write, Ctx.called, List.append_assoc]
    refine ⟨_, rfl, ?_⟩
    simp_all [replay, Event.effect, KeeperCall.effect, AppCall.effect]

/-- `OnAcknowledgementPacket` changes the store only through the calls it records. -/
theorem onAcknowledgementPacket_replays {σ : Type} (im : IBCMiddleware σ) (types : Types)
    (ctx : Ctx σ) (packet : Packet) (acknowledgement : List Nat) (relayer : AccAddress) :
    ∃ evs, (im.OnAcknowledgementPacket types ctx packet acknowledgement relayer).2.events
        = ctx.events ++ evs ∧
      (im.OnAcknowledgementPacket types ctx packet acknowledgement relayer).2.state
        = replay im evs ctx.state := by
  unfold IBCMiddleware.OnAcknowledgementPacket
  simp only
  repeat' split
  all_goals
    simp only [IBCMiddleware.appOnAcknowledgementPacket, IBCMiddleware.IsFeeEnabled,
      IBCMiddleware.IsLocked, IBCMiddleware.GetFeesInEscrow,
      IBCMiddleware.DistributePacketFeesOnAcknowledgement, Ctx.read, Ctx.write, Ctx.called,
      List.append_assoc]
    refine ⟨_, rfl, ?_⟩
    simp [replay, Event.effect, KeeperCall.effect, AppCall.effect]

/-- `OnTimeoutPacket` changes the store only through the calls it records. -/
theorem onTimeoutPacket_replays {σ : Type} (im : IBCMiddleware σ) (ctx : Ctx σ)
    (packet : Packet) (relayer : AccAddress) :
    ∃ evs, (im.OnTimeoutPacket ctx packet relayer).2.events = ctx.events ++ evs ∧
      (im.OnTimeoutPacket ctx packet relayer).2.state = replay im evs ctx.state := by
  unfold IBCMiddleware.OnTimeoutPacket
  simp only
  repeat' split
  all_goals
    simp only [IBCMiddleware.appOnTimeoutPacket, IBCMiddleware.IsFeeEnabled,
      IBCMiddleware.IsLocked, IBCMiddleware.GetFeesInEscrow,
      IBCMiddleware.DistributePacketFeesOnTimeout, Ctx.read, Ctx.write, Ctx.called,
      List.append_assoc]
    refine ⟨_, rfl, ?_⟩
    simp [replay, Event.effect, KeeperCall.effect, AppCall.effect]

/-- Counterexample for C18, in two parts.  First, the keeper is locked, the
acknowledgement `[255, 1]` decodes as an incentivized acknowledgement whose
`AppAcknowledgement` is empty, and the channel is not fee enabled: the application
does not receive the unwrapped `AppAcknowledgement` but the raw bytes, and the
middleware returns the application's result on the raw bytes (no error), not its
result on the unwrapped acknowledgement (an error).  Second, a middleware callback
changes the locked flag whenever a keeper method it calls does: with a keeper that
locks itself when a distribution finds the escrow short of funds, `OnTimeoutPacket`
on a fee enabled channel starts with the keeper unlocked and leaves it locked. -/
theorem circuit_breaker_counterexample :
    (testMiddleware.keeper.IsLocked (testCtx [] true).state = true ∧
      testTypes.UnmarshalIncentivizedAcknowledgement [255, 1] = .ok ⟨"forward", [], true⟩ ∧
      testMiddleware.OnAcknowledgementPacket testTypes (testCtx [] true) testPacket [255, 1]
          testRelayer =
        (none,
          ⟨{ testState [] true with appCalls := 1 },
            [.keeper (.IsFeeEnabled "transfer" "channel-0"),
              .app (.OnAcknowledgementPacket testPacket [255, 1] testRelayer) (.error none)]⟩) ∧
      (testMiddleware.app.OnAcknowledgementPacket (testCtx [] true).state testPacket []
          testRelayer).1 = some (.external "empty acknowledgement")) ∧
    (lockingMiddleware.keeper.IsLocked (testCtx [("transfer", "channel-0")] false).state
        = false ∧
      lockingMiddleware.OnTimeoutPacket (testCtx [("transfer", "channel-0")] false) testPacket
          testRelayer =
        (some (.external "insufficient funds in escrow"),
          ⟨{ testState [("transfer", "channel-0")] false with locked := true },
            [.keeper (.IsFeeEnabled "transfer" "channel-0"), .keeper .IsLocked,
              .keeper (.GetFeesInEscrow ⟨"transfer", "channel-0", 1⟩),
              .keeper (.DistributePacketFeesOnTimeout testRelayer
                [⟨recvOnlyFee, "cosmos1refund", []⟩] ⟨"transfer", "channel-0", 1⟩)]⟩) ∧
      lockingMiddleware.keeper.IsLocked
        (lockingMiddleware.OnTimeoutPacket (testCtx [("transfer", "channel-0")] false)
          testPacket testRelayer).2.state = true) :=
  ⟨⟨rfl, rfl, rfl, rfl⟩, rfl, rfl, rfl⟩

/-- C18 (amended): circuit breaker.  When the fee keeper is locked, `OnTimeoutPacket`,
and `OnAcknowledgementPacket` on a fee enabled channel with an acknowledgement that
decodes as an `IncentivizedAcknowledgement`, perform no fee distribution (neither
`DistributePacketFeesOnAcknowledgement` nor `DistributePacketFeesOnTimeout` is
invoked, escrowed fees are not read: the keeper is only asked for the fee enabled
flag and the lock) and invoke the underlying application callback exactly once,
returning its result; for acknowledgements the application receives the unwrapped
`AppAcknowledgement`.  On a channel that is not fee enabled the application receives
the raw acknowledgement bytes.  With the keeper locked these callbacks call no keeper
method that writes, so that they leave the store, the locked flag included, as the
application callback leaves it.  In every callback the middleware itself only reads
the locked flag: the store after the callback is the store after the calls it
records, that is after `SetFeeEnabled`, `DistributePacketFeesOnAcknowledgement`,
`DistributePacketFeesOnTimeout`, `RefundFeesOnChannelClosure`,
`SetRelayerAddressForAsyncAck` and the callback of the application. -/
theorem locked_keeper_skips_fee_logic {σ : Type} (im : IBCMiddleware σ) (types : Types)
    (ctx : Ctx σ) (packet : Packet) (acknowledgement : List Nat) (relayer : AccAddress) :
    (im.keeper.IsLocked ctx.state = true →
      im.OnTimeoutPacket ctx packet relayer =
        ((im.app.OnTimeoutPacket ctx.state packet relayer).1,
          ⟨(im.app.OnTimeoutPacket ctx.state packet relayer).2,
            ctx.events ++
              (.keeper (.IsFeeEnabled packet.SourcePort packet.SourceChannel) ::
                (if im.keeper.IsFeeEnabled ctx.state packet.SourcePort packet.SourceChannel
                    = true
                  then [.keeper .IsLocked] else [])) ++
              [.app (.OnTimeoutPacket packet relayer)
                (.error (im.app.OnTimeoutPacket ctx.state packet relayer).1)]⟩) ∧
      (∀ ack, im.keeper.IsFeeEnabled ctx.state packet.SourcePort packet.SourceChannel = true →
        types.UnmarshalIncentivizedAcknowledgement acknowledgement = .ok ack →
        im.OnAcknowledgementPacket types ctx packet acknowledgement relayer =
          ((im.app.OnAcknowledgementPacket ctx.state packet ack.AppAcknowledgement relayer).1,
            ⟨(im.app.OnAcknowledgementPacket ctx.state packet ack.AppAcknowledgement
                relayer).2,
              ctx.events ++ [.keeper (.IsFeeEnabled packet.SourcePort packet.SourceChannel),
                .keeper .IsLocked,
                .app (.OnAcknowledgementPacket packet ack.AppAcknowledgement relayer)
                  (.error (im.app.OnAcknowledgementPacket ctx.state packet
                    ack.AppAcknowledgement relayer).1)]⟩)) ∧
      (im.keeper.IsFeeEnabled ctx.state packet.SourcePort packet.SourceChannel = false →
        im.OnAcknowledgementPacket types ctx packet acknowledgement relayer =
          ((im.app.OnAcknowledgementPacket ctx.state packet acknowledgement relayer).1,
            ⟨(im.app.OnAcknowledgementPacket ctx.state packet acknowledgement relayer).2,
              ctx.events ++ [.keeper (.IsFeeEnabled packet.SourcePort packet.SourceChannel),
                .app (.OnAcknowledgementPacket packet acknowledgement relayer)
                  (.error (im.app.OnAcknowledgementPacket ctx.state packet acknowledgement
                    relayer).1)]⟩))) ∧
    ((∀ order connectionHops portID channelID chanCap counterparty version,
        ∃ evs, (im.OnChanOpenInit types ctx order connectionHops portID channelID chanCap
            counterparty version).2.events = ctx.events ++ evs ∧
          (im.OnChanOpenInit types ctx order connectionHops portID channelID chanCap
            counterparty version).2.state = replay im evs ctx.state) ∧
      (∀ order connectionHops portID channelID chanCap counterparty version,
        ∃ evs, (im.OnChanOpenTry types ctx order connectionHops portID channelID chanCap
            counterparty version).2.events = ctx.events ++ evs ∧
          (im.OnChanOpenTry types ctx order connectionHops portID channelID chanCap
            counterparty version).2.state = replay im evs ctx.state) ∧
      (∀ portID channelID counterpartyChannelID version,
        ∃ evs, (im.OnChanOpenAck types ctx portID channelID counterpartyChannelID
            version).2.events = ctx.events ++ evs ∧
          (im.OnChanOpenAck types ctx portID channelID counterpartyChannelID
            version).2.state = replay im evs ctx.state) ∧
      (∀ portID channelID,
        ∃ evs, (im.OnChanOpenConfirm ctx portID channelID).2.events = ctx.events ++ evs ∧
          (im.OnChanOpenConfirm ctx portID channelID).2.state = replay im evs ctx.state) ∧
      (∀ portID channelID,
        ∃ evs, (im.OnChanCloseInit ctx portID channelID).2.events = ctx.events ++ evs ∧
          (im.OnChanCloseInit ctx portID channelID).2.state = replay im evs ctx.state) ∧
      (∀ portID channelID,
        ∃ evs, (im.OnChanCloseConfirm ctx portID channelID).2.events = ctx.events ++ evs ∧
          (im.OnChanCloseConfirm ctx portID channelID).2.state = replay im evs ctx.state) ∧
      (∀ pk r,
        ∃ evs, (im.OnRecvPacket ctx pk r).2.events = ctx.events ++ evs ∧
          (im.OnRecvPacket ctx pk r).2.state = replay im evs ctx.state) ∧
      (∀ pk a r,
        ∃ evs, (im.OnAcknowledgementPacket types ctx pk a r).2.events = ctx.events ++ evs ∧
          (im.OnAcknowledgementPacket types ctx pk a r).2.state = replay im evs ctx.state) ∧
      (∀ pk r,
        ∃ evs, (im.OnTimeoutPacket ctx pk r).2.events = ctx.events ++ evs ∧
          (im.OnTimeoutPacket ctx pk r).2.state = replay im evs ctx.state)) := by
  refine ⟨fun hlocked => ⟨?_, ?_, ?_⟩,
    fun order connectionHops portID channelID chanCap counterparty version =>
      onChanOpenInit_replays im types ctx order connectionHops portID channelID chanCap
        counterparty version,
    fun order connectionHops portID channelID chanCap counterparty version =>
      onChanOpenTry_replays im types ctx order connectionHops portID channelID chanCap
        counterparty version,
    fun portID channelID counterpartyChannelID version =>
      onChanOpenAck_replays im types ctx portID channelID counterpartyChannelID version,
    fun portID channelID => onChanOpenConfirm_replays im ctx portID channelID,
    fun portID channelID => onChanCloseInit_replays im ctx portID channelID,
    fun portID channelID => onChanCloseConfirm_replays im ctx portID channelID,
    fun pk r => onRecvPacket_replays im ctx pk r,
    fun pk a r => onAcknowledgementPacket_replays im types ctx pk a r,
    fun pk r => onTimeoutPacket_replays im ctx pk r⟩
  · unfold IBCMiddleware.OnTimeoutPacket
    simp only
    by_cases henabled :
        im.keeper.IsFeeEnabled ctx.state packet.SourcePort packet.SourceChannel = true
    · simp [IBCMiddleware.appOnTimeoutPacket, IBCMiddleware.IsFeeEnabled,
        IBCMiddleware.IsLocked, Ctx.read, Ctx.called, henabled, hlocked]
    · have hf : im.keeper.IsFeeEnabled ctx.state packet.SourcePort packet.SourceChannel
          = false := by simpa using henabled
      simp [IBCMiddleware.appOnTimeoutPacket, IBCMiddleware.IsFeeEnabled, Ctx.read,
        Ctx.called, hf]
  · intro ack henabled hdec
    unfold IBCMiddleware.OnAcknowledgementPacket
    simp [IBCMiddleware.appOnAcknowledgementPacket, IBCMiddleware.IsFeeEnabled,
      IBCMiddleware.IsLocked, Ctx.read, Ctx.called, henabled, hlocked, hdec]
  · intro hf
    simp [IBCMiddleware.OnAcknowledgementPacket, IBCMiddleware.IsFeeEnabled,
      IBCMiddleware.appOnAcknowledgementPacket, Ctx.read, Ctx.called, hf]

/-- The keeper and the application for evaluation leave the lock alone. -/
theorem testMiddleware_preservesLocked : testMiddleware.PreservesLocked where
  setFeeEnabled := fun _ _ _ => rfl
  distributeOnAcknowledgement := fun _ _ _ _ _ => rfl
  distributeOnTimeout := fun _ _ _ _ => rfl
  refund := fun _ _ _ => rfl
  setRelayerAddress := fun _ _ _ => rfl
  onChanOpenInit := fun _ _ _ _ _ _ _ _ => rfl
  onChanOpenTry := fun _ _ _ _ _ _ _ _ => rfl
  onChanOpenAck := fun _ _ _ _ _ => rfl
  onChanOpenConfirm := fun _ _ _ => rfl
  onChanCloseInit := fun _ _ _ => rfl
  onChanCloseConfirm := fun _ _ _ => rfl
  onRecvPacket := fun _ _ _ => rfl
  onAcknowledgementPacket := fun _ _ _ _ => rfl
  onTimeoutPacket := fun _ _ _ => rfl

/-- Witness for C18 (amended): the keeper is locked and `transfer/channel-0` is fee
enabled, with fees in escrow for the packet.  The timeout and the acknowledgement
`[255, 1, 7]` reach the application once, the latter unwrapped to `[7]`; the fees
stay in escrow, nothing is distributed and the keeper stays locked. -/
theorem locked_keeper_skips_fee_logic_witness :
    testMiddleware.OnTimeoutPacket (testCtx [("transfer", "channel-0")] true) testPacket
        testRelayer =
      (none,
        ⟨{ testState [("transfer", "channel-0")] true with appCalls := 1 },
          [.keeper (.IsFeeEnabled "transfer" "channel-0"), .keeper .IsLocked,
            .app (.OnTimeoutPacket testPacket testRelayer) (.error none)]⟩) ∧
    testMiddleware.OnAcknowledgementPacket testTypes (testCtx [("transfer", "channel-0")] true)
        testPacket [255, 1, 7] testRelayer =
      (none,
        ⟨{ testState [("transfer", "channel-0")] true with appCalls := 1 },
          [.keeper (.IsFeeEnabled "transfer" "channel-0"), .keeper .IsLocked,
            .app (.OnAcknowledgementPacket testPacket [7] testRelayer) (.error none)]⟩) ∧
    (∃ evs, (testMiddleware.OnRecvPacket (testCtx [("transfer", "channel-0")] true) testPacket
          testRelayer).2.events = (testCtx [("transfer", "channel-0")] true).events ++ evs ∧
        (testMiddleware.OnRecvPacket (testCtx [("transfer", "channel-0")] true) testPacket
          testRelayer).2.state
          = replay testMiddleware evs (testCtx [("transfer", "channel-0")] true).state) :=
  ⟨((locked_keeper_skips_fee_logic testMiddleware testTypes
      (testCtx [("transfer", "channel-0")] true) testPacket [255, 1, 7] testRelayer).1 rfl).1,
    ((locked_keeper_skips_fee_logic testMiddleware testTypes
      (testCtx [("transfer", "channel-0")] true) testPacket [255, 1, 7] testRelayer).1 rfl).2.1
      ⟨"forward", [7], true⟩ (by rfl) (by rfl),
    (locked_keeper_skips_fee_logic testMiddleware testTypes
      (testCtx [("transfer", "channel-0")] true) testPacket [255, 1, 7]
      testRelayer).2.2.2.2.2.2.2.1 testPacket testRelayer⟩


/-- The same packet with the keeper unlocked: the fees in escrow are read and
distributed before the application is called. -/
theorem unlocked_keeper_distributes :
    testMiddleware.OnTimeoutPacket (testCtx [("transfer", "channel-0")] false) testPacket
        testRelayer =
      (none,
        ⟨{ testState [("transfer", "channel-0")] false with
            escrow := [], distributed := [⟨"transfer", "channel-0", 1⟩], appCalls := 1 },
          [.keeper (.IsFeeEnabled "transfer" "channel-0"), .keeper .IsLocked,
            .keeper (.GetFeesInEscrow ⟨"transfer", "channel-0", 1⟩),
            .keeper (.DistributePacketFeesOnTimeout testRelayer
              [⟨recvOnlyFee, "cosmos1refund", []⟩] ⟨"transfer", "channel-0", 1⟩),
            .app (.OnTimeoutPacket testPacket testRelayer) (.error none)]⟩) :=
  rfl

end IBCFee
namespace IBCFee

/-- `OnChanOpenInit` calls the application at most once, through `OnChanOpenInit`, and
returns an error of it. -/
theorem onChanOpenInit_calls {σ : Type} (im : IBCMiddleware σ) (types : Types) (ctx : Ctx σ)
    (order : Order) (connectionHops : List String) (portID channelID : String) (chanCap : Nat)
    (counterparty : Counterparty) (version : String) :
    ∃ evs, (im.OnChanOpenInit types ctx order connectionHops portID channelID chanCap
        counterparty version).2.events = ctx.events ++ evs ∧
      CallsOnly .OnChanOpenInit evs (im.OnChanOpenInit types ctx order connectionHops portID
        channelID chanCap counterparty version).1 := by
  unfold IBCMiddleware.OnChanOpenInit
  repeat' split
  all_goals
    simp only [IBCMiddleware.appOnChanOpenInit, IBCMiddleware.SetFeeEnabled, Ctx.write,
      Ctx.called, List.append_assoc]
    first
      | (refine ⟨_, rfl, ?_⟩
         simp [CallsOnly, Event.isApp, AppCall.callback, AppResult.err])
      | (refine ⟨[], ?_, ?_⟩ <;> simp [CallsOnly])

/-- `OnChanOpenTry` calls the application at most once, through `OnChanOpenTry`, and
returns an error of it. -/
theorem onChanOpenTry_calls {σ : Type} (im : IBCMiddleware σ) (types : Types) (ctx : Ctx σ)
    (order : Order) (connectionHops : List String) (portID channelID : String) (chanCap : Nat)
    (counterparty : Counterparty) (counterpartyVersion : String) :
    ∃ evs, (im.OnChanOpenTry types ctx order connectionHops portID channelID chanCap
        counterparty counterpartyVersion).2.events = ctx.events ++ evs ∧
      CallsOnly .OnChanOpenTry evs (im.OnChanOpenTry types ctx order connectionHops portID
        channelID chanCap counterparty counterpartyVersion).1.2 := by
  unfold IBCMiddleware.OnChanOpenTry
  simp only
  repeat' split
  all_goals
    simp_all only [IBCMiddleware.appOnChanOpenTry, IBCMiddleware.SetFeeEnabled, Ctx.write,
      Ctx.called, List.append_assoc]
    first
      | (refine ⟨_, rfl, ?_⟩
         simp_all [CallsOnly, Event.isApp, AppCall.callback, AppResult.err])
      | (refine ⟨[], ?_, ?_⟩ <;> simp [CallsOnly])

/-- `OnChanOpenAck` calls the application at most once, through `OnChanOpenAck`, and
returns an error of it. -/
theorem onChanOpenAck_calls {σ : Type} (im : IBCMiddleware σ) (types : Types) (ctx : Ctx σ)
    (portID channelID counterpartyChannelID counterpartyVersion : String) :
    ∃ evs, (im.OnChanOpenAck types ctx portID channelID counterpartyChannelID
        counterpartyVersion).2.events = ctx.events ++ evs ∧
      CallsOnly .OnChanOpenAck evs (im.OnChanOpenAck types ctx portID channelID
        counterpartyChannelID counterpartyVersion).1 := by
  unfold IBCMiddleware.OnChanOpenAck
  repeat' split
  all_goals
    simp only [IBCMiddleware.appOnChanOpenAck, IBCMiddleware.IsFeeEnabled, Ctx.read,
      Ctx.called, List.append_assoc]
    refine ⟨_, rfl, ?_⟩
    simp [CallsOnly, Event.isApp, AppCall.callback, AppResult.err]

/-- `OnChanOpenConfirm` calls the application once, through `OnChanOpenConfirm`, and
returns an error of it. -/
theorem onChanOpenConfirm_calls {σ : Type} (im : IBCMiddleware σ) (ctx : Ctx σ)
    (portID channelID : String) :
    ∃ evs, (im.OnChanOpenConfirm ctx portID channelID).2.events = ctx.events ++ evs ∧
      CallsOnly .OnChanOpenConfirm evs (im.OnChanOpenConfirm ctx portID channelID).1 := by
  unfold IBCMiddleware.OnChanOpenConfirm
  simp only [IBCMiddleware.appOnChanOpenConfirm, Ctx.called]
  refine ⟨_, rfl, ?_⟩
  simp [CallsOnly, Event.isApp, AppCall.callback, AppResult.err]

/-- `OnChanCloseInit` calls the application once, through `OnChanCloseInit`, and
returns an error of it. -/
theorem onChanCloseInit_calls {σ : Type} (im : IBCMiddleware σ) (ctx : Ctx σ)
    (portID channelID : String) :
    ∃ evs, (im.OnChanCloseInit ctx portID channelID).2.events = ctx.events ++ evs ∧
      CallsOnly .OnChanCloseInit evs (im.OnChanCloseInit ctx portID channelID).1 := by
  unfold IBCMiddleware.OnChanCloseInit
  repeat' split
  all_goals
    simp_all only [IBCMiddleware.appOnChanCloseInit, IBCMiddleware.RefundFeesOnChannelClosure,
      Ctx.write, Ctx.called, List.append_assoc]
    refine ⟨_, rfl, ?_⟩
    simp_all [CallsOnly, Event.isApp, AppCall.callback, AppResult.err]

/-- `OnChanCloseConfirm` calls the application once, through `OnChanCloseConfirm`, and
returns an error of it. -/
theorem onChanCloseConfirm_calls {σ : Type} (im : IBCMiddleware σ) (ctx : Ctx σ)
    (portID channelID : String) :
    ∃ evs, (im.OnChanCloseConfirm ctx portID channelID).2.events = ctx.events ++ evs ∧
      CallsOnly .OnChanCloseConfirm evs (im.OnChanCloseConfirm ctx portID channelID).1 := by
  unfold IBCMiddleware.OnChanCloseConfirm
  repeat' split
  all_goals
    simp_all only [IBCMiddleware.appOnChanCloseConfirm,
      IBCMiddleware.RefundFeesOnChannelClosure, Ctx.write, Ctx.called, List.append_assoc]
    refine ⟨_, rfl, ?_⟩
    simp_all [CallsOnly, Event.isApp, AppCall.callback, AppResult.err]

/-- `OnRecvPacket` calls the application once, through `OnRecvPacket`, and answers an
acknowledgement of it by an acknowledgement with the same `Success()`. -/
theorem onRecvPacket_calls {σ : Type} (im : IBCMiddleware σ) (ctx : Ctx σ)
    (packet : Packet) (relayer : AccAddress) :
    ∃ evs, (im.OnRecvPacket ctx packet relayer).2.events = ctx.events ++ evs ∧
      RecvCallsOnly evs (im.OnRecvPacket ctx packet relayer).1 := by
  unfold IBCMiddleware.OnRecvPacket
  simp only
  repeat' split
  all_goals
    simp_all only [IBCMiddleware.appOnRecvPacket, IBCMiddleware.IsFeeEnabled,
      IBCMiddleware.SetRelayerAddressForAsyncAck, IBCMiddleware.GetCounterpartyAddress,
      Ctx.read, Ctx.write, Ctx.called, List.append_assoc]
    refine ⟨_, rfl, ?_⟩
    simp_all [RecvCallsOnly, Event.isApp, AppCall.callback, Acknowledgement.Success,
      IncentivizedAcknowledgement.Success, NewIncentivizedAcknowledgement]

/-- `OnAcknowledgementPacket` calls the application at most once, through
`OnAcknowledgementPacket`, and returns an error of it. -/
theorem onAcknowledgementPacket_calls {σ : Type} (im : IBCMiddleware σ) (types : Types)
    (ctx : Ctx σ) (packet : Packet) (acknowledgement : List Nat) (relayer : AccAddress) :
    ∃ evs, (im.OnAcknowledgementPacket types ctx packet acknowledgement relayer).2.events
        = ctx.events ++ evs ∧
      CallsOnly .OnAcknowledgementPacket evs
        (im.OnAcknowledgementPacket types ctx packet acknowledgement relayer).1 := by
  unfold IBCMiddleware.OnAcknowledgementPacket
  simp only
  repeat' split
  all_goals
    simp only [IBCMiddleware.appOnAcknowledgementPacket, IBCMiddleware.IsFeeEnabled,
      IBCMiddleware.IsLocked, IBCMiddleware.GetFeesInEscrow,
      IBCMiddleware.DistributePacketFeesOnAcknowledgement, Ctx.read, Ctx.write, Ctx.called,
      List.append_assoc]
    refine ⟨_, rfl, ?_⟩
    simp [CallsOnly, Event.isApp, AppCall.callback, AppResult.err]

/-- `OnTimeoutPacket` calls the application at most once, through `OnTimeoutPacket`,
and returns an error of it. -/
theorem onTimeoutPacket_calls {σ : Type} (im : IBCMiddleware σ) (ctx : Ctx σ)
    (packet : Packet) (relayer : AccAddress) :
    ∃ evs, (im.OnTimeoutPacket ctx packet relayer).2.events = ctx.events ++ evs ∧
      CallsOnly .OnTimeoutPacket evs (im.OnTimeoutPacket ctx packet relayer).1 := by
  unfold IBCMiddleware.OnTimeoutPacket
  simp only
  repeat' split
  all_goals
    simp only [IBCMiddleware.appOnTimeoutPacket, IBCMiddleware.IsFeeEnabled,
      IBCMiddleware.IsLocked, IBCMiddleware.GetFeesInEscrow,
      IBCMiddleware.DistributePacketFeesOnTimeout, Ctx.read, Ctx.write, Ctx.called,
      List.append_assoc]
    refine ⟨_, rfl, ?_⟩
    simp [CallsOnly, Event.isApp, AppCall.callback, AppResult.err]

end IBCFee
namespace IBCFee

/-- C19: every fee-middleware callback (`OnChanOpenInit`, `OnChanOpenTry`,
`OnChanOpenAck`, `OnChanOpenConfirm`, `OnChanCloseInit`, `OnChanCloseConfirm`,
`OnRecvPacket`, `OnAcknowledgementPacket`, `OnTimeoutPacket`) invokes the
corresponding callback of the underlying application at most once per call, never
invokes a different application callback, and propagates a negative application
result: if the application callback returns an error the middleware returns that
error, and for `OnRecvPacket` the acknowledgement returned for an acknowledgement of
the application has the same `Success()`. -/
theorem middleware_calls_application_once {σ : Type} (im : IBCMiddleware σ) (types : Types)
    (ctx : Ctx σ) :
    (∀ order connectionHops portID channelID chanCap counterparty version,
      ∃ evs, (im.OnChanOpenInit types ctx order connectionHops portID channelID chanCap
          counterparty version).2.events = ctx.events ++ evs ∧
        CallsOnly .OnChanOpenInit evs (im.OnChanOpenInit types ctx order connectionHops portID
          channelID chanCap counterparty version).1) ∧
    (∀ order connectionHops portID channelID chanCap counterparty counterpartyVersion,
      ∃ evs, (im.OnChanOpenTry types ctx order connectionHops portID channelID chanCap
          counterparty counterpartyVersion).2.events = ctx.events ++ evs ∧
        CallsOnly .OnChanOpenTry evs (im.OnChanOpenTry types ctx order connectionHops portID
          channelID chanCap counterparty counterpartyVersion).1.2) ∧
    (∀ portID channelID counterpartyChannelID counterpartyVersion,
      ∃ evs, (im.OnChanOpenAck types ctx portID channelID counterpartyChannelID
          counterpartyVersion).2.events = ctx.events ++ evs ∧
        CallsOnly .OnChanOpenAck evs (im.OnChanOpenAck types ctx portID channelID
          counterpartyChannelID counterpartyVersion).1) ∧
    (∀ portID channelID,
      ∃ evs, (im.OnChanOpenConfirm ctx portID channelID).2.events = ctx.events ++ evs ∧
        CallsOnly .OnChanOpenConfirm evs (im.OnChanOpenConfirm ctx portID channelID).1) ∧
    (∀ portID channelID,
      ∃ evs, (im.OnChanCloseInit ctx portID channelID).2.events = ctx.events ++ evs ∧
        CallsOnly .OnChanCloseInit evs (im.OnChanCloseInit ctx portID channelID).1) ∧
    (∀ portID channelID,
      ∃ evs, (im.OnChanCloseConfirm ctx portID channelID).2.events = ctx.events ++ evs ∧
        CallsOnly .OnChanCloseConfirm evs (im.OnChanCloseConfirm ctx portID channelID).1) ∧
    (∀ packet relayer,
      ∃ evs, (im.OnRecvPacket ctx packet relayer).2.events = ctx.events ++ evs ∧
        RecvCallsOnly evs (im.OnRecvPacket ctx packet relayer).1) ∧
    (∀ packet acknowledgement relayer,
      ∃ evs, (im.OnAcknowledgementPacket types ctx packet acknowledgement relayer).2.events
          = ctx.events ++ evs ∧
        CallsOnly .OnAcknowledgementPacket evs
          (im.OnAcknowledgementPacket types ctx packet acknowledgement relayer).1) ∧
    (∀ packet relayer,
      ∃ evs, (im.OnTimeoutPacket ctx packet relayer).2.events = ctx.events ++ evs ∧
        CallsOnly .OnTimeoutPacket evs (im.OnTimeoutPacket ctx packet relayer).1) :=
  ⟨fun order connectionHops portID channelID chanCap counterparty version =>
      onChanOpenInit_calls im types ctx order connectionHops portID channelID chanCap
        counterparty version,
    fun order connectionHops portID channelID chanCap counterparty counterpartyVersion =>
      onChanOpenTry_calls im types ctx order connectionHops portID channelID chanCap
        counterparty counterpartyVersion,
    fun portID channelID counterpartyChannelID counterpartyVersion =>
      onChanOpenAck_calls im types ctx portID channelID counterpartyChannelID
        counterpartyVersion,
    fun portID channelID => onChanOpenConfirm_calls im ctx portID channelID,
    fun portID channelID => onChanCloseInit_calls im ctx portID channelID,
    fun portID channelID => onChanCloseConfirm_calls im ctx portID channelID,
    fun packet relayer => onRecvPacket_calls im ctx packet relayer,
    fun packet acknowledgement relayer =>
      onAcknowledgementPacket_calls im types ctx packet acknowledgement relayer,
    fun packet relayer => onTimeoutPacket_calls im ctx packet relayer⟩

/-- Runs on the instance for evaluation, on the fee enabled channels
`transfer/channel-0` and `transfer/channel-1` with the keeper unlocked: an error of
the application (it rejects the empty acknowledgement unwrapped from `[255, 1]`) is
returned after the fees were distributed and the application was called once; a
received packet is acknowledged with the application's success flag. -/
theorem middleware_calls_runs :
    testMiddleware.OnAcknowledgementPacket testTypes
        (testCtx [("transfer", "channel-0")] false) testPacket [255, 1] testRelayer =
      (some (.external "empty acknowledgement"),
        ⟨{ testState [("transfer", "channel-0")] false with
            escrow := [], distributed := [⟨"transfer", "channel-0", 1⟩], appCalls := 1 },
          [.keeper (.IsFeeEnabled "transfer" "channel-0"), .keeper .IsLocked,
            .keeper (.GetFeesInEscrow ⟨"transfer", "channel-0", 1⟩),
            .keeper (.DistributePacketFeesOnAcknowledgement "forward" testRelayer
              [⟨recvOnlyFee, "cosmos1refund", []⟩] ⟨"transfer", "channel-0", 1⟩),
            .app (.OnAcknowledgementPacket testPacket [] testRelayer)
              (.error (some (.external "empty acknowledgement")))]⟩) ∧
    testMiddleware.OnRecvPacket (testCtx [("transfer", "channel-1")] false) testPacket
        testRelayer =
      (some (.incentivized ⟨"", [7], true⟩),
        ⟨{ testState [("transfer", "channel-1")] false with appCalls := 1 },
          [.keeper (.IsFeeEnabled "transfer" "channel-1"),
            .app (.OnRecvPacket testPacket testRelayer) (.ack (some ⟨true, [7]⟩)),
            .keeper (.GetCounterpartyAddress "cosmos1relayer" "channel-1")]⟩) :=
  ⟨rfl, rfl⟩

end IBCFee
